import Mathlib

/-!
# gtkdecor: decoration lifecycle and theme resolution

A shallow embedding of `src/decoration.cpp` (the plugin class `wayfire_gtkdecor`) and of
`src/deco-theme.cpp` (the class `decoration_theme_t`), followed by theorems about them.

Conventions of the embedding:

* C++ `int` geometry is modelled by `Int`; signed overflow is undefined behaviour in C++ and
  is outside the model.
* `std::string` is modelled by `List Char`; every character test made by the source is a test
  on an ASCII character, so a non-ASCII character behaves like the bytes that encode it.
* `double` colour channels are modelled by exact rationals (`ℚ`): `n / 255.0` is the rational
  `n / 255`. The range errors of `std::stod` are modelled, the rounding of a `double` is not.
* C++ exceptions are modelled by `Except std_exception`.
-/

namespace GtkDecor

/-! ## Part 1: the decoration lifecycle (`src/decoration.cpp`) -/

/-- The host type `wf::geometry_t`: `x, y, width, height`. -/
structure geometry_t where
  x : Int
  y : Int
  width : Int
  height : Int
deriving DecidableEq, Repr

/-- The host type `wf::decoration_margins_t`, fields in the host order
`left, right, bottom, top`, so that `mk 0 0 0 0` is the literal written in the source. -/
structure decoration_margins_t where
  left : Int
  right : Int
  bottom : Int
  top : Int
deriving DecidableEq, Repr

/-- The fields of the host type `wf::toplevel_state_t` that the plugin reads or writes.
`tiled_edges` is a bit mask; the source only tests it against zero. -/
structure toplevel_state_t where
  mapped : Bool
  geometry : geometry_t
  margins : decoration_margins_t
  tiled_edges : Nat
  fullscreen : Bool
deriving DecidableEq, Repr

/-- The decoration record `wf::simple_decorator_t` (declared in `deco-subsurface.hpp`, which is
not among the sources). The plugin uses one method of it, `get_margins`, which is kept as a
field; `tag` stands for the rest of the object. -/
structure simple_decorator_t where
  tag : Nat
  get_margins : toplevel_state_t → decoration_margins_t

/-- The host object `wf::toplevel_t`: current and pending state, and the single side-data slot
for a `simple_decorator_t` (`store_data` / `get_data` / `has_data` / `erase_data`). -/
structure toplevel_t where
  current : toplevel_state_t
  pending : toplevel_state_t
  data : Option simple_decorator_t

/-- A toplevel view (`wayfire_toplevel_view`): `should_be_decorated` is the view's own
preference, `output` is the work area of `view->get_output()` (`none` for a null output) and
`toplevel` is `view->toplevel()`. `app_id` and `title` are what a matcher may look at. -/
structure toplevel_view_t where
  app_id : Nat
  title : List Char
  should_be_decorated : Bool
  output : Option geometry_t
  toplevel : toplevel_t

/-- A `wayfire_view`: either a toplevel view or some other kind of view, for which
`wf::toplevel_cast` yields null. -/
inductive wayfire_view where
  | toplevel (v : toplevel_view_t)
  | other (id : Nat)

/-- The host function `wf::toplevel_cast`. -/
def toplevel_cast : wayfire_view → Option toplevel_view_t
  | .toplevel v => some v
  | .other _ => none

/-- The plugin object `wayfire_gtkdecor`: its two matchers, as predicates on the view, and the
constructor of the decoration record (`std::make_unique<wf::simple_decorator_t>(view)`). -/
structure wayfire_gtkdecor where
  ignore_views : toplevel_view_t → Bool
  forced_views : toplevel_view_t → Bool
  make_decorator : toplevel_view_t → simple_decorator_t

/-- Modelled from the spec: the host function `wf::expand_geometry_by_margins` is not in src/;
the pending geometry is expanded by the margins on each side. -/
def expand_geometry_by_margins (g : geometry_t) (m : decoration_margins_t) : geometry_t :=
  { x := g.x - m.left
    y := g.y - m.top
    width := g.width + (m.left + m.right)
    height := g.height + (m.top + m.bottom) }

/-- Modelled from the spec: the host function `wf::shrink_geometry_by_margins` is not in src/;
the pending geometry is shrunk by the margins on each side. -/
def shrink_geometry_by_margins (g : geometry_t) (m : decoration_margins_t) : geometry_t :=
  { x := g.x + m.left
    y := g.y + m.top
    width := g.width - (m.left + m.right)
    height := g.height - (m.top + m.bottom) }

/-- Modelled from the spec: the host's scalar `wf::clamp(value, min, max)`, which is
`std::min(std::max(value, min), max)`; not in src/. -/
def clamp_int (value lo hi : Int) : Int := min (max value lo) hi

/-- Modelled from the spec: the host function `wf::clamp(window, output)` is not in src/; the
geometry is clamped to the output work area: first the size to at most the area's size, then
the position so that the window lies inside the area. -/
def clamp (window output : geometry_t) : geometry_t :=
  let width := clamp_int window.width 0 output.width
  let height := clamp_int window.height 0 output.height
  { x := clamp_int window.x output.x (output.x + output.width - width)
    y := clamp_int window.y output.y (output.y + output.height - height)
    width := width
    height := height }

/-- `wayfire_gtkdecor::ignore_decoration_of_view`. -/
def ignore_decoration_of_view (self : wayfire_gtkdecor) (view : toplevel_view_t) : Bool :=
  self.ignore_views view

/-- `wayfire_gtkdecor::force_decoration_of_view`. -/
def force_decoration_of_view (self : wayfire_gtkdecor) (view : toplevel_view_t) : Bool :=
  self.forced_views view

/-- `wayfire_gtkdecor::should_decorate_view`. -/
def should_decorate_view (self : wayfire_gtkdecor) (view : toplevel_view_t) : Bool :=
  !ignore_decoration_of_view self view &&
    (force_decoration_of_view self view || view.should_be_decorated)

/-- `wayfire_gtkdecor::adjust_new_decorations`: store a new record, set the pending margins
from it, and for a window that is neither fullscreen nor tiled expand the pending geometry and
clamp it to the work area of the output, when there is one. -/
def adjust_new_decorations (self : wayfire_gtkdecor) (view : toplevel_view_t) :
    toplevel_view_t :=
  let deco := self.make_decorator view
  let pending := view.toplevel.pending
  let pending := { pending with margins := deco.get_margins pending }
  let pending :=
    if !pending.fullscreen && pending.tiled_edges == 0 then
      let pending :=
        { pending with geometry := expand_geometry_by_margins pending.geometry pending.margins }
      match view.output with
      | some workarea => { pending with geometry := clamp pending.geometry workarea }
      | none => pending
    else pending
  { view with toplevel := { view.toplevel with data := some deco, pending := pending } }

/-- `wayfire_gtkdecor::remove_decoration`: erase the record, shrink the pending geometry of a
window that is neither fullscreen nor tiled by the pending margins, and zero the margins. -/
def remove_decoration (view : toplevel_view_t) : toplevel_view_t :=
  let pending := view.toplevel.pending
  let pending :=
    if !pending.fullscreen && pending.tiled_edges == 0 then
      { pending with geometry := shrink_geometry_by_margins pending.geometry pending.margins }
    else pending
  let pending := { pending with margins := decoration_margins_t.mk 0 0 0 0 }
  { view with toplevel := { view.toplevel with data := none, pending := pending } }

/-- `wayfire_gtkdecor::is_toplevel_decorated`. -/
def is_toplevel_decorated (toplevel : toplevel_t) : Bool :=
  toplevel.data.isSome

/-- What a signal handler leaves behind: the view, and the toplevels handed to
`tx_manager->schedule_object`, in call order. -/
structure handler_result where
  view : wayfire_view
  scheduled : List toplevel_t

/-- `wayfire_gtkdecor::update_view_decoration`. -/
def update_view_decoration (self : wayfire_gtkdecor) (view : wayfire_view) : handler_result :=
  match toplevel_cast view with
  | some toplevel =>
    let wants_decoration := should_decorate_view self toplevel
    if wants_decoration != is_toplevel_decorated toplevel.toplevel then
      let toplevel :=
        if wants_decoration then adjust_new_decorations self toplevel
        else remove_decoration toplevel
      { view := .toplevel toplevel, scheduled := [toplevel.toplevel] }
    else { view := view, scheduled := [] }
  | none => { view := view, scheduled := [] }

/-- The handler `on_decoration_state_changed`. -/
def on_decoration_state_changed (self : wayfire_gtkdecor) (ev_view : wayfire_view) :
    handler_result :=
  update_view_decoration self ev_view

/-- The handler `on_view_tiled`. -/
def on_view_tiled (self : wayfire_gtkdecor) (ev_view : wayfire_view) : handler_result :=
  update_view_decoration self ev_view


/-! ## Part 2: theme resolution (`src/deco-theme.cpp`) -/

/-- The two exceptions the standard conversions `std::stoi` and `std::stod` throw. -/
inductive std_exception where
  | invalid_argument
  | out_of_range
deriving DecidableEq, Repr

/-- The host type `wf::color_t`: four `double` channels, kept as exact rationals. -/
structure color_t where
  r : ℚ
  g : ℚ
  b : ℚ
  a : ℚ
deriving DecidableEq, Repr

/-! ### Character classes (the classic "C" locale) -/

/-- `\s` / `isspace`: space, `\t`, `\n`, `\v`, `\f`, `\r`. -/
def isspace (c : Char) : Bool :=
  c.toNat == 32 || (decide (9 ≤ c.toNat) && decide (c.toNat ≤ 13))

/-- `\d` / `isdigit`: `0`-`9`. -/
def isdigit (c : Char) : Bool :=
  decide (48 ≤ c.toNat) && decide (c.toNat ≤ 57)

/-- Lower-case ASCII letter. -/
def islower (c : Char) : Bool :=
  decide (97 ≤ c.toNat) && decide (c.toNat ≤ 122)

/-- Upper-case ASCII letter. -/
def isupper (c : Char) : Bool :=
  decide (65 ≤ c.toNat) && decide (c.toNat ≤ 90)

/-- The class `[0-9a-fA-F]`. -/
def isxdigit (c : Char) : Bool :=
  isdigit c || (decide (97 ≤ c.toNat) && decide (c.toNat ≤ 102))
    || (decide (65 ≤ c.toNat) && decide (c.toNat ≤ 70))

/-- `\w`: letters, digits and the underscore. -/
def isword (c : Char) : Bool :=
  isdigit c || islower c || isupper c || c.toNat == 95

/-- The class `[\d.]`. -/
def isdigit_or_dot (c : Char) : Bool :=
  isdigit c || c.toNat == 46

/-- The class `[^;]`. -/
def not_semicolon (c : Char) : Bool :=
  c.toNat != 59

/-! ### `std::stoi` and `std::stod` -/

/-- The value `strtol` gives a character as a digit: `0`-`9` are 0-9 and the letters, in
either case, are 10-35. -/
def digit_value (c : Char) : Option Nat :=
  if isdigit c then some (c.toNat - 48)
  else if islower c then some (c.toNat - 87)
  else if isupper c then some (c.toNat - 55)
  else none

/-- A character that is a digit of the given base. -/
def is_base_digit (base : Nat) (c : Char) : Bool :=
  match digit_value c with
  | some v => decide (v < base)
  | none => false

/-- The number a run of digits of the given base denotes. -/
def digits_value (base : Nat) (digits : List Char) : Nat :=
  digits.foldl (fun acc c => acc * base + (digit_value c).getD 0) 0

/-- The sign `strtol` reads: an optional `+` or `-`. The result is the flag "negative" and the
rest of the text. -/
def read_sign : List Char → Bool × List Char
  | c :: cs => if c = '-' then (true, cs) else if c = '+' then (false, cs) else (false, c :: cs)
  | [] => (false, [])

/-- In base 16 `strtol` skips a `0x` / `0X` prefix that a hexadecimal digit follows. -/
def skip_hex_marker (base : Nat) : List Char → List Char
  | c0 :: cx :: d :: cs =>
    if base = 16 ∧ c0 = '0' ∧ (cx = 'x' ∨ cx = 'X') ∧ is_base_digit 16 d = true then d :: cs
    else c0 :: cx :: d :: cs
  | s => s

/-- `std::stoi(str, nullptr, base)`: leading white space and a sign are skipped, the longest
run of digits is converted; no digit at all throws `std::invalid_argument`, a value outside
the range of a 32-bit `int` throws `std::out_of_range`. What follows the digits is ignored. -/
def stoi (str : List Char) (base : Nat) : Except std_exception Int :=
  let s := str.dropWhile isspace
  let (negative, s) := read_sign s
  let s := skip_hex_marker base s
  let digits := s.takeWhile (is_base_digit base)
  if digits = [] then .error .invalid_argument
  else
    let magnitude : Int := digits_value base digits
    let value : Int := if negative then -magnitude else magnitude
    if value < -2147483648 ∨ 2147483647 < value then .error .out_of_range
    else .ok value

/-- The least number that `strtod` rounds beyond the largest finite `double`:
`2^1024 - 2^970`, half a unit in the last place above `DBL_MAX = 2^1024 - 2^971`. -/
def dbl_overflow : Nat := (1 <<< 1024) - (1 <<< 970)

/-- The inverse `2^1022` of the least positive normal `double`, `DBL_MIN = 2^-1022`. -/
def dbl_min_inv : Nat := 1 <<< 1022

/-- The inverse `2^1074` of the least positive `double`, the subnormal `2^-1074`; every
`double` below `DBL_MIN` is a multiple of it. -/
def dbl_denorm_inv : Nat := 1 <<< 1074

/-- `std::stod(str)` on a text made of digits and dots, the only texts its call site passes
(a match of `[\d.]+`): the longest prefix of the form digits, optional dot, digits is
converted by `strtod`, and a prefix without any digit throws `std::invalid_argument`.
`std::stod` throws `std::out_of_range` when `strtod` reports `ERANGE`. That is the case when
the number overflows, which in the rounding to nearest is from `dbl_overflow` on, and when it
underflows: for a number below `DBL_MIN` other than zero the C standard leaves the report to
the library, and the model takes the rule of glibc and musl, which report a result that is
not exact, that is a number that is no multiple of `2^-1074`. With `mantissa / scale` the
number read, the three tests are written on natural numbers. The value returned is kept
exact: the rounding of a `double` is outside the model. -/
def stod (str : List Char) : Except std_exception ℚ :=
  let int_part := str.takeWhile isdigit
  let rest := str.dropWhile isdigit
  let frac_part :=
    match rest with
    | c :: cs => if c = '.' then cs.takeWhile isdigit else []
    | [] => []
  if int_part = [] ∧ frac_part = [] then .error .invalid_argument
  else
    let scale : Nat := 10 ^ frac_part.length
    let mantissa : Nat := digits_value 10 int_part * scale + digits_value 10 frac_part
    if dbl_overflow * scale ≤ mantissa then .error .out_of_range
    else if 0 < mantissa ∧ mantissa * dbl_min_inv < scale
        ∧ (mantissa * dbl_denorm_inv) % scale ≠ 0 then .error .out_of_range
    else
      .ok ((digits_value 10 int_part : ℚ)
        + (digits_value 10 frac_part : ℚ) / (10 : ℚ) ^ frac_part.length)

/-! ### The regular expressions

Each `std::regex` of the source is written out as the function that matches it at the start
of a text. In every pattern but two, a greedy repetition is followed by something that cannot
begin with a character of the repeated class, so the backtracking matcher of `std::regex`
finds a match exactly when the single greedy pass does, and the same one. The two exceptions
are `\s+([^;]+)` and `\s*([^;]+)`, where the repetition of white space gives one character
back when nothing else is left for the group; they are written out in `value_up_to_semicolon`.
`std::regex_search` tries the start positions from left to right. -/

/-- A match result `std::smatch`: the capture groups from group 1 on (`none` for a group that
did not take part in the match) and the text after the match (`suffix()`). -/
structure smatch where
  groups : List (Option (List Char))
  suffix : List Char
deriving DecidableEq, Repr

/-- The test `match[i].matched`, for `i ≥ 1`. -/
def smatch.matched (m : smatch) (i : Nat) : Bool :=
  ((m.groups.getD (i - 1) none)).isSome

/-- The text `match[i].str()`, for `i ≥ 1`; empty for a group that did not match. -/
def smatch.str (m : smatch) (i : Nat) : List Char :=
  (m.groups.getD (i - 1) none).getD []

/-- `std::regex_search`: the match at the leftmost start position that has one. -/
def regex_search (match_here : List Char → Option smatch) : List Char → Option smatch
  | [] => match_here []
  | c :: cs =>
    match match_here (c :: cs) with
    | some m => some m
    | none => regex_search match_here cs

/-- A literal piece of a pattern: the text must start with it. -/
def expect_literal (lit : List Char) (s : List Char) : Option (List Char) :=
  if lit.isPrefixOf s then some (s.drop lit.length) else none

/-- A greedy `class+`: the longest non-empty run of the class, and the rest. -/
def take_plus (cls : Char → Bool) (s : List Char) : Option (List Char × List Char) :=
  if s.takeWhile cls = [] then none else some (s.takeWhile cls, s.dropWhile cls)

/-- The pattern `#([0-9a-fA-F]{6})([0-9a-fA-F]{2})?` at the start of a text. -/
def hex_regex (s : List Char) : Option smatch :=
  match s with
  | c :: rest =>
    if c = '#' ∧ (rest.take 6).length = 6 ∧ (rest.take 6).all isxdigit = true then
      let after := rest.drop 6
      if (after.take 2).length = 2 ∧ (after.take 2).all isxdigit = true then
        some { groups := [some (rest.take 6), some (after.take 2)], suffix := after.drop 2 }
      else some { groups := [some (rest.take 6), none], suffix := after }
    else none
  | [] => none

/-- The optional group `(?:,\s*([\d.]+))?` of the rgba pattern: the captured text, if the
group matches, and the rest of the text. -/
def rgba_alpha_group (s : List Char) : Option (List Char) × List Char :=
  match expect_literal [','] s with
  | some s1 =>
    match take_plus isdigit_or_dot (s1.dropWhile isspace) with
    | some (alpha, s2) => (some alpha, s2)
    | none => (none, s)
  | none => (none, s)

/-- The pattern
`rgba?\s*\(\s*(\d+)\s*,\s*(\d+)\s*,\s*(\d+)\s*(?:,\s*([\d.]+))?\s*\)` at the start of a
text. -/
def rgba_regex (s : List Char) : Option smatch := do
  let s ← expect_literal ['r', 'g', 'b'] s
  let s := (expect_literal ['a'] s).getD s
  let s ← expect_literal ['('] (s.dropWhile isspace)
  let (red, s) ← take_plus isdigit (s.dropWhile isspace)
  let s ← expect_literal [','] (s.dropWhile isspace)
  let (green, s) ← take_plus isdigit (s.dropWhile isspace)
  let s ← expect_literal [','] (s.dropWhile isspace)
  let (blue, s) ← take_plus isdigit (s.dropWhile isspace)
  let (alpha, s) := rgba_alpha_group (s.dropWhile isspace)
  let s ← expect_literal [')'] (s.dropWhile isspace)
  pure { groups := [some red, some green, some blue, alpha], suffix := s }

/-- The tail `\s⋆([^;]+);` of a pattern, after the white space `ws` that the greedy repetition
took (with `min_ws` the least it must keep) and with `s` the text after it: the group is the
text up to the next semicolon; when that text is empty, the repetition hands its last
character over to the group if it can spare one. The result is the group and the text after
the semicolon. -/
def value_up_to_semicolon (min_ws : Nat) (ws s : List Char) :
    Option (List Char × List Char) :=
  match s.dropWhile not_semicolon with
  | [] => none
  | _ :: after =>
    if s.takeWhile not_semicolon ≠ [] then some (s.takeWhile not_semicolon, after)
    else
      match ws.getLast? with
      | some last => if min_ws < ws.length then some ([last], after) else none
      | none => none

/-- The pattern `@define-color\s+(\w+)\s+([^;]+);` at the start of a text. -/
def define_color_regex (s : List Char) : Option smatch := do
  let s ← expect_literal "@define-color".toList s
  let (_, s) ← take_plus isspace s
  let (name, s) ← take_plus isword s
  let (ws, s) ← take_plus isspace s
  let (value, s) ← value_up_to_semicolon 1 ws s
  pure { groups := [some name, some value], suffix := s }

/-- The pattern `font-family:\s*([^;]+);` at the start of a text. -/
def font_regex (s : List Char) : Option smatch := do
  let s ← expect_literal "font-family:".toList s
  let (value, s) ← value_up_to_semicolon 0 (s.takeWhile isspace) (s.dropWhile isspace)
  pure { groups := [some value], suffix := s }

/-- The pattern `font-size:\s*(\d+)(?:px|pt)?` at the start of a text. -/
def font_size_regex (s : List Char) : Option smatch := do
  let s ← expect_literal "font-size:".toList s
  let (size, s) ← take_plus isdigit (s.dropWhile isspace)
  let s := (expect_literal ['p', 'x'] s).getD ((expect_literal ['p', 't'] s).getD s)
  pure { groups := [some size], suffix := s }

/-! ### `decoration_theme_t` -/

/-- Opaque black, the initial value `wf::color_t{0, 0, 0, 1.0}` in `parse_css_color`. -/
def black : color_t := { r := 0, g := 0, b := 0, a := 1 }

/-- `decoration_theme_t::parse_css_color`. The conversions are made in source order, so the
first one that throws decides the exception. -/
def parse_css_color (color_str : List Char) : Except std_exception color_t :=
  match regex_search hex_regex color_str with
  | some hex_match => do
    let hex := hex_match.str 1
    let r ← stoi ((hex.drop 0).take 2) 16
    let g ← stoi ((hex.drop 2).take 2) 16
    let b ← stoi ((hex.drop 4).take 2) 16
    let a ← if hex_match.matched 2 then (stoi (hex_match.str 2) 16).map (fun v => (v : ℚ) / 255)
      else pure 1
    pure { r := (r : ℚ) / 255, g := (g : ℚ) / 255, b := (b : ℚ) / 255, a := a }
  | none =>
    match regex_search rgba_regex color_str with
    | some rgba_match => do
      let r ← stoi (rgba_match.str 1) 10
      let g ← stoi (rgba_match.str 2) 10
      let b ← stoi (rgba_match.str 3) 10
      let a ← if rgba_match.matched 4 then stod (rgba_match.str 4) else pure 1
      pure { r := (r : ℚ) / 255, g := (g : ℚ) / 255, b := (b : ℚ) / 255, a := a }
    | none => pure black

/-- The mutable members of `decoration_theme_t` (`deco-theme.hpp`). The option wrappers and
`button_flags` are not touched by theme loading and are left out. -/
structure decoration_theme_t where
  theme_loaded : Bool
  theme_titlebar_bg_active : color_t
  theme_titlebar_bg_inactive : color_t
  theme_titlebar_fg_active : color_t
  theme_titlebar_fg_inactive : color_t
  theme_button_bg : color_t
  theme_button_hover_bg : color_t
  theme_button_active_bg : color_t
  theme_font_family : List Char
  theme_font_size : Int
  icon_theme_name : List Char
deriving DecidableEq, Repr

/-- What theme loading sees of the outside world: `getenv("HOME")`, the content of a file that
`std::ifstream` can open (`none` when it cannot), and whether `stat` succeeds on a path. -/
structure filesystem where
  home : Option (List Char)
  open_file : List Char → Option (List Char)
  stat : List Char → Bool

/-- The outcome of a member function that mutates the theme: the members as the call leaves
them, the exception that left the call, if any, and the paths handed to `std::ifstream` or
`stat`, in call order. -/
structure load_result where
  state : decoration_theme_t
  raised : Option std_exception
  accesses : List (List Char)

/-- The lines `std::getline` delivers: the text between line feeds, without a final empty
line after the last line feed. -/
def getlines : List Char → List (List Char)
  | [] => []
  | c :: cs =>
    if c = '\n' then [] :: getlines cs
    else
      match getlines cs with
      | [] => [[c]]
      | line :: lines => (c :: line) :: lines

/-- The path `$HOME/.config/gtk-3.0/settings.ini`. -/
def settings_path (home : List Char) : List Char :=
  home ++ "/.config/gtk-3.0/settings.ini".toList

/-- The loop shared by the three settings readers: the rest of the first line that starts with
`key` (`line.find(key) == 0`, `line.substr(key.length())`), or `fallback` when there is no home
directory, no readable file or no such line. The second component lists the file opened. -/
def read_setting (fs : filesystem) (key fallback : List Char) : List Char × List (List Char) :=
  match fs.home with
  | none => (fallback, [])
  | some home =>
    match fs.open_file (settings_path home) with
    | none => (fallback, [settings_path home])
    | some content =>
      match (getlines content).find? (fun line => key.isPrefixOf line) with
      | some line => (line.drop key.length, [settings_path home])
      | none => (fallback, [settings_path home])

/-- `decoration_theme_t::get_gtk_theme_name`. -/
def get_gtk_theme_name (fs : filesystem) : List Char × List (List Char) :=
  read_setting fs "gtk-theme-name=".toList []

/-- `decoration_theme_t::get_icon_theme_name`. -/
def get_icon_theme_name (fs : filesystem) : List Char × List (List Char) :=
  read_setting fs "gtk-icon-theme-name=".toList "hicolor".toList

/-- `decoration_theme_t::get_gtk_font_name`. -/
def get_gtk_font_name (fs : filesystem) : List Char × List (List Char) :=
  read_setting fs "gtk-font-name=".toList []

/-- The first path of the list on which `stat` succeeds, or the empty string; and the paths
probed on the way. -/
def first_existing (fs : filesystem) : List (List Char) → List Char × List (List Char)
  | [] => ([], [])
  | path :: paths =>
    if fs.stat path then (path, [path])
    else ((first_existing fs paths).1, path :: (first_existing fs paths).2)

/-- The `search_paths` of `find_theme_css_file`. -/
def theme_css_search_paths (fs : filesystem) (theme_name : List Char) : List (List Char) :=
  (match fs.home with
    | some home =>
      [home ++ "/.themes/".toList ++ theme_name ++ "/gtk-3.0/gtk.css".toList,
       home ++ "/.themes/".toList ++ theme_name ++ "/gtk-3.0/gtk-dark.css".toList]
    | none => [])
  ++ ["/usr/share/themes/".toList ++ theme_name ++ "/gtk-3.0/gtk.css".toList,
      "/usr/share/themes/".toList ++ theme_name ++ "/gtk-3.0/gtk-dark.css".toList,
      "/usr/local/share/themes/".toList ++ theme_name ++ "/gtk-3.0/gtk.css".toList]

/-- `decoration_theme_t::find_theme_css_file`. -/
def find_theme_css_file (fs : filesystem) (theme_name : List Char) :
    List Char × List (List Char) :=
  if theme_name = [] then ([], [])
  else first_existing fs (theme_css_search_paths fs theme_name)

/-- The `std::map<std::string, std::string>` of colour variables, as an association list with
one entry per key. -/
abbrev color_map := List (List Char × List Char)

/-- The assignment `color_vars[key] = value`. -/
def color_map.assign (m : color_map) (key value : List Char) : color_map :=
  (key, value) :: m.filter (fun entry => entry.1 != key)

/-- The test `color_vars.count(key)`. -/
def color_map.count (m : color_map) (key : List Char) : Bool :=
  (m.lookup key).isSome

/-- The read `color_vars[key]`, empty for a missing key. -/
def color_map.read (m : color_map) (key : List Char) : List Char :=
  (m.lookup key).getD []

/-- The `while (std::regex_search(searchStart, ...))` loop of `parse_theme_css`: every match of
the `@define-color` pattern, from left to right, is assigned into the map and the search is
resumed after the match. `fuel` bounds the number of rounds. -/
def define_color_loop : Nat → List Char → color_map → color_map
  | 0, _, color_vars => color_vars
  | fuel + 1, search_start, color_vars =>
    match regex_search define_color_regex search_start with
    | some m => define_color_loop fuel m.suffix (color_vars.assign (m.str 1) (m.str 2))
    | none => color_vars

/-- The map of `@define-color` variables of a stylesheet. Every match is non-empty, so the
length of the text bounds the number of rounds. -/
def collect_color_vars (css_content : List Char) : color_map :=
  define_color_loop (css_content.length + 1) css_content []

/-- The erase-remove idiom `str.erase(std::remove(str.begin(), str.end(), ch), str.end())`. -/
def erase_char (ch : Char) (str : List Char) : List Char :=
  str.filter (fun c => c != ch)

/-- The button colours that `parse_theme_css` and the constructor write. -/
def button_bg_default : color_t := { r := 4 / 10, g := 4 / 10, b := 4 / 10, a := 3 / 10 }

/-- The hover colour of a button. -/
def button_hover_bg_default : color_t := { r := 5 / 10, g := 5 / 10, b := 5 / 10, a := 4 / 10 }

/-- The pressed colour of a button. -/
def button_active_bg_default : color_t := { r := 3 / 10, g := 3 / 10, b := 3 / 10, a := 5 / 10 }

/-- The colour part of `parse_theme_css`: the four titlebar roles, in source order. An
exception leaves the members written so far in place. -/
def parse_theme_colors (color_vars : color_map) (self : decoration_theme_t) :
    decoration_theme_t × Option std_exception :=
  match (if color_vars.count "theme_bg_color".toList then
      (parse_css_color (color_vars.read "theme_bg_color".toList)).map
        (fun c => { self with theme_titlebar_bg_active := c })
    else .ok self) with
  | .error e => (self, some e)
  | .ok self =>
  match (if color_vars.count "theme_unfocused_bg_color".toList then
      (parse_css_color (color_vars.read "theme_unfocused_bg_color".toList)).map
        (fun c => { self with theme_titlebar_bg_inactive := c })
    else .ok { self with theme_titlebar_bg_inactive := self.theme_titlebar_bg_active }) with
  | .error e => (self, some e)
  | .ok self =>
  match (if color_vars.count "theme_fg_color".toList then
      (parse_css_color (color_vars.read "theme_fg_color".toList)).map
        (fun c => { self with theme_titlebar_fg_active := c })
    else .ok self) with
  | .error e => (self, some e)
  | .ok self =>
  match (if color_vars.count "theme_unfocused_fg_color".toList then
      (parse_css_color (color_vars.read "theme_unfocused_fg_color".toList)).map
        (fun c => { self with theme_titlebar_fg_inactive := c })
    else if color_vars.count "unfocused_insensitive_color".toList then
      (parse_css_color (color_vars.read "unfocused_insensitive_color".toList)).map
        (fun c => { self with theme_titlebar_fg_inactive := c })
    else .ok { self with theme_titlebar_fg_inactive := self.theme_titlebar_fg_active }) with
  | .error e => (self, some e)
  | .ok self => (self, none)

/-- The font part of `parse_theme_css`: the first `font-family` declaration, with both kinds
of quote removed, and the first `font-size` declaration. -/
def parse_theme_font (css_content : List Char) (self : decoration_theme_t) :
    decoration_theme_t × Option std_exception :=
  let self :=
    match regex_search font_regex css_content with
    | some font_match =>
      { self with
        theme_font_family :=
          erase_char (Char.ofNat 39) (erase_char (Char.ofNat 34) (font_match.str 1)) }
    | none => self
  match regex_search font_size_regex css_content with
  | some font_match =>
    match stoi (font_match.str 1) 10 with
    | .ok size => ({ self with theme_font_size := size }, none)
    | .error e => (self, some e)
  | none => (self, none)

/-- `decoration_theme_t::parse_theme_css`. -/
def parse_theme_css (fs : filesystem) (css_file : List Char) (self : decoration_theme_t) :
    load_result :=
  match fs.open_file css_file with
  | none => { state := self, raised := none, accesses := [css_file] }
  | some css_content =>
    let color_vars := collect_color_vars css_content
    match parse_theme_colors color_vars self with
    | (self, some e) => { state := self, raised := some e, accesses := [css_file] }
    | (self, none) =>
      let self :=
        { self with
          theme_button_bg := button_bg_default
          theme_button_hover_bg := button_hover_bg_default
          theme_button_active_bg := button_active_bg_default }
      let (self, raised) := parse_theme_font css_content self
      { state := self, raised := raised, accesses := [css_file] }

/-- The position `gtk_font.rfind(' ')`: the index of the last space, if there is one. -/
def rfind_space : List Char → Option Nat
  | [] => none
  | c :: cs =>
    match rfind_space cs with
    | some i => some (i + 1)
    | none => if c = ' ' then some 0 else none

/-- The font part of `load_gtk_theme`: a non-empty `gtk-font-name` with a space is split at
its last space into family and size; a size that `std::stoi` rejects becomes 11. -/
def apply_gtk_font (gtk_font : List Char) (self : decoration_theme_t) : decoration_theme_t :=
  if gtk_font ≠ [] then
    match rfind_space gtk_font with
    | some last_space =>
      let self := { self with theme_font_family := gtk_font.take last_space }
      match stoi (gtk_font.drop (last_space + 1)) 10 with
      | .ok size => { self with theme_font_size := size }
      | .error _ => { self with theme_font_size := 11 }
    | none => self
  else self

/-- `decoration_theme_t::load_gtk_theme`. -/
def load_gtk_theme (fs : filesystem) (self : decoration_theme_t) : load_result :=
  if self.theme_loaded then { state := self, raised := none, accesses := [] }
  else
    let self := { self with theme_loaded := true }
    let icon := get_icon_theme_name fs
    let self := { self with icon_theme_name := icon.1 }
    let gtk_font := get_gtk_font_name fs
    let self := apply_gtk_font gtk_font.1 self
    let theme_name := get_gtk_theme_name fs
    if theme_name.1 = [] then
      { state := self, raised := none, accesses := icon.2 ++ gtk_font.2 ++ theme_name.2 }
    else
      let css_file := find_theme_css_file fs theme_name.1
      if css_file.1 = [] then
        { state := self, raised := none,
          accesses := icon.2 ++ gtk_font.2 ++ theme_name.2 ++ css_file.2 }
      else
        let parsed := parse_theme_css fs css_file.1 self
        { state := parsed.state, raised := parsed.raised,
          accesses := icon.2 ++ gtk_font.2 ++ theme_name.2 ++ css_file.2 ++ parsed.accesses }

/-- The fallback titlebar colours of the constructor and of `reload_theme`. -/
def titlebar_bg_active_default : color_t := { r := 1 / 10, g := 1 / 10, b := 15 / 100, a := 1 }

/-- Fallback inactive background. -/
def titlebar_bg_inactive_default : color_t :=
  { r := 15 / 100, g := 15 / 100, b := 2 / 10, a := 1 }

/-- Fallback active foreground. -/
def titlebar_fg_active_default : color_t := { r := 9 / 10, g := 9 / 10, b := 93 / 100, a := 1 }

/-- Fallback inactive foreground. -/
def titlebar_fg_inactive_default : color_t :=
  { r := 7 / 10, g := 7 / 10, b := 73 / 100, a := 7 / 10 }

/-- The constructor `decoration_theme_t::decoration_theme_t()`; `icon_theme_name` is a
default-constructed, hence empty, string. -/
def decoration_theme_t.new : decoration_theme_t :=
  { theme_loaded := false
    theme_titlebar_bg_active := titlebar_bg_active_default
    theme_titlebar_bg_inactive := titlebar_bg_inactive_default
    theme_titlebar_fg_active := titlebar_fg_active_default
    theme_titlebar_fg_inactive := titlebar_fg_inactive_default
    theme_button_bg := button_bg_default
    theme_button_hover_bg := button_hover_bg_default
    theme_button_active_bg := button_active_bg_default
    theme_font_family := []
    theme_font_size := 0
    icon_theme_name := [] }

/-- `decoration_theme_t::reload_theme`. -/
def reload_theme (self : decoration_theme_t) : decoration_theme_t :=
  { self with
    theme_loaded := false
    icon_theme_name := []
    theme_font_family := []
    theme_font_size := 0
    theme_titlebar_bg_active := titlebar_bg_active_default
    theme_titlebar_bg_inactive := titlebar_bg_inactive_default
    theme_titlebar_fg_active := titlebar_fg_active_default
    theme_titlebar_fg_inactive := titlebar_fg_inactive_default }

/-- The states a theme object goes through: the constructor's, and what `load_gtk_theme`
(against any file system, whether or not an exception leaves it) and `reload_theme` make of a
state already reached. -/
inductive reachable : decoration_theme_t → Prop where
  | new : reachable decoration_theme_t.new
  | load (fs : filesystem) (s : decoration_theme_t) :
      reachable s → reachable (load_gtk_theme fs s).state
  | reload (s : decoration_theme_t) : reachable s → reachable (reload_theme s)

/-- A file system for the examples: home `/home/u`, a settings file naming the theme `T`, the
icon theme `Papirus` and the font `Cantarell 11`, and one stylesheet in the user's theme
directory. -/
def example_fs (css : List Char) : filesystem :=
  { home := some "/home/u".toList
    open_file := fun path =>
      if path = "/home/u/.config/gtk-3.0/settings.ini".toList then
        some ("[Settings]\ngtk-theme-name=T\ngtk-icon-theme-name=Papirus\n".toList
          ++ "gtk-font-name=Cantarell 11\n".toList)
      else if path = "/home/u/.themes/T/gtk-3.0/gtk.css".toList then some css
      else none
    stat := fun path => path = "/home/u/.themes/T/gtk-3.0/gtk.css".toList }

/-- The stylesheet of the examples. -/
def example_css : List Char :=
  ("@define-color theme_bg_color #202020;\n".toList
    ++ "@define-color theme_fg_color rgba(230,230,230,1.0);\n".toList)

/-! ### Icon lookup (`decoration_theme_t::find_icon_file`) -/

/-- `std::to_string` of an `int`. -/
def to_string (n : Int) : List Char := (toString n).toList

/-- The `base_paths` of `find_icon_file`. -/
def icon_base_paths (fs : filesystem) : List (List Char) :=
  (match fs.home with
    | some home => [home ++ "/.icons".toList, home ++ "/.local/share/icons".toList]
    | none => [])
  ++ ["/usr/share/icons".toList, "/usr/local/share/icons".toList]

/-- The `size_dirs` of `find_icon_file`. -/
def icon_size_dirs (size : Int) : List (List Char) :=
  ["symbolic".toList, to_string size ++ "x".toList ++ to_string size, "scalable".toList,
   "16x16".toList, "22x22".toList, "24x24".toList, "32x32".toList, "48x48".toList]

/-- The `sub_dirs` of `find_icon_file`. -/
def icon_sub_dirs : List (List Char) :=
  ["actions".toList, "ui".toList, "status".toList, "places".toList]

/-- The loop `for (const auto& sub_dir : sub_dirs)`: in each subdirectory the SVG file is
probed, then the PNG file; the first that exists is returned. -/
def probe_sub_dirs (fs : filesystem) (base icon_theme_name size_dir icon_name : List Char) :
    List (List Char) → Option (List Char)
  | [] => none
  | sub_dir :: rest =>
    if fs.stat (base ++ "/".toList ++ icon_theme_name ++ "/".toList ++ size_dir ++ "/".toList
        ++ sub_dir ++ "/".toList ++ icon_name ++ ".svg".toList) then
      some (base ++ "/".toList ++ icon_theme_name ++ "/".toList ++ size_dir ++ "/".toList
        ++ sub_dir ++ "/".toList ++ icon_name ++ ".svg".toList)
    else if fs.stat (base ++ "/".toList ++ icon_theme_name ++ "/".toList ++ size_dir
        ++ "/".toList ++ sub_dir ++ "/".toList ++ icon_name ++ ".png".toList) then
      some (base ++ "/".toList ++ icon_theme_name ++ "/".toList ++ size_dir ++ "/".toList
        ++ sub_dir ++ "/".toList ++ icon_name ++ ".png".toList)
    else probe_sub_dirs fs base icon_theme_name size_dir icon_name rest

/-- The loop `for (const auto& size_dir : size_dirs)`: the subdirectories, then the size
directory itself, SVG before PNG. -/
def probe_size_dirs (fs : filesystem) (base icon_theme_name icon_name : List Char) :
    List (List Char) → Option (List Char)
  | [] => none
  | size_dir :: rest =>
    match probe_sub_dirs fs base icon_theme_name size_dir icon_name icon_sub_dirs with
    | some path => some path
    | none =>
      if fs.stat (base ++ "/".toList ++ icon_theme_name ++ "/".toList ++ size_dir
          ++ "/".toList ++ icon_name ++ ".svg".toList) then
        some (base ++ "/".toList ++ icon_theme_name ++ "/".toList ++ size_dir ++ "/".toList
          ++ icon_name ++ ".svg".toList)
      else if fs.stat (base ++ "/".toList ++ icon_theme_name ++ "/".toList ++ size_dir
          ++ "/".toList ++ icon_name ++ ".png".toList) then
        some (base ++ "/".toList ++ icon_theme_name ++ "/".toList ++ size_dir ++ "/".toList
          ++ icon_name ++ ".png".toList)
      else probe_size_dirs fs base icon_theme_name icon_name rest

/-- The loop `for (const auto& base : base_paths)` over the theme directories. -/
def probe_base_paths (fs : filesystem) (icon_theme_name icon_name : List Char) (size : Int) :
    List (List Char) → Option (List Char)
  | [] => none
  | base :: rest =>
    match probe_size_dirs fs base icon_theme_name icon_name (icon_size_dirs size) with
    | some path => some path
    | none => probe_base_paths fs icon_theme_name icon_name size rest

/-- The fallback loop over the base directories: `<base>/Adwaita/symbolic/ui/<name>.svg`. -/
def probe_adwaita (fs : filesystem) (icon_name : List Char) :
    List (List Char) → Option (List Char)
  | [] => none
  | base :: rest =>
    if fs.stat (base ++ "/Adwaita/symbolic/ui/".toList ++ icon_name ++ ".svg".toList) then
      some (base ++ "/Adwaita/symbolic/ui/".toList ++ icon_name ++ ".svg".toList)
    else probe_adwaita fs icon_name rest

/-- `decoration_theme_t::find_icon_file`; the member `icon_theme_name` is the first argument.
The empty string is the result "not found". -/
def find_icon_file (fs : filesystem) (icon_theme_name icon_name : List Char) (size : Int) :
    List Char :=
  if icon_theme_name = [] ∨ icon_name = [] then []
  else
    match probe_base_paths fs icon_theme_name icon_name size (icon_base_paths fs) with
    | some path => path
    | none =>
      if icon_theme_name ≠ "Adwaita".toList then
        (probe_adwaita fs icon_name (icon_base_paths fs)).getD []
      else []

/-! ### The transaction handler (`on_new_tx`) -/

/-- An object of a transaction (`ev->tx->get_objects()`): a toplevel, given through the view
that `wf::find_view_for_toplevel` finds for it, or an object of another kind, for which the
dynamic cast yields null. The source asserts (`wf::dassert`) that a toplevel being mapped has a
view. -/
inductive tx_object where
  | toplevel (view : toplevel_view_t)
  | other (id : Nat)

/-- The body of the loop of `on_new_tx`, for one object of the transaction. -/
def on_new_tx_object (self : wayfire_gtkdecor) : tx_object → tx_object
  | .toplevel view =>
    match view.toplevel.data with
    | some deco =>
      .toplevel
        { view with
          toplevel :=
            { view.toplevel with
              pending :=
                { view.toplevel.pending with
                  margins := deco.get_margins view.toplevel.pending } } }
    | none =>
      if view.toplevel.current.mapped || !view.toplevel.pending.mapped then .toplevel view
      else if should_decorate_view self view then
        .toplevel (adjust_new_decorations self view)
      else .toplevel view
  | .other id => .other id

/-- The handler `on_new_tx`: every object of the transaction is visited once. -/
def on_new_tx (self : wayfire_gtkdecor) (objects : List tx_object) : List tx_object :=
  objects.map (on_new_tx_object self)

/-! ### The settings monitor (`handle_inotify_event`) -/

/-- The fields of `struct inotify_event` that the callback reads. -/
structure inotify_event where
  mask : Nat
  len : Nat
deriving DecidableEq, Repr

/-- The constant `IN_MODIFY` of `<sys/inotify.h>`. -/
def IN_MODIFY : Nat := 2

/-- The constant `IN_CLOSE_WRITE` of `<sys/inotify.h>`. -/
def IN_CLOSE_WRITE : Nat := 8

/-- A view as `wf::get_core().get_all_views()` lists it, with the theme of its decorator
(read only when the view is a decorated toplevel) and the number of `view->damage()` calls
made on it. -/
structure core_view where
  view : wayfire_view
  theme : decoration_theme_t
  damage_calls : Nat

/-- Modelled from the spec: `simple_decorator_t::reload_theme` is not in src/; the callback
invalidates the theme: the decorator hands the call on to `decoration_theme_t::reload_theme`
of its theme. Together with the `view->damage()` that follows it in the loop. -/
def reload_decorated_view (cv : core_view) : core_view :=
  { cv with theme := reload_theme cv.theme, damage_calls := cv.damage_calls + 1 }

/-- `wayfire_gtkdecor::reload_all_decorations`: every toplevel view that has a decorator gets
its theme reloaded and is damaged. -/
def reload_all_decorations (views : List core_view) : List core_view :=
  views.map fun cv =>
    match toplevel_cast cv.view with
    | some toplevel => if toplevel.toplevel.data.isSome then reload_decorated_view cv else cv
    | none => cv

/-- What the inotify callback leaves behind: the views, and the number of calls of
`reload_all_decorations` it made. -/
structure inotify_result where
  views : List core_view
  reload_calls : Nat

/-- The loop `while (i < length)` of `handle_inotify_event` over the events that the buffer
holds one after the other. -/
def inotify_loop : List inotify_event → inotify_result → inotify_result
  | [], result => result
  | event :: rest, result =>
    if event.mask &&& (IN_MODIFY ||| IN_CLOSE_WRITE) ≠ 0 then
      inotify_loop rest
        { views := reload_all_decorations result.views
          reload_calls := result.reload_calls + 1 }
    else inotify_loop rest result

/-- `wayfire_gtkdecor::handle_inotify_event`: `buffer` is what `read` delivered, `none` for a
negative length. -/
def handle_inotify_event (buffer : Option (List inotify_event)) (views : List core_view) :
    inotify_result :=
  match buffer with
  | none => { views := views, reload_calls := 0 }
  | some events => inotify_loop events { views := views, reload_calls := 0 }

/-! ### The background colour (`decoration_theme_t::render_background`) -/

/-- The two colour options of `deco-theme.hpp` that `render_background` reads:
`gtkdecor/active_color` and `gtkdecor/inactive_color`. -/
structure theme_options where
  active_color : color_t
  inactive_color : color_t
deriving DecidableEq, Repr

/-- What `render_background` leaves behind, as far as the colour goes: the outcome of the lazy
`load_gtk_theme` and the colour `bg_color` that the titlebar and the borders are painted with;
there is none when an exception leaves `load_gtk_theme`. -/
structure render_background_result where
  loaded : load_result
  bg_color : Option color_t

/-- The colour part of `decoration_theme_t::render_background`: the theme is loaded if it has
not been, the active or inactive titlebar background is selected, and when its red, green and
blue channels are all `0.0` the configured colour takes its place. The drawing calls that
follow use `bg_color` and are not modelled. -/
def render_background (fs : filesystem) (options : theme_options) (self : decoration_theme_t)
    (active : Bool) : render_background_result :=
  let loaded := load_gtk_theme fs self
  match loaded.raised with
  | some _ => { loaded := loaded, bg_color := none }
  | none =>
    let bg_color :=
      if active then loaded.state.theme_titlebar_bg_active
      else loaded.state.theme_titlebar_bg_inactive
    let bg_color :=
      if bg_color.r = 0 ∧ bg_color.g = 0 ∧ bg_color.b = 0 then
        (if active then options.active_color else options.inactive_color)
      else bg_color
    { loaded := loaded, bg_color := some bg_color }

/-! ## Notions used in the statements and the concrete examples -/

/-- A geometry lies inside a work area: its size is non-negative and it does not stick out on
any side. This is exactly when `clamp` leaves it alone. -/
def inside_workarea (g workarea : geometry_t) : Prop :=
  0 ≤ g.width ∧ 0 ≤ g.height ∧ workarea.x ≤ g.x ∧ workarea.y ≤ g.y ∧
    g.x + g.width ≤ workarea.x + workarea.width ∧
    g.y + g.height ≤ workarea.y + workarea.height

instance (g workarea : geometry_t) : Decidable (inside_workarea g workarea) := by
  unfold inside_workarea; infer_instance

/-- The plugin used in the concrete examples: nothing ignored, nothing forced, and a record
whose margins are a 30 pixel title bar and 4 pixel borders, zero when fullscreen. -/
def example_plugin : wayfire_gtkdecor :=
  { ignore_views := fun _ => false
    forced_views := fun _ => false
    make_decorator := fun _ =>
      { tag := 0
        get_margins := fun st =>
          if st.fullscreen then decoration_margins_t.mk 0 0 0 0
          else decoration_margins_t.mk 4 4 4 30 } }

/-- A pending state with the given geometry and flags, mapped, with zero margins. -/
def example_state (g : geometry_t) (tiled_edges : Nat) (fullscreen : Bool) :
    toplevel_state_t :=
  { mapped := true, geometry := g, margins := decoration_margins_t.mk 0 0 0 0,
    tiled_edges := tiled_edges, fullscreen := fullscreen }

/-- An undecorated view that asks for decoration, on an output with a 1920x1080 work area. -/
def example_view (g : geometry_t) (tiled_edges : Nat) (fullscreen : Bool) : toplevel_view_t :=
  { app_id := 1, title := [], should_be_decorated := true,
    output := some (geometry_t.mk 0 0 1920 1080),
    toplevel :=
      { current := example_state g tiled_edges fullscreen
        pending := example_state g tiled_edges fullscreen
        data := none } }

/-- The value of a hexadecimal digit, read off the digit table: the position of the character
in `0123456789abcdef`, or in `0123456789ABCDEF`. -/
def hex_digit_value (c : Char) : Nat :=
  if c ∈ "0123456789abcdef".toList then "0123456789abcdef".toList.indexOf c
  else "0123456789ABCDEF".toList.indexOf c

/-- The value of a pair of hexadecimal digits. -/
def hex_pair_value (hi lo : Char) : Nat := 16 * hex_digit_value hi + hex_digit_value lo

/-- Every character of the text is white space. -/
def all_space (w : List Char) : Prop := ∀ c ∈ w, isspace c = true

/-- Every character of the text is a decimal digit. -/
def all_digits (ds : List Char) : Prop := ∀ c ∈ ds, isdigit c = true

/-- The number a run of decimal digits denotes, through the library function `Nat.ofDigits`
(which takes the least significant digit first). -/
def decimal_value (ds : List Char) : Nat :=
  Nat.ofDigits 10 (ds.reverse.map (fun c => c.toNat - 48))

/-- The text `fn w0 ( w1 r w2 , w3 g w4 , w5 b tail` of a functional colour literal. -/
def functional_text (fn w0 w1 r w2 w3 g w4 w5 b tail : List Char) : List Char :=
  fn ++ (w0 ++ ('(' :: (w1 ++ (r ++ (w2 ++ (',' :: (w3 ++ (g ++ (w4 ++ (',' ::
    (w5 ++ (b ++ tail))))))))))))

/-- A hexadecimal colour literal: `#` followed by exactly six or exactly eight hexadecimal
digits. -/
def is_hex_literal (s : List Char) : Prop :=
  ∃ ds : List Char, s = '#' :: ds ∧ (ds.length = 6 ∨ ds.length = 8) ∧ ∀ c ∈ ds, isxdigit c = true

/-- A functional colour literal, the texts that the rgba pattern describes: `rgb` or `rgba`,
a parenthesis, three runs of digits separated by commas, optionally a comma and a run of
digits and dots, and the closing parenthesis, with white space allowed around each piece. -/
def is_functional_literal (s : List Char) : Prop :=
  ∃ (has_a : Bool) (w0 w1 r w2 w3 g w4 w5 b w6 : List Char),
    all_space w0 ∧ all_space w1 ∧ all_space w2 ∧ all_space w3 ∧ all_space w4 ∧ all_space w5
      ∧ all_space w6 ∧ all_digits r ∧ all_digits g ∧ all_digits b
      ∧ r ≠ [] ∧ g ≠ [] ∧ b ≠ []
      ∧ (s = functional_text (if has_a then ['r', 'g', 'b', 'a'] else ['r', 'g', 'b'])
            w0 w1 r w2 w3 g w4 w5 b (w6 ++ [')'])
          ∨ ∃ w7 alpha w8 : List Char,
              all_space w7 ∧ all_space w8 ∧ (∀ c ∈ alpha, isdigit_or_dot c = true) ∧ alpha ≠ []
                ∧ s = functional_text (if has_a then ['r', 'g', 'b', 'a'] else ['r', 'g', 'b'])
                    w0 w1 r w2 w3 g w4 w5 b
                    (w6 ++ (',' :: (w7 ++ (alpha ++ (w8 ++ [')']))))))

/-- The text has a hexadecimal literal somewhere inside: a `#` that six hexadecimal digits
follow. -/
def contains_hex_literal (s : List Char) : Prop :=
  ∃ pre ds post : List Char,
    s = pre ++ ('#' :: (ds ++ post)) ∧ ds.length = 6 ∧ ∀ c ∈ ds, isxdigit c = true

/-- The text has a functional literal somewhere inside. -/
def contains_functional_literal (s : List Char) : Prop :=
  ∃ pre lit post : List Char, s = pre ++ (lit ++ post) ∧ is_functional_literal lit

/-- The members that only the constructor and the button part of `parse_theme_css` write, and
the flag `theme_loaded`, agree in two states. -/
def same_frame (s t : decoration_theme_t) : Prop :=
  t.theme_loaded = s.theme_loaded ∧ t.theme_button_bg = s.theme_button_bg
    ∧ t.theme_button_hover_bg = s.theme_button_hover_bg
    ∧ t.theme_button_active_bg = s.theme_button_active_bg

/-- The three button colours are the design constants. -/
def buttons_default (s : decoration_theme_t) : Prop :=
  s.theme_button_bg = button_bg_default ∧ s.theme_button_hover_bg = button_hover_bg_default
    ∧ s.theme_button_active_bg = button_active_bg_default

/-- A stylesheet whose first colour has a channel too long for an `int`. -/
def overflow_css : List Char :=
  "@define-color theme_bg_color rgb(99999999999,0,0);\n".toList

/-- A stylesheet whose font size is too long for an `int`. -/
def overflow_font_css : List Char :=
  "headerbar \x7b font-size: 99999999999px; \x7d\n".toList

/-! ## Notions used in the statements about the stylesheet roles -/

/-- The first assignment of `parse_theme_css`: the active background. -/
def bg_active_step (color_vars : color_map) (self : decoration_theme_t) :
    Except std_exception decoration_theme_t :=
  if color_vars.count "theme_bg_color".toList then
    (parse_css_color (color_vars.read "theme_bg_color".toList)).map
      (fun c => { self with theme_titlebar_bg_active := c })
  else .ok self

/-- The second assignment of `parse_theme_css`: the inactive background. -/
def bg_inactive_step (color_vars : color_map) (self : decoration_theme_t) :
    Except std_exception decoration_theme_t :=
  if color_vars.count "theme_unfocused_bg_color".toList then
    (parse_css_color (color_vars.read "theme_unfocused_bg_color".toList)).map
      (fun c => { self with theme_titlebar_bg_inactive := c })
  else .ok { self with theme_titlebar_bg_inactive := self.theme_titlebar_bg_active }

/-- The third assignment of `parse_theme_css`: the active foreground. -/
def fg_active_step (color_vars : color_map) (self : decoration_theme_t) :
    Except std_exception decoration_theme_t :=
  if color_vars.count "theme_fg_color".toList then
    (parse_css_color (color_vars.read "theme_fg_color".toList)).map
      (fun c => { self with theme_titlebar_fg_active := c })
  else .ok self

/-- The fourth assignment of `parse_theme_css`: the inactive foreground. -/
def fg_inactive_step (color_vars : color_map) (self : decoration_theme_t) :
    Except std_exception decoration_theme_t :=
  if color_vars.count "theme_unfocused_fg_color".toList then
    (parse_css_color (color_vars.read "theme_unfocused_fg_color".toList)).map
      (fun c => { self with theme_titlebar_fg_inactive := c })
  else if color_vars.count "unfocused_insensitive_color".toList then
    (parse_css_color (color_vars.read "unfocused_insensitive_color".toList)).map
      (fun c => { self with theme_titlebar_fg_inactive := c })
  else .ok { self with theme_titlebar_fg_inactive := self.theme_titlebar_fg_active }

/-- The four titlebar colours agree in two states. -/
def same_titlebar (s t : decoration_theme_t) : Prop :=
  t.theme_titlebar_bg_active = s.theme_titlebar_bg_active
    ∧ t.theme_titlebar_bg_inactive = s.theme_titlebar_bg_inactive
    ∧ t.theme_titlebar_fg_active = s.theme_titlebar_fg_active
    ∧ t.theme_titlebar_fg_inactive = s.theme_titlebar_fg_inactive

/-- The two background colours agree in two states. -/
def same_background (s t : decoration_theme_t) : Prop :=
  t.theme_titlebar_bg_active = s.theme_titlebar_bg_active
    ∧ t.theme_titlebar_bg_inactive = s.theme_titlebar_bg_inactive

/-- A file system that holds one stylesheet, at the path `gtk.css`, and nothing else. -/
def css_only_fs (css : List Char) : filesystem :=
  { home := none
    open_file := fun path => if path = "gtk.css".toList then some css else none
    stat := fun _ => false }

/-- The stylesheet `@define-color theme_bg_color #202020;`. -/
def bg_only_css : List Char := "@define-color theme_bg_color #202020;".toList

/-- A stylesheet that defines the active foreground and `unfocused_insensitive_color`, but
not `theme_unfocused_fg_color`. -/
def insensitive_css : List Char :=
  ("@define-color theme_fg_color #202020;\n".toList
    ++ "@define-color unfocused_insensitive_color #202020;\n".toList)

/-! ## Notions used in the statements about the asset search -/

/-- The enumeration of icon files in the order of the search: base directories, within a base
the size directories, within a size directory the four subdirectories and then the directory
itself, and in each place `<name>.svg` before `<name>.png`. -/
def icon_candidates (home : Option (List Char)) (theme name : List Char) (size : Int) :
    List (List Char) :=
  ((match home with
      | some h => [h ++ "/.icons".toList, h ++ "/.local/share/icons".toList]
      | none => [])
    ++ ["/usr/share/icons".toList, "/usr/local/share/icons".toList]).flatMap fun base =>
  ["symbolic".toList, (toString size).toList ++ "x".toList ++ (toString size).toList,
    "scalable".toList, "16x16".toList, "22x22".toList, "24x24".toList, "32x32".toList,
    "48x48".toList].flatMap fun size_dir =>
  (["actions".toList, "ui".toList, "status".toList, "places".toList].flatMap fun sub =>
    [base ++ "/".toList ++ theme ++ "/".toList ++ size_dir ++ "/".toList ++ sub ++ "/".toList
        ++ name ++ ".svg".toList,
     base ++ "/".toList ++ theme ++ "/".toList ++ size_dir ++ "/".toList ++ sub ++ "/".toList
        ++ name ++ ".png".toList])
  ++ [base ++ "/".toList ++ theme ++ "/".toList ++ size_dir ++ "/".toList ++ name
        ++ ".svg".toList,
      base ++ "/".toList ++ theme ++ "/".toList ++ size_dir ++ "/".toList ++ name
        ++ ".png".toList]

/-- The enumeration of the fallback files `<base>/Adwaita/symbolic/ui/<name>.svg`. -/
def adwaita_candidates (home : Option (List Char)) (name : List Char) : List (List Char) :=
  ((match home with
      | some h => [h ++ "/.icons".toList, h ++ "/.local/share/icons".toList]
      | none => [])
    ++ ["/usr/share/icons".toList, "/usr/local/share/icons".toList]).map fun base =>
  base ++ "/Adwaita/symbolic/ui/".toList ++ name ++ ".svg".toList

/-- The result that the enumeration prescribes: the first existing candidate; failing that,
for a theme other than Adwaita, the first existing fallback file; failing that, the empty
string. -/
def first_icon (fs : filesystem) (theme name : List Char) (size : Int) : List Char :=
  match (icon_candidates fs.home theme name size).find? fs.stat with
  | some path => path
  | none =>
    if theme ≠ "Adwaita".toList then
      ((adwaita_candidates fs.home name).find? fs.stat).getD []
    else []

/-- A file system with home `/home/u` in which exactly one path exists. -/
def single_file_fs (file : List Char) : filesystem :=
  { home := some "/home/u".toList
    open_file := fun _ => none
    stat := fun path => path = file }

/-- A path as the file system reads it: a run of slashes counts as one slash. -/
def collapse_slashes : List Char → List Char
  | c :: d :: rest =>
    if c = '/' ∧ d = '/' then collapse_slashes (d :: rest)
    else c :: collapse_slashes (d :: rest)
  | s => s

/-- A file system with home `/home/u` that holds two files: the settings file, whose one line
is `gtk-icon-theme-name=` with nothing after the equals sign, and the icon
`/home/u/.icons/symbolic/actions/window-close-symbolic.svg`. A path names a file whatever the
number of slashes between its components. -/
def empty_icon_theme_fs : filesystem :=
  { home := some "/home/u".toList
    open_file := fun path =>
      if collapse_slashes path = "/home/u/.config/gtk-3.0/settings.ini".toList then
        some "gtk-icon-theme-name=\n".toList
      else none
    stat := fun path =>
      collapse_slashes path = "/home/u/.config/gtk-3.0/settings.ini".toList
        ∨ collapse_slashes path
            = "/home/u/.icons/symbolic/actions/window-close-symbolic.svg".toList }

/-- The stylesheet files in the order that the description gives: the user directory, then
each of the two system directories, `gtk.css` before `gtk-dark.css` in each. -/
def css_candidates (home : Option (List Char)) (t : List Char) : List (List Char) :=
  (match home with
    | some h =>
      [h ++ "/.themes/".toList ++ t ++ "/gtk-3.0/gtk.css".toList,
       h ++ "/.themes/".toList ++ t ++ "/gtk-3.0/gtk-dark.css".toList]
    | none => [])
  ++ ["/usr/share/themes/".toList ++ t ++ "/gtk-3.0/gtk.css".toList,
      "/usr/share/themes/".toList ++ t ++ "/gtk-3.0/gtk-dark.css".toList,
      "/usr/local/share/themes/".toList ++ t ++ "/gtk-3.0/gtk.css".toList,
      "/usr/local/share/themes/".toList ++ t ++ "/gtk-3.0/gtk-dark.css".toList]

/-- A file system with home `/home/u` whose settings file has the given content and in which
no other file exists. -/
def settings_fs (content : List Char) : filesystem :=
  { home := some "/home/u".toList
    open_file := fun path =>
      if path = "/home/u/.config/gtk-3.0/settings.ini".toList then some content else none
    stat := fun _ => false }

/-- No line of the settings file starts with the key. -/
def no_setting (lines : List (List Char)) (key : List Char) : Prop :=
  ∀ line ∈ lines, ¬ key <+: line

/-- The first line of the settings file that starts with the key is the key followed by
`value`. -/
def first_setting (lines : List (List Char)) (key value : List Char) : Prop :=
  ∃ before after : List (List Char),
    lines = before ++ (key ++ value) :: after ∧ ∀ line ∈ before, ¬ key <+: line

/-- A settings file that names an icon theme and a font, but no theme. -/
def no_theme_settings : List Char :=
  "gtk-icon-theme-name=Papirus\ngtk-font-name=Cantarell 11\n".toList

/-- A settings file that names a theme, an icon theme and a font. -/
def named_theme_settings : List Char :=
  ("gtk-theme-name=Arc\ngtk-icon-theme-name=Papirus\n".toList
    ++ "gtk-font-name=Noto Sans 10\n".toList)

/-- The flag "has a decoration record" of an object of a transaction. -/
def tx_object_decorated : tx_object → Bool
  | .toplevel view => is_toplevel_decorated view.toplevel
  | .other _ => false

/-! ## Notions used in the statements about the range of the channels -/

/-- Every channel of the colour is non-negative. -/
def color_t.nonneg (c : color_t) : Prop := 0 ≤ c.r ∧ 0 ≤ c.g ∧ 0 ≤ c.b ∧ 0 ≤ c.a

/-- Every channel of the colour lies in `[0,1]`. -/
def color_t.in_unit (c : color_t) : Prop :=
  (0 ≤ c.r ∧ c.r ≤ 1) ∧ (0 ≤ c.g ∧ c.g ≤ 1) ∧ (0 ≤ c.b ∧ c.b ≤ 1) ∧ (0 ≤ c.a ∧ c.a ≤ 1)

/-- Every channel of the four titlebar colours is non-negative. -/
def titlebar_nonneg (s : decoration_theme_t) : Prop :=
  s.theme_titlebar_bg_active.nonneg ∧ s.theme_titlebar_bg_inactive.nonneg
    ∧ s.theme_titlebar_fg_active.nonneg ∧ s.theme_titlebar_fg_inactive.nonneg

/-- Every channel of the four titlebar colours lies in `[0,1]`. -/
def titlebar_in_unit (s : decoration_theme_t) : Prop :=
  s.theme_titlebar_bg_active.in_unit ∧ s.theme_titlebar_bg_inactive.in_unit
    ∧ s.theme_titlebar_fg_active.in_unit ∧ s.theme_titlebar_fg_inactive.in_unit

/-- A stylesheet whose background has a red channel of 999. -/
def out_of_range_css : List Char := "@define-color theme_bg_color rgb(999,0,0);\n".toList

/-! ## Notions used in the statements about the settings monitor -/

/-- The event reports a modification: its mask has `IN_MODIFY` or `IN_CLOSE_WRITE` set. -/
def inotify_event.is_change (event : inotify_event) : Bool :=
  event.mask.testBit 1 || event.mask.testBit 3

/-- The view and the theme of an entry, without the count of the damage calls. -/
def core_view.view_theme (cv : core_view) : wayfire_view × decoration_theme_t :=
  (cv.view, cv.theme)

/-- A decorated toplevel view whose theme has been loaded from the example stylesheet. -/
def example_core_view : core_view :=
  { view := .toplevel (adjust_new_decorations example_plugin
      (example_view (geometry_t.mk 200 200 100 100) 0 false))
    theme := (load_gtk_theme (example_fs example_css) decoration_theme_t.new).state
    damage_calls := 0 }

/-! ## Notions used in the statements about the colour variables of a stylesheet -/

/-- A statement `@define-color <name> <value>;`: the white space after the keyword, the name,
the white space after the name and the value. -/
structure color_statement where
  ws1 : List Char
  name : List Char
  ws2 : List Char
  value : List Char
deriving DecidableEq, Repr

/-- The text of a statement. -/
def color_statement.text (st : color_statement) : List Char :=
  "@define-color".toList ++ (st.ws1 ++ (st.name ++ (st.ws2 ++ (st.value ++ [';']))))

/-- A statement as the stylesheet format has it: white space after the keyword and after the
name, a name of word characters, and a value without a semicolon that does not start with
white space. -/
def color_statement.well_formed (st : color_statement) : Prop :=
  st.ws1 ≠ [] ∧ all_space st.ws1 ∧ st.name ≠ [] ∧ (∀ c ∈ st.name, isword c = true)
    ∧ st.ws2 ≠ [] ∧ all_space st.ws2 ∧ st.value ≠ []
    ∧ (∀ c ∈ st.value, not_semicolon c = true) ∧ (∀ c ∈ st.value.head?, isspace c = false)

/-- A stylesheet text: statements, each after some other text, and the text after the last
statement. -/
def stylesheet_text : List (List Char × color_statement) → List Char → List Char
  | [], last => last
  | (filler, st) :: rest, last => filler ++ (st.text ++ stylesheet_text rest last)

/-- The text between the statements has no `@define-color` inside. -/
def plain_filler (filler : List Char) : Prop := ¬ ("@define-color".toList <:+: filler)

/-- The value of the last statement, in text order, that has the given name. -/
def last_value (items : List (List Char × color_statement)) (name : List Char) :
    Option (List Char) :=
  ((items.map Prod.snd).reverse.find? (fun st => st.name == name)).map
    color_statement.value

/-- The folding of the statements into the map, in text order. -/
def assign_all (items : List (List Char × color_statement)) (color_vars : color_map) :
    color_map :=
  items.foldl (fun m item => m.assign item.2.name item.2.value) color_vars

/-- A stylesheet in which `theme_bg_color` is defined twice, first as `#111111` and then as
`#202020`, with other text around the statements. -/
def twice_items : List (List Char × color_statement) :=
  [("/* colours */\n".toList,
      { ws1 := [' '], name := "theme_bg_color".toList, ws2 := [' '],
        value := "#111111".toList }),
   ("\n@import url(x);\n".toList,
      { ws1 := [' '], name := "theme_bg_color".toList, ws2 := [' '],
        value := "#202020".toList })]

/-- A stylesheet with two statements for `theme_bg_color` and, between them, a line
`@define-color x` that no semicolon closes. -/
def swallowed_css : List Char :=
  ("@define-color theme_bg_color #111111;\n@define-color x\n".toList
    ++ "@define-color theme_bg_color #202020;\n".toList)

/-- The two statements of `swallowed_css` and the text before each. -/
def swallowed_items : List (List Char × color_statement) :=
  [([],
      { ws1 := [' '], name := "theme_bg_color".toList, ws2 := [' '],
        value := "#111111".toList }),
   ("\n@define-color x\n".toList,
      { ws1 := [' '], name := "theme_bg_color".toList, ws2 := [' '],
        value := "#202020".toList })]

/-! ## Notions used in the statements about the background colour -/

/-- The titlebar background that `render_background` selects after the lazy load: the active
one for an active window, the inactive one otherwise. -/
def selected_background (fs : filesystem) (self : decoration_theme_t) (active : Bool) :
    color_t :=
  if active then (load_gtk_theme fs self).state.theme_titlebar_bg_active
  else (load_gtk_theme fs self).state.theme_titlebar_bg_inactive

/-- The configured colour for the window: `active_color` or `inactive_color`. -/
def configured_background (options : theme_options) (active : Bool) : color_t :=
  if active then options.active_color else options.inactive_color

/-- A stylesheet that validly defines the background as black. -/
def black_css : List Char := "@define-color theme_bg_color #000000;\n".toList

/-- A stylesheet whose background value is not a colour literal. -/
def unparsed_css : List Char := "@define-color theme_bg_color red;\n".toList

/-- Options for the examples: a blue active colour and a grey inactive colour. -/
def example_options : theme_options :=
  { active_color := { r := 0, g := 0, b := 1, a := 1 }
    inactive_color := { r := 1 / 2, g := 1 / 2, b := 1 / 2, a := 1 } }

/-! ## Theorems about the decoration lifecycle -/

theorem clamp_int_eq_self {v lo hi : Int} (h1 : lo ≤ v) (h2 : v ≤ hi) :
    clamp_int v lo hi = v := by
  unfold clamp_int
  rw [max_eq_left h1, min_eq_left h2]

theorem clamp_eq_self {g workarea : geometry_t} (h : inside_workarea g workarea) :
    clamp g workarea = g := by
  obtain ⟨hw, hh, hx, hy, hr, hb⟩ := h
  have e1 : clamp_int g.width 0 workarea.width = g.width :=
    clamp_int_eq_self hw (by omega)
  have e2 : clamp_int g.height 0 workarea.height = g.height :=
    clamp_int_eq_self hh (by omega)
  cases g with
  | mk x y w h =>
    simp only [clamp] at *
    rw [e1, e2, clamp_int_eq_self hx (by omega), clamp_int_eq_self hy (by omega)]

theorem shrink_expand (g : geometry_t) (m : decoration_margins_t) :
    shrink_geometry_by_margins (expand_geometry_by_margins g m) m = g := by
  cases g
  simp [shrink_geometry_by_margins, expand_geometry_by_margins]

/-- C1: `should_decorate_view` is `!ignore && (forced || own preference)`, and so it is false
for every view that the ignore list matches, whatever the force list and the view say. -/
theorem should_decorate_view_spec (self : wayfire_gtkdecor) (view : toplevel_view_t) :
    should_decorate_view self view
        = (!self.ignore_views view && (self.forced_views view || view.should_be_decorated))
      ∧ (self.ignore_views view = true → should_decorate_view self view = false) := by
  refine ⟨rfl, fun h => ?_⟩
  simp [should_decorate_view, ignore_decoration_of_view, h]

/-- C2 (as amended): for a window that is neither fullscreen nor tiled, and that has no output
or whose grown geometry lies inside the work area of its output, `adjust_new_decorations`
leaves the pending geometry equal to the original one grown by the computed margins on each
side, stores these margins, and a following `remove_decoration` restores the original pending
geometry. -/
theorem adjust_then_remove_roundtrip (self : wayfire_gtkdecor) (view : toplevel_view_t)
    (hfull : view.toplevel.pending.fullscreen = false)
    (htiled : view.toplevel.pending.tiled_edges = 0)
    (hfit : ∀ workarea, view.output = some workarea →
      inside_workarea
        (expand_geometry_by_margins view.toplevel.pending.geometry
          ((self.make_decorator view).get_margins view.toplevel.pending)) workarea) :
    let m := (self.make_decorator view).get_margins view.toplevel.pending
    let g := view.toplevel.pending.geometry
    (adjust_new_decorations self view).toplevel.pending.geometry
        = geometry_t.mk (g.x - m.left) (g.y - m.top) (g.width + (m.left + m.right))
            (g.height + (m.top + m.bottom))
      ∧ (adjust_new_decorations self view).toplevel.pending.margins = m
      ∧ (remove_decoration (adjust_new_decorations self view)).toplevel.pending.geometry = g := by
  intro m g
  have key : (adjust_new_decorations self view).toplevel.pending
      = { view.toplevel.pending with
          margins := m, geometry := expand_geometry_by_margins g m } := by
    cases hout : view.output with
    | none => simp [adjust_new_decorations, hfull, htiled, hout, m, g]
    | some workarea =>
      have h := clamp_eq_self (hfit workarea hout)
      simp [adjust_new_decorations, hfull, htiled, hout, m, g, h]
  refine ⟨?_, ?_, ?_⟩
  · rw [key]; rfl
  · rw [key]
  · simp only [remove_decoration, key, hfull, htiled]
    simp [shrink_expand]

/-- Witness for C2: a 100x100 window at (200, 200) on a 1920x1080 work area. -/
theorem adjust_then_remove_roundtrip_witness :
    (adjust_new_decorations example_plugin
        (example_view (geometry_t.mk 200 200 100 100) 0 false)).toplevel.pending.geometry
        = geometry_t.mk 196 170 108 134
      ∧ (remove_decoration (adjust_new_decorations example_plugin
          (example_view (geometry_t.mk 200 200 100 100) 0 false))).toplevel.pending.geometry
        = geometry_t.mk 200 200 100 100 := by
  have h := adjust_then_remove_roundtrip example_plugin
    (example_view (geometry_t.mk 200 200 100 100) 0 false) rfl rfl
    (by intro workarea hw
        cases hw
        decide)
  exact ⟨h.1, h.2.2⟩

/-- Counterexample to C2 as stated: a 100x100 window at the origin of a 1920x1080 work area,
neither fullscreen nor tiled. Growing it by the margins would give (-4, -30, 108, 134), but the
clamp moves it to (0, 0, 108, 134), and the following removal yields (4, 30, 100, 100), not the
original (0, 0, 100, 100). -/
theorem adjust_then_remove_clamped_counterexample :
    (example_view (geometry_t.mk 0 0 100 100) 0 false).toplevel.pending.fullscreen = false
      ∧ (example_view (geometry_t.mk 0 0 100 100) 0 false).toplevel.pending.tiled_edges = 0
      ∧ (adjust_new_decorations example_plugin
          (example_view (geometry_t.mk 0 0 100 100) 0 false)).toplevel.pending.geometry
        = geometry_t.mk 0 0 108 134
      ∧ (adjust_new_decorations example_plugin
          (example_view (geometry_t.mk 0 0 100 100) 0 false)).toplevel.pending.geometry
        ≠ geometry_t.mk (0 - 4) (0 - 30) (100 + (4 + 4)) (100 + (30 + 4))
      ∧ (remove_decoration (adjust_new_decorations example_plugin
          (example_view (geometry_t.mk 0 0 100 100) 0 false))).toplevel.pending.geometry
        = geometry_t.mk 4 30 100 100
      ∧ (remove_decoration (adjust_new_decorations example_plugin
          (example_view (geometry_t.mk 0 0 100 100) 0 false))).toplevel.pending.geometry
        ≠ (example_view (geometry_t.mk 0 0 100 100) 0 false).toplevel.pending.geometry := by
  decide

/-- C3: when the decoration predicate agrees with the current decorated state,
`update_view_decoration` (and so both signal handlers) returns the view unchanged, pending
geometry, pending margins and decoration record included, and schedules nothing. -/
theorem update_view_decoration_idempotent (self : wayfire_gtkdecor) (view : toplevel_view_t)
    (h : should_decorate_view self view = is_toplevel_decorated view.toplevel) :
    update_view_decoration self (.toplevel view)
        = { view := .toplevel view, scheduled := [] }
      ∧ on_decoration_state_changed self (.toplevel view)
        = { view := .toplevel view, scheduled := [] }
      ∧ on_view_tiled self (.toplevel view)
        = { view := .toplevel view, scheduled := [] } := by
  have key : update_view_decoration self (.toplevel view)
      = { view := .toplevel view, scheduled := [] } := by
    simp [update_view_decoration, toplevel_cast, h]
  exact ⟨key, key, key⟩

/-- Witness for C3: a decorated view that still wants decoration. -/
theorem update_view_decoration_idempotent_witness :
    (update_view_decoration example_plugin
        (.toplevel (adjust_new_decorations example_plugin
          (example_view (geometry_t.mk 200 200 100 100) 0 false)))).scheduled = [] := by
  have h := update_view_decoration_idempotent example_plugin
    (adjust_new_decorations example_plugin
      (example_view (geometry_t.mk 200 200 100 100) 0 false)) (by decide)
  rw [h.1]

/-- C4: for a window whose pending state is fullscreen or has a tiled edge, both
`adjust_new_decorations` and `remove_decoration` leave the pending geometry unchanged, and
`remove_decoration` still zeroes the pending margins and detaches the record. -/
theorem fullscreen_or_tiled_geometry_unchanged (self : wayfire_gtkdecor)
    (view : toplevel_view_t)
    (h : view.toplevel.pending.fullscreen = true ∨ view.toplevel.pending.tiled_edges ≠ 0) :
    (adjust_new_decorations self view).toplevel.pending.geometry
        = view.toplevel.pending.geometry
      ∧ (remove_decoration view).toplevel.pending.geometry = view.toplevel.pending.geometry
      ∧ (remove_decoration view).toplevel.pending.margins = decoration_margins_t.mk 0 0 0 0
      ∧ (remove_decoration view).toplevel.data.isSome = false := by
  have hc : (!view.toplevel.pending.fullscreen && view.toplevel.pending.tiled_edges == 0)
      = false := by
    rcases h with h | h
    · simp [h]
    · simp [h]
  refine ⟨?_, ?_, ?_, ?_⟩
  · simp only [adjust_new_decorations, hc]
    simp
  · simp only [remove_decoration, hc]
    simp
  · simp [remove_decoration]
  · simp [remove_decoration]

/-- Witness for C4: a window tiled on two edges. -/
theorem fullscreen_or_tiled_geometry_unchanged_witness :
    (adjust_new_decorations example_plugin
        (example_view (geometry_t.mk 0 0 960 1080) 5 false)).toplevel.pending.geometry
      = geometry_t.mk 0 0 960 1080 :=
  (fullscreen_or_tiled_geometry_unchanged example_plugin
    (example_view (geometry_t.mk 0 0 960 1080) 5 false) (Or.inr (by decide))).1


/-! ## Theorems about the colour parser -/

theorem isxdigit_cases {c : Char} (h : isxdigit c = true) :
    c ∈ "0123456789abcdefABCDEF".toList := by
  simp only [isxdigit, isdigit, Bool.or_eq_true, Bool.and_eq_true, decide_eq_true_eq] at h
  have hc : c = Char.ofNat c.toNat := (Char.ofNat_toNat c).symm
  rcases h with (⟨h1, h2⟩ | ⟨h1, h2⟩) | ⟨h1, h2⟩ <;>
    interval_cases c.toNat <;> (rw [hc]; decide)

/-- On a pair of hexadecimal digits `std::stoi(_, nullptr, 16)` returns the value of the
pair. -/
theorem stoi_hex_pair {hi lo : Char} (h1 : isxdigit hi = true) (h2 : isxdigit lo = true) :
    stoi [hi, lo] 16 = .ok (hex_pair_value hi lo : Nat) := by
  have m1 := isxdigit_cases h1
  have m2 := isxdigit_cases h2
  simp only [String.toList, List.mem_cons, List.mem_singleton, List.not_mem_nil, or_false] at m1 m2
  rcases m1 with h | h | h | h | h | h | h | h | h | h | h | h | h | h | h | h | h | h | h | h | h | h <;>
  rcases m2 with g | g | g | g | g | g | g | g | g | g | g | g | g | g | g | g | g | g | g | g | g | g <;>
  subst h <;> subst g <;> rfl


/-- C5: on `#` followed by exactly six hexadecimal digits, of either case, `parse_css_color`
returns the values of the digit pairs 1-2, 3-4 and 5-6, each divided by 255, with alpha exactly
1; on `#` followed by exactly eight, alpha is the value of the pair 7-8 divided by 255. -/
theorem parse_css_color_hex (d1 d2 d3 d4 d5 d6 : Char)
    (h1 : isxdigit d1 = true) (h2 : isxdigit d2 = true) (h3 : isxdigit d3 = true)
    (h4 : isxdigit d4 = true) (h5 : isxdigit d5 = true) (h6 : isxdigit d6 = true) :
    parse_css_color ['#', d1, d2, d3, d4, d5, d6]
        = .ok { r := (hex_pair_value d1 d2 : ℚ) / 255
                g := (hex_pair_value d3 d4 : ℚ) / 255
                b := (hex_pair_value d5 d6 : ℚ) / 255
                a := 1 }
      ∧ ∀ d7 d8 : Char, isxdigit d7 = true → isxdigit d8 = true →
          parse_css_color ['#', d1, d2, d3, d4, d5, d6, d7, d8]
            = .ok { r := (hex_pair_value d1 d2 : ℚ) / 255
                    g := (hex_pair_value d3 d4 : ℚ) / 255
                    b := (hex_pair_value d5 d6 : ℚ) / 255
                    a := (hex_pair_value d7 d8 : ℚ) / 255 } := by
  constructor
  · have hm : regex_search hex_regex ['#', d1, d2, d3, d4, d5, d6]
        = some { groups := [some [d1, d2, d3, d4, d5, d6], none], suffix := [] } := by
      simp [regex_search, hex_regex, h1, h2, h3, h4, h5, h6]
    simp only [parse_css_color, hm]
    simp [smatch.str, smatch.matched, stoi_hex_pair, h1, h2, h3, h4, h5, h6, bind, Except.bind,
      pure, Except.pure]
  · intro d7 d8 h7 h8
    have hm : regex_search hex_regex ['#', d1, d2, d3, d4, d5, d6, d7, d8]
        = some { groups := [some [d1, d2, d3, d4, d5, d6], some [d7, d8]], suffix := [] } := by
      simp [regex_search, hex_regex, h1, h2, h3, h4, h5, h6, h7, h8]
    simp only [parse_css_color, hm]
    simp [smatch.str, smatch.matched, stoi_hex_pair, h1, h2, h3, h4, h5, h6, h7, h8, bind,
      Except.bind, pure, Except.pure, Except.map]

/-- Witness for C5: `#1A2b3C` and `#1A2b3C80`. -/
theorem parse_css_color_hex_witness :
    parse_css_color "#1A2b3C".toList
        = .ok { r := ((16 * 1 + 10 : Nat) : ℚ) / 255, g := ((16 * 2 + 11 : Nat) : ℚ) / 255,
                b := ((16 * 3 + 12 : Nat) : ℚ) / 255, a := 1 }
      ∧ parse_css_color "#1A2b3C80".toList
        = .ok { r := ((16 * 1 + 10 : Nat) : ℚ) / 255, g := ((16 * 2 + 11 : Nat) : ℚ) / 255,
                b := ((16 * 3 + 12 : Nat) : ℚ) / 255, a := ((16 * 8 + 0 : Nat) : ℚ) / 255 } :=
  ⟨(parse_css_color_hex '1' 'A' '2' 'b' '3' 'C' rfl rfl rfl rfl rfl rfl).1,
   (parse_css_color_hex '1' 'A' '2' 'b' '3' 'C' rfl rfl rfl rfl rfl rfl).2 '8' '0' rfl rfl⟩


theorem dropWhile_append_stop {p : Char → Bool} {w s : List Char}
    (hw : ∀ c ∈ w, p c = true) (hs : ∀ c ∈ s.head?, p c = false) :
    (w ++ s).dropWhile p = s := by
  rw [List.dropWhile_append_of_pos hw]
  cases s with
  | nil => rfl
  | cons c cs => simp [List.dropWhile_cons, hs c (by simp)]

theorem takeWhile_append_stop {p : Char → Bool} {w s : List Char}
    (hw : ∀ c ∈ w, p c = true) (hs : ∀ c ∈ s.head?, p c = false) :
    (w ++ s).takeWhile p = w := by
  rw [List.takeWhile_append_of_pos hw]
  cases s with
  | nil => simp
  | cons c cs => simp [List.takeWhile_cons, hs c (by simp)]

theorem expect_literal_append (lit s : List Char) :
    expect_literal lit (lit ++ s) = some s := by
  have h : lit.isPrefixOf (lit ++ s) = true := by
    rw [ List.isPrefixOf_iff_prefix]; exact List.prefix_append lit s
  simp [expect_literal, h]

theorem take_plus_append_stop {p : Char → Bool} {w s : List Char} (hne : w ≠ [])
    (hw : ∀ c ∈ w, p c = true) (hs : ∀ c ∈ s.head?, p c = false) :
    take_plus p (w ++ s) = some (w, s) := by
  simp [take_plus, takeWhile_append_stop hw hs, dropWhile_append_stop hw hs, hne]

theorem isspace_not_isdigit (c : Char) (h : isspace c = true) : isdigit c = false := by
  simp only [isspace, isdigit, Bool.or_eq_true, Bool.and_eq_true, decide_eq_true_eq,
    beq_iff_eq, Bool.and_eq_false_iff, decide_eq_false_iff_not] at *
  omega

theorem isdigit_not_isspace (c : Char) (h : isdigit c = true) : isspace c = false := by
  cases hs : isspace c with
  | false => rfl
  | true => rw [isspace_not_isdigit c hs] at h; cases h

theorem isspace_toNat {c : Char} (h : isspace c = true) :
    c.toNat = 32 ∨ (9 ≤ c.toNat ∧ c.toNat ≤ 13) := by
  simpa [isspace] using h

theorem isdigit_toNat {c : Char} (h : isdigit c = true) : 48 ≤ c.toNat ∧ c.toNat ≤ 57 := by
  simpa [isdigit] using h


theorem regex_search_eq_none {f : List Char → Option smatch} :
    ∀ s : List Char, (∀ t, t <:+ s → f t = none) → regex_search f s = none
  | [], h => by simpa [regex_search] using h [] (List.suffix_refl _)
  | c :: cs, h => by
    rw [regex_search, h (c :: cs) (List.suffix_refl _)]
    exact regex_search_eq_none cs (fun t ht => h t (ht.trans (List.suffix_cons c cs)))

theorem regex_search_of_match_here {f : List Char → Option smatch} {s : List Char} {m : smatch}
    (h : f s = some m) : regex_search f s = some m := by
  cases s with
  | nil => simpa [regex_search] using h
  | cons c cs => simp [regex_search, h]

theorem digit_value_of_isdigit {c : Char} (h : isdigit c = true) :
    digit_value c = some (c.toNat - 48) := by
  simp [digit_value, h]

theorem is_base_digit_of_isdigit {c : Char} (h : isdigit c = true) :
    is_base_digit 10 c = true := by
  have := isdigit_toNat h
  simp only [is_base_digit, digit_value_of_isdigit h, decide_eq_true_eq]
  omega

theorem digits_value_eq_decimal_value (ds : List Char) (h : all_digits ds) :
    digits_value 10 ds = decimal_value ds := by
  induction ds using List.reverseRecOn with
  | nil => simp [digits_value, decimal_value]
  | append_singleton init c ih =>
    have hc : isdigit c = true := h c (by simp)
    have hi : all_digits init := fun d hd => h d (by simp [hd])
    have ih := ih hi
    simp only [digits_value, decimal_value] at ih ⊢
    rw [List.foldl_append, List.reverse_append]
    simp only [List.foldl_cons, List.foldl_nil, List.reverse_cons, List.reverse_nil,
      List.nil_append, List.singleton_append, List.map_cons, Nat.ofDigits_cons]
    rw [ih, digit_value_of_isdigit hc]
    simp only [Option.getD_some, Nat.cast_id]
    ring

theorem digits_value_nil (base : Nat) : digits_value base [] = 0 := rfl

/-- On a non-empty run of decimal digits whose value fits an `int`, `std::stoi` returns that
value. -/
theorem stoi_digits {ds : List Char} (h : all_digits ds) (hn : ds ≠ [])
    (hv : decimal_value ds ≤ 2147483647) : stoi ds 10 = .ok (decimal_value ds : Int) := by
  obtain ⟨d, rest, rfl⟩ := List.exists_cons_of_ne_nil hn
  have hd : isdigit d = true := h d (by simp)
  have hdn := isdigit_toNat hd
  have e1 : (d :: rest).dropWhile isspace = d :: rest := by
    simp [List.dropWhile_cons, isdigit_not_isspace d hd]
  have hm : d ≠ '-' := by rintro rfl; simp at hdn
  have hp : d ≠ '+' := by rintro rfl; simp at hdn
  have e2 : read_sign (d :: rest) = (false, d :: rest) := by simp [read_sign, hm, hp]
  have e3 : skip_hex_marker 10 (d :: rest) = d :: rest := by
    rcases rest with _ | ⟨x, _ | ⟨y, zs⟩⟩ <;> simp [skip_hex_marker]
  have e4 : (d :: rest).takeWhile (is_base_digit 10) = d :: rest :=
    List.takeWhile_eq_self_iff.mpr (fun c hc => is_base_digit_of_isdigit (h c hc))
  have e5 := digits_value_eq_decimal_value (d :: rest) h
  simp only [stoi, e1, e2, e3, e4, e5]
  have hv2 : ¬ ((decimal_value (d :: rest) : Int) < -2147483648
      ∨ 2147483647 < (decimal_value (d :: rest) : Int)) := by omega
  simp only [reduceCtorEq, if_false, hv2]

set_option maxRecDepth 100000 in
/-- Two alpha texts outside the range of a `double`: on a one followed by four hundred zeros,
which overflows, and on a one after four hundred zeros behind the dot, which underflows,
`std::stod` throws `std::out_of_range`. -/
theorem stod_range_errors :
    stod ('1' :: List.replicate 400 '0') = .error .out_of_range
      ∧ stod ('0' :: '.' :: (List.replicate 400 '0' ++ ['1'])) = .error .out_of_range :=
  ⟨rfl, rfl⟩

theorem regex_search_some {f : List Char → Option smatch} {m : smatch} :
    ∀ s : List Char, regex_search f s = some m → ∃ pre t, s = pre ++ t ∧ f t = some m
  | [], h => ⟨[], [], rfl, by simpa [regex_search] using h⟩
  | c :: cs, h => by
    rw [regex_search] at h
    cases hf : f (c :: cs) with
    | some m' =>
      rw [hf] at h
      exact ⟨[], c :: cs, rfl, by rw [hf]; exact h⟩
    | none =>
      rw [hf] at h
      obtain ⟨pre, t, e, ht⟩ := regex_search_some cs h
      exact ⟨c :: pre, t, by rw [e]; rfl, ht⟩

theorem expect_literal_some {lit s s' : List Char} (h : expect_literal lit s = some s') :
    s = lit ++ s' := by
  unfold expect_literal at h
  split at h
  · rename_i hp
    rw [ List.isPrefixOf_iff_prefix] at hp
    obtain ⟨t, rfl⟩ := hp
    simp at h
    rw [h]
  · cases h

theorem take_plus_some {p : Char → Bool} {s m s' : List Char}
    (h : take_plus p s = some (m, s')) :
    s = m ++ s' ∧ (∀ c ∈ m, p c = true) ∧ m ≠ [] := by
  unfold take_plus at h
  split at h
  · cases h
  · rename_i hne
    simp only [Option.some.injEq, Prod.mk.injEq] at h
    obtain ⟨rfl, rfl⟩ := h
    exact ⟨(List.takeWhile_append_dropWhile p s).symm,
      fun c hc => (List.mem_takeWhile_imp hc), hne⟩

theorem space_split (s : List Char) :
    s = s.takeWhile isspace ++ s.dropWhile isspace ∧ all_space (s.takeWhile isspace) :=
  ⟨(List.takeWhile_append_dropWhile isspace s).symm, fun _ hc => List.mem_takeWhile_imp hc⟩

theorem hex_regex_some {t : List Char} {m : smatch} (h : hex_regex t = some m) :
    ∃ ds post : List Char, t = '#' :: (ds ++ post) ∧ ds.length = 6
      ∧ ∀ c ∈ ds, isxdigit c = true := by
  cases t with
  | nil => simp [hex_regex] at h
  | cons c rest =>
    simp only [hex_regex] at h
    split at h
    · rename_i hc
      obtain ⟨rfl, hl, ha⟩ := hc
      exact ⟨rest.take 6, rest.drop 6, by rw [List.take_append_drop], hl,
        fun c hc => List.all_eq_true.mp ha c hc⟩
    · cases h

theorem rgba_alpha_group_cases (x : List Char) :
    rgba_alpha_group x = (none, x)
      ∨ ∃ s1 alpha s2 : List Char, x = ',' :: s1
          ∧ take_plus isdigit_or_dot (s1.dropWhile isspace) = some (alpha, s2)
          ∧ rgba_alpha_group x = (some alpha, s2) := by
  cases h1 : expect_literal [','] x with
  | none => exact Or.inl (by simp [rgba_alpha_group, h1])
  | some s1 =>
    have hx := expect_literal_some h1
    cases h2 : take_plus isdigit_or_dot (s1.dropWhile isspace) with
    | none => exact Or.inl (by simp [rgba_alpha_group, h1, h2])
    | some p =>
      obtain ⟨alpha, s2⟩ := p
      exact Or.inr ⟨s1, alpha, s2, hx, h2, by simp [rgba_alpha_group, h1, h2]⟩

theorem all_space_append {u v : List Char} (hu : all_space u) (hv : all_space v) :
    all_space (u ++ v) := by
  intro c hc
  rcases List.mem_append.mp hc with h | h
  · exact hu c h
  · exact hv c h

theorem rgba_regex_some {t : List Char} {m : smatch} (h : rgba_regex t = some m) :
    ∃ lit : List Char, t = lit ++ m.suffix ∧ is_functional_literal lit := by
  simp only [rgba_regex, Option.bind_eq_bind, Option.bind_eq_some, Option.pure_def,
    Option.some.injEq] at h
  obtain ⟨s1, hrgb, a1, hparen, ⟨r, ar⟩, hr, a2, hc1, ⟨g, ag⟩, hg, a4, hc2, ⟨b, ab⟩, hb,
    a6, hclose, rfl⟩ := h
  simp only at hc1 hc2 hclose ⊢
  have et := expect_literal_some hrgb
  -- the optional `a`
  obtain ⟨has_a, s1', es1, hfn⟩ : ∃ (has_a : Bool) (s1' : List Char),
      (expect_literal ['a'] s1).getD s1 = s1'
        ∧ t = (if has_a then ['r', 'g', 'b', 'a'] else ['r', 'g', 'b']) ++ s1' := by
    cases ha : expect_literal ['a'] s1 with
    | none => exact ⟨false, s1, rfl, by simpa using et⟩
    | some s =>
      refine ⟨true, s, rfl, ?_⟩
      rw [et, expect_literal_some ha]
      rfl
  rw [es1] at hparen
  obtain ⟨e0, h0⟩ := space_split s1'
  rw [expect_literal_some hparen] at e0
  obtain ⟨e1, h1⟩ := space_split a1
  obtain ⟨er, hrd, hrn⟩ := take_plus_some hr
  rw [er] at e1
  obtain ⟨e2, h2⟩ := space_split ar
  rw [expect_literal_some hc1] at e2
  obtain ⟨e3, h3⟩ := space_split a2
  obtain ⟨eg, hgd, hgn⟩ := take_plus_some hg
  rw [eg] at e3
  obtain ⟨e4, h4⟩ := space_split ag
  rw [expect_literal_some hc2] at e4
  obtain ⟨e5, h5⟩ := space_split a4
  obtain ⟨eb, hbd, hbn⟩ := take_plus_some hb
  rw [eb] at e5
  obtain ⟨e6, h6⟩ := space_split ab
  rcases rgba_alpha_group_cases (ab.dropWhile isspace) with hgrp | ⟨x1, alpha, x2, ex, hal, hgrp⟩
  · rw [hgrp] at hclose
    simp only at hclose
    obtain ⟨e7, h7⟩ := space_split (ab.dropWhile isspace)
    rw [expect_literal_some hclose] at e7
    refine ⟨functional_text (if has_a then ['r', 'g', 'b', 'a'] else ['r', 'g', 'b'])
      (s1'.takeWhile isspace) (a1.takeWhile isspace) r (ar.takeWhile isspace)
      (a2.takeWhile isspace) g (ag.takeWhile isspace) (a4.takeWhile isspace) b
      ((ab.takeWhile isspace ++ (ab.dropWhile isspace).takeWhile isspace) ++ [')']), ?_,
      has_a, _, _, r, _, _, g, _, _, b, _, h0, h1, h2, h3, h4, h5, all_space_append h6 h7,
      hrd, hgd, hbd, hrn, hgn, hbn, Or.inl rfl⟩
    rw [hfn]
    conv_lhs => rw [e0, e1, e2, e3, e4, e5, e6, e7]
    simp [functional_text, List.append_assoc]
  · rw [hgrp] at hclose
    simp only at hclose
    obtain ⟨e7, h7⟩ := space_split x1
    obtain ⟨ea, had, han⟩ := take_plus_some hal
    rw [ea] at e7
    obtain ⟨e8, h8⟩ := space_split x2
    rw [expect_literal_some hclose] at e8
    refine ⟨functional_text (if has_a then ['r', 'g', 'b', 'a'] else ['r', 'g', 'b'])
      (s1'.takeWhile isspace) (a1.takeWhile isspace) r (ar.takeWhile isspace)
      (a2.takeWhile isspace) g (ag.takeWhile isspace) (a4.takeWhile isspace) b
      (ab.takeWhile isspace ++ (',' :: (x1.takeWhile isspace ++ (alpha ++
        (x2.takeWhile isspace ++ [')']))))), ?_,
      has_a, _, _, r, _, _, g, _, _, b, _, h0, h1, h2, h3, h4, h5, h6,
      hrd, hgd, hbd, hrn, hgn, hbn, Or.inr ⟨_, alpha, _, h7, h8, had, han, rfl⟩⟩
    rw [hfn]
    conv_lhs => rw [e0, e1, e2, e3, e4, e5, e6, ex, e7, e8]
    simp [functional_text, List.append_assoc]

theorem lparen_mem_functional_literal {lit : List Char} (h : is_functional_literal lit) :
    '(' ∈ lit := by
  obtain ⟨has_a, w0, w1, r, w2, w3, g, w4, w5, b, w6, -, -, -, -, -, -, -, -, -, -, -, -, -,
    h | ⟨w7, alpha, w8, -, -, -, -, h⟩⟩ := h <;>
  · rw [h]
    simp [functional_text]

theorem head_functional_literal {lit : List Char} (h : is_functional_literal lit) :
    lit.head? = some 'r' := by
  obtain ⟨has_a, w0, w1, r, w2, w3, g, w4, w5, b, w6, -, -, -, -, -, -, -, -, -, -, -, -, -,
    h | ⟨w7, alpha, w8, -, -, -, -, h⟩⟩ := h <;>
  · rw [h]
    cases has_a <;> simp [functional_text]

/-- C7 (as amended): a text that has no hexadecimal literal inside (no `#` that six hexadecimal
digits follow) and no functional literal inside is parsed to opaque black. -/
theorem parse_css_color_no_literal (s : List Char)
    (hhex : ¬ contains_hex_literal s) (hfn : ¬ contains_functional_literal s) :
    parse_css_color s = .ok black := by
  have h1 : regex_search hex_regex s = none := by
    cases h : regex_search hex_regex s with
    | none => rfl
    | some m =>
      exfalso
      obtain ⟨pre, t, e, ht⟩ := regex_search_some s h
      obtain ⟨ds, post, et, hl, hd⟩ := hex_regex_some ht
      exact hhex ⟨pre, ds, post, by rw [e, et], hl, hd⟩
  have h2 : regex_search rgba_regex s = none := by
    cases h : regex_search rgba_regex s with
    | none => rfl
    | some m =>
      exfalso
      obtain ⟨pre, t, e, ht⟩ := regex_search_some s h
      obtain ⟨lit, et, hl⟩ := rgba_regex_some ht
      exact hfn ⟨pre, lit, m.suffix, by rw [e, et], hl⟩
  simp only [parse_css_color, h1, h2]
  rfl

/-- Witness for C7: the bare word `red`. -/
theorem parse_css_color_no_literal_witness : parse_css_color "red".toList = .ok black := by
  apply parse_css_color_no_literal
  · rintro ⟨pre, ds, post, e, -, -⟩
    have hm : '#' ∈ "red".toList := by rw [e]; simp
    revert hm
    decide
  · rintro ⟨pre, lit, post, e, hl⟩
    have hm : '(' ∈ "red".toList := by
      rw [e]
      simp [lparen_mem_functional_literal hl]
    revert hm
    decide

/-- Counterexample to C7 as stated: the seven-digit text `#1234567` is neither a hexadecimal
literal nor a functional literal, and `parse_css_color` does not return opaque black on it: the
search finds `#123456` inside and returns that colour. -/
theorem parse_css_color_malformed_counterexample :
    ¬ is_hex_literal "#1234567".toList ∧ ¬ is_functional_literal "#1234567".toList
      ∧ parse_css_color "#1234567".toList
        = .ok { r := (18 : ℚ) / 255, g := (52 : ℚ) / 255, b := (86 : ℚ) / 255, a := 1 }
      ∧ parse_css_color "#1234567".toList ≠ .ok black := by
  have hm : regex_search hex_regex "#1234567".toList
      = some { groups := [some "123456".toList, none], suffix := ['7'] } := by decide
  have hv : parse_css_color "#1234567".toList
      = .ok { r := (18 : ℚ) / 255, g := (52 : ℚ) / 255, b := (86 : ℚ) / 255, a := 1 } := by
    have s1 : stoi ['1', '2'] 16 = .ok 18 := rfl
    have s2 : stoi ['3', '4'] 16 = .ok 52 := rfl
    have s3 : stoi ['5', '6'] 16 = .ok 86 := rfl
    simp only [parse_css_color, hm]
    simp [smatch.str, smatch.matched, s1, s2, s3, bind, Except.bind, pure, Except.pure]
  refine ⟨?_, ?_, hv, ?_⟩
  · rintro ⟨ds, e, hl, -⟩
    have : ds.length = 7 := by
      have := congrArg List.length e
      simpa using this.symm
    omega
  · intro h
    have := head_functional_literal h
    revert this
    decide
  · rw [hv]
    intro h
    have := congrArg (fun c => match c with | .ok c => c.r | .error _ => 0) h
    simp [black] at this

/-! ## Theorems about theme loading -/

/-- C8 (evaluation of the code at the failing inputs): `parse_css_color` leaves with
`std::out_of_range` on a channel too long for an `int` and with `std::invalid_argument` on an
alpha text without a digit, and nothing between there and the caller of `load_gtk_theme`
catches the exception: it leaves `load_gtk_theme`, for a colour as for a font size. -/
theorem parse_css_color_raises :
    parse_css_color "rgb(99999999999,0,0)".toList = .error .out_of_range
      ∧ parse_css_color "rgba(0,0,0,.)".toList = .error .invalid_argument
      ∧ (load_gtk_theme (example_fs overflow_css) decoration_theme_t.new).raised
        = some .out_of_range
      ∧ (load_gtk_theme (example_fs overflow_font_css) decoration_theme_t.new).raised
        = some .out_of_range := by
  refine ⟨rfl, rfl, ?_, ?_⟩
  · rfl
  · rfl

theorem same_frame_refl (s : decoration_theme_t) : same_frame s s := ⟨rfl, rfl, rfl, rfl⟩

theorem same_frame_trans {s t u : decoration_theme_t} (h1 : same_frame s t)
    (h2 : same_frame t u) : same_frame s u :=
  ⟨h2.1.trans h1.1, h2.2.1.trans h1.2.1, h2.2.2.1.trans h1.2.2.1, h2.2.2.2.trans h1.2.2.2⟩

/-- One assignment of a parsed colour: if the step yields a state, that state has the property
that both possible results have. -/
theorem color_step_ok {P : decoration_theme_t → Prop} {c : Bool}
    {e : Except std_exception color_t} {f : color_t → decoration_theme_t}
    {d s1 : decoration_theme_t}
    (h : (if c = true then e.map f else .ok d) = .ok s1)
    (hf : ∀ col, P (f col)) (hd : P d) : P s1 := by
  cases c with
  | false =>
    simp only [Bool.false_eq_true, if_false, Except.ok.injEq] at h
    exact h ▸ hd
  | true =>
    simp only [if_true] at h
    cases e with
    | error x => simp [Except.map] at h
    | ok col =>
      simp only [Except.map, Except.ok.injEq] at h
      exact h ▸ hf col

theorem parse_theme_colors_frame (color_vars : color_map) (s : decoration_theme_t) :
    same_frame s (parse_theme_colors color_vars s).1 := by
  unfold parse_theme_colors
  split
  · exact same_frame_refl s
  · rename_i s1 h1
    have f1 : same_frame s s1 :=
      color_step_ok h1 (fun _ => ⟨rfl, rfl, rfl, rfl⟩) (same_frame_refl s)
    split
    · exact f1
    · rename_i s2 h2
      have f2 : same_frame s s2 :=
        color_step_ok h2 (fun _ => same_frame_trans f1 ⟨rfl, rfl, rfl, rfl⟩)
          (same_frame_trans f1 ⟨rfl, rfl, rfl, rfl⟩)
      split
      · exact f2
      · rename_i s3 h3
        have f3 : same_frame s s3 :=
          color_step_ok h3 (fun _ => same_frame_trans f2 ⟨rfl, rfl, rfl, rfl⟩) f2
        split
        · exact f3
        · rename_i s4 h4
          have h4' : (if color_vars.count "theme_unfocused_fg_color".toList = true then
              (parse_css_color (color_vars.read "theme_unfocused_fg_color".toList)).map
                (fun c => { s3 with theme_titlebar_fg_inactive := c })
            else (if color_vars.count "unfocused_insensitive_color".toList = true then
              (parse_css_color (color_vars.read "unfocused_insensitive_color".toList)).map
                (fun c => { s3 with theme_titlebar_fg_inactive := c })
            else .ok { s3 with theme_titlebar_fg_inactive := s3.theme_titlebar_fg_active }))
              = .ok s4 := h4
          by_cases hc : color_vars.count "theme_unfocused_fg_color".toList = true
          · rw [if_pos hc] at h4'
            have h5 : (if true = true then
                (parse_css_color (color_vars.read "theme_unfocused_fg_color".toList)).map
                  (fun c => { s3 with theme_titlebar_fg_inactive := c })
                else .ok s3) = .ok s4 := by simpa using h4'
            exact color_step_ok h5 (fun _ => same_frame_trans f3 ⟨rfl, rfl, rfl, rfl⟩) f3
          · rw [if_neg hc] at h4'
            exact color_step_ok h4' (fun _ => same_frame_trans f3 ⟨rfl, rfl, rfl, rfl⟩)
              (same_frame_trans f3 ⟨rfl, rfl, rfl, rfl⟩)

theorem parse_theme_font_frame (css_content : List Char) (s : decoration_theme_t) :
    same_frame s (parse_theme_font css_content s).1 := by
  unfold parse_theme_font
  have f1 : same_frame s (match regex_search font_regex css_content with
      | some font_match =>
        { s with
          theme_font_family :=
            erase_char (Char.ofNat 39) (erase_char (Char.ofNat 34) (font_match.str 1)) }
      | none => s) := by
    split
    · exact ⟨rfl, rfl, rfl, rfl⟩
    · exact same_frame_refl s
  simp only
  split
  · split
    · exact same_frame_trans f1 ⟨rfl, rfl, rfl, rfl⟩
    · exact f1
  · exact f1

/-- `parse_theme_css` leaves `theme_loaded` alone, and leaves the button colours alone or sets
them to the design constants. -/
theorem parse_theme_css_frame (fs : filesystem) (css_file : List Char)
    (s : decoration_theme_t) :
    (parse_theme_css fs css_file s).state.theme_loaded = s.theme_loaded
      ∧ (buttons_default s → buttons_default (parse_theme_css fs css_file s).state) := by
  unfold parse_theme_css
  split
  · exact ⟨rfl, id⟩
  · rename_i css_content _
    have fc := parse_theme_colors_frame (collect_color_vars css_content) s
    simp only
    split
    · rename_i s1 e h1
      rw [h1] at fc
      exact ⟨fc.1, fun hb => ⟨fc.2.1.trans hb.1, fc.2.2.1.trans hb.2.1,
        fc.2.2.2.trans hb.2.2⟩⟩
    · rename_i s1 h1
      rw [h1] at fc
      have ff := parse_theme_font_frame css_content
        { s1 with
          theme_button_bg := button_bg_default
          theme_button_hover_bg := button_hover_bg_default
          theme_button_active_bg := button_active_bg_default }
      exact ⟨ff.1.trans fc.1, fun _ => ⟨ff.2.1, ff.2.2.1, ff.2.2.2⟩⟩

theorem apply_gtk_font_frame (gtk_font : List Char) (s : decoration_theme_t) :
    same_frame s (apply_gtk_font gtk_font s) := by
  unfold apply_gtk_font
  split
  · split
    · simp only
      split <;> exact ⟨rfl, rfl, rfl, rfl⟩
    · exact same_frame_refl s
  · exact same_frame_refl s

/-- `load_gtk_theme` always leaves the flag `theme_loaded` set and keeps the button colours at
the design constants. -/
theorem load_gtk_theme_frame (fs : filesystem) (s : decoration_theme_t) :
    (load_gtk_theme fs s).state.theme_loaded = true
      ∧ (buttons_default s → buttons_default (load_gtk_theme fs s).state) := by
  unfold load_gtk_theme
  split
  · rename_i h
    exact ⟨h, id⟩
  · have fa := apply_gtk_font_frame (get_gtk_font_name fs).1
      { s with theme_loaded := true, icon_theme_name := (get_icon_theme_name fs).1 }
    have hb : buttons_default s → buttons_default (apply_gtk_font (get_gtk_font_name fs).1
        { s with theme_loaded := true, icon_theme_name := (get_icon_theme_name fs).1 }) :=
      fun hb => ⟨fa.2.1.trans hb.1, fa.2.2.1.trans hb.2.1, fa.2.2.2.trans hb.2.2⟩
    simp only
    split
    · exact ⟨fa.1, hb⟩
    · split
      · exact ⟨fa.1, hb⟩
      · have fp := parse_theme_css_frame fs (find_theme_css_file fs (get_gtk_theme_name fs).1).1
          (apply_gtk_font (get_gtk_font_name fs).1
            { s with theme_loaded := true, icon_theme_name := (get_icon_theme_name fs).1 })
        exact ⟨fp.1.trans fa.1, fun h => fp.2 (hb h)⟩

theorem reachable_buttons_default {s : decoration_theme_t} (h : reachable s) :
    buttons_default s := by
  induction h with
  | new => exact ⟨rfl, rfl, rfl⟩
  | load fs s _ ih => exact (load_gtk_theme_frame fs s).2 ih
  | reload s _ ih => exact ih

/-- C9: after any call of `load_gtk_theme` the theme is marked as attempted, whether the
resolution ran to its end, stopped early or was left by an exception; on every state marked as
attempted `load_gtk_theme` returns the state unchanged, whatever the file system, and touches
no file; hence a second call that follows a first one without `reload_theme` in between
touches no file and changes nothing. -/
theorem load_gtk_theme_memoized (fs : filesystem) (s : decoration_theme_t) :
    (load_gtk_theme fs s).state.theme_loaded = true
      ∧ (∀ (fs' : filesystem) (t : decoration_theme_t), t.theme_loaded = true →
          load_gtk_theme fs' t = { state := t, raised := none, accesses := [] })
      ∧ (∀ fs' : filesystem, load_gtk_theme fs' (load_gtk_theme fs s).state
          = { state := (load_gtk_theme fs s).state, raised := none, accesses := [] }) := by
  have hguard : ∀ (fs' : filesystem) (t : decoration_theme_t), t.theme_loaded = true →
      load_gtk_theme fs' t = { state := t, raised := none, accesses := [] } := by
    intro fs' t ht
    simp [load_gtk_theme, ht]
  exact ⟨(load_gtk_theme_frame fs s).1, hguard,
    fun fs' => hguard fs' _ (load_gtk_theme_frame fs s).1⟩

/-- Witness for C9: a first load against the example file system, which opens the settings
file and the stylesheet, and a second load against a different one, which opens nothing. -/
theorem load_gtk_theme_memoized_witness :
    (load_gtk_theme (example_fs example_css) decoration_theme_t.new).accesses ≠ []
      ∧ (load_gtk_theme (example_fs overflow_css)
          (load_gtk_theme (example_fs example_css) decoration_theme_t.new).state).accesses
        = [] := by
  refine ⟨by decide, ?_⟩
  rw [(load_gtk_theme_memoized (example_fs example_css) decoration_theme_t.new).2.2
    (example_fs overflow_css)]

/-- C10: for every state reachable from the constructor by `load_gtk_theme` and `reload_theme`
calls, `reload_theme` gives back the state of a freshly constructed theme (not marked as
attempted, fallback colours, font and icon theme unset), so that the next `load_gtk_theme`,
against any file system, runs the resolution again and yields exactly what it yields on a
fresh theme. -/
theorem reload_then_load_eq_fresh (s : decoration_theme_t) (hs : reachable s)
    (fs : filesystem) :
    reload_theme s = decoration_theme_t.new
      ∧ (reload_theme s).theme_loaded = false
      ∧ load_gtk_theme fs (reload_theme s) = load_gtk_theme fs decoration_theme_t.new := by
  have hb := reachable_buttons_default hs
  have key : reload_theme s = decoration_theme_t.new := by
    obtain ⟨h1, h2, h3⟩ := hb
    cases s
    simp only at h1 h2 h3
    simp [reload_theme, decoration_theme_t.new, h1, h2, h3]
  exact ⟨key, by rw [key]; rfl, by rw [key]⟩

/-- Witness for C10: the state after a load of the example stylesheet. -/
theorem reload_then_load_eq_fresh_witness :
    load_gtk_theme (example_fs overflow_css)
        (reload_theme (load_gtk_theme (example_fs example_css) decoration_theme_t.new).state)
      = load_gtk_theme (example_fs overflow_css) decoration_theme_t.new :=
  (reload_then_load_eq_fresh _ (reachable.load (example_fs example_css) _ reachable.new)
    (example_fs overflow_css)).2.2

/-! ## The bound on the rounds of the `@define-color` loop -/

theorem value_up_to_semicolon_length {min_ws : Nat} {ws s value after : List Char}
    (h : value_up_to_semicolon min_ws ws s = some (value, after)) :
    after.length < s.length := by
  unfold value_up_to_semicolon at h
  have hle : (s.dropWhile not_semicolon).length ≤ s.length :=
    (List.dropWhile_suffix not_semicolon).length_le
  split at h
  · cases h
  · rename_i c rest hd
    rw [hd] at hle
    simp only [List.length_cons] at hle
    have ha : after = rest := by
      split at h
      · simp only [Option.some.injEq, Prod.mk.injEq] at h
        exact h.2.symm
      · split at h
        · split at h
          · simp only [Option.some.injEq, Prod.mk.injEq] at h
            exact h.2.symm
          · cases h
        · cases h
    rw [ha]
    omega

theorem define_color_regex_length {t : List Char} {m : smatch}
    (h : define_color_regex t = some m) : m.suffix.length < t.length := by
  simp only [define_color_regex, Option.bind_eq_bind, Option.bind_eq_some, Option.pure_def,
    Option.some.injEq] at h
  obtain ⟨s1, hlit, ⟨ws1, s2⟩, h1, ⟨name, s3⟩, h2, ⟨ws, s4⟩, h3, ⟨value, s5⟩, h4, rfl⟩ := h
  simp only at h2 h3 h4 ⊢
  have e0 := congrArg List.length (expect_literal_some hlit)
  have e1 := congrArg List.length (take_plus_some h1).1
  have e2 := congrArg List.length (take_plus_some h2).1
  have e3 := congrArg List.length (take_plus_some h3).1
  have e4 := value_up_to_semicolon_length h4
  simp only [List.length_append] at e0 e1 e2 e3
  omega

theorem define_color_search_length {s : List Char} {m : smatch}
    (h : regex_search define_color_regex s = some m) : m.suffix.length < s.length := by
  obtain ⟨pre, t, e, ht⟩ := regex_search_some s h
  have := define_color_regex_length ht
  rw [e, List.length_append]
  omega

/-- The loop over the `@define-color` statements never runs out of rounds: with more rounds
than the text has characters, one more round changes nothing. -/
theorem define_color_loop_succ (fuel : Nat) :
    ∀ (s : List Char) (color_vars : color_map), s.length < fuel →
      define_color_loop (fuel + 1) s color_vars = define_color_loop fuel s color_vars := by
  induction fuel with
  | zero => intro s color_vars h; omega
  | succ n ih =>
    intro s color_vars h
    rw [define_color_loop, define_color_loop]
    cases hm : regex_search define_color_regex s with
    | none => rfl
    | some m =>
      have := define_color_search_length hm
      exact ih m.suffix _ (by omega)

/-- The map of colour variables does not depend on the bound: any larger bound gives the same
map. -/
theorem collect_color_vars_fuel (css_content : List Char) (extra : Nat) :
    define_color_loop (css_content.length + 1 + extra) css_content []
      = collect_color_vars css_content := by
  induction extra with
  | zero => rfl
  | succ k ih =>
    rw [← ih]
    exact define_color_loop_succ (css_content.length + 1 + k) css_content [] (by omega)

/-! ## Theorems about the role colours of a stylesheet -/

theorem parse_theme_colors_eq (color_vars : color_map) (s : decoration_theme_t) :
    parse_theme_colors color_vars s
      = match bg_active_step color_vars s with
        | .error e => (s, some e)
        | .ok s1 =>
          match bg_inactive_step color_vars s1 with
          | .error e => (s1, some e)
          | .ok s2 =>
            match fg_active_step color_vars s2 with
            | .error e => (s2, some e)
            | .ok s3 =>
              match fg_inactive_step color_vars s3 with
              | .error e => (s3, some e)
              | .ok s4 => (s4, none) := rfl

theorem fg_active_step_background {color_vars : color_map} {s t : decoration_theme_t}
    (h : fg_active_step color_vars s = .ok t) : same_background s t :=
  color_step_ok h (fun _ => ⟨rfl, rfl⟩) ⟨rfl, rfl⟩

theorem fg_inactive_step_background {color_vars : color_map} {s t : decoration_theme_t}
    (h : fg_inactive_step color_vars s = .ok t) : same_background s t := by
  unfold fg_inactive_step at h
  by_cases hc : color_vars.count "theme_unfocused_fg_color".toList = true
  · rw [if_pos hc] at h
    cases hp : parse_css_color (color_vars.read "theme_unfocused_fg_color".toList) with
    | error e => rw [hp] at h; cases h
    | ok c =>
      rw [hp] at h
      simp only [Except.map, Except.ok.injEq] at h
      exact h ▸ ⟨rfl, rfl⟩
  · rw [if_neg hc] at h
    exact color_step_ok h (fun _ => ⟨rfl, rfl⟩) ⟨rfl, rfl⟩

theorem parse_theme_font_titlebar (css_content : List Char) (s : decoration_theme_t) :
    same_titlebar s (parse_theme_font css_content s).1 := by
  unfold parse_theme_font
  have f1 : same_titlebar s (match regex_search font_regex css_content with
      | some font_match =>
        { s with
          theme_font_family :=
            erase_char (Char.ofNat 39) (erase_char (Char.ofNat 34) (font_match.str 1)) }
      | none => s) := by
    split
    · exact ⟨rfl, rfl, rfl, rfl⟩
    · exact ⟨rfl, rfl, rfl, rfl⟩
  simp only
  split
  · split
    · exact f1
    · exact f1
  · exact f1

/-- What `parse_theme_css` makes of the titlebar colours: those that the colour part leaves,
whether or not an exception ends the call. -/
theorem parse_theme_css_titlebar (fs : filesystem) (css_file css : List Char)
    (s : decoration_theme_t) (hopen : fs.open_file css_file = some css) :
    same_titlebar (parse_theme_colors (collect_color_vars css) s).1
        (parse_theme_css fs css_file s).state
      ∧ ((parse_theme_css fs css_file s).raised = none →
          (parse_theme_colors (collect_color_vars css) s).2 = none) := by
  unfold parse_theme_css
  rw [hopen]
  simp only
  split
  · rename_i s1 e h1
    rw [h1]
    exact ⟨⟨rfl, rfl, rfl, rfl⟩, fun h => by cases h⟩
  · rename_i s1 h1
    rw [h1]
    exact ⟨parse_theme_font_titlebar css _, fun _ => rfl⟩

/-- The background colours after the colour part, when the active background is defined and
parsed and the inactive background is not defined. -/
theorem parse_theme_colors_background (color_vars : color_map) (s : decoration_theme_t)
    (c : color_t)
    (hbg : color_vars.count "theme_bg_color".toList = true)
    (hun : color_vars.count "theme_unfocused_bg_color".toList = false)
    (hc : parse_css_color (color_vars.read "theme_bg_color".toList) = .ok c) :
    (parse_theme_colors color_vars s).1.theme_titlebar_bg_active = c
      ∧ (parse_theme_colors color_vars s).1.theme_titlebar_bg_inactive = c := by
  have e1 : bg_active_step color_vars s = .ok { s with theme_titlebar_bg_active := c } := by
    unfold bg_active_step
    rw [if_pos hbg, hc]
    rfl
  have e2 : bg_inactive_step color_vars { s with theme_titlebar_bg_active := c }
      = .ok { s with theme_titlebar_bg_active := c, theme_titlebar_bg_inactive := c } := by
    unfold bg_inactive_step
    rw [if_neg (by rw [hun]; exact Bool.false_ne_true)]
  rw [parse_theme_colors_eq, e1]
  simp only [e2]
  cases h3 : fg_active_step color_vars
      { s with theme_titlebar_bg_active := c, theme_titlebar_bg_inactive := c } with
  | error e => exact ⟨rfl, rfl⟩
  | ok s3 =>
    have f3 := fg_active_step_background h3
    simp only
    cases h4 : fg_inactive_step color_vars s3 with
    | error e => exact ⟨f3.1, f3.2⟩
    | ok s4 =>
      have f4 := fg_inactive_step_background h4
      exact ⟨f4.1.trans f3.1, f4.2.trans f3.2⟩

/-- C11: for every stylesheet that defines `theme_bg_color` but not
`theme_unfocused_bg_color`, after `parse_theme_css` the inactive titlebar background equals the
active one, and both are the colour that `parse_css_color` returns for the value of
`theme_bg_color`. -/
theorem parse_theme_css_background (fs : filesystem) (css_file css : List Char)
    (s : decoration_theme_t) (c : color_t)
    (hopen : fs.open_file css_file = some css)
    (hbg : (collect_color_vars css).count "theme_bg_color".toList = true)
    (hun : (collect_color_vars css).count "theme_unfocused_bg_color".toList = false)
    (hc : parse_css_color ((collect_color_vars css).read "theme_bg_color".toList) = .ok c) :
    (parse_theme_css fs css_file s).state.theme_titlebar_bg_inactive
        = (parse_theme_css fs css_file s).state.theme_titlebar_bg_active
      ∧ (parse_theme_css fs css_file s).state.theme_titlebar_bg_active = c
      ∧ (parse_theme_css fs css_file s).state.theme_titlebar_bg_inactive = c := by
  have ht := (parse_theme_css_titlebar fs css_file css s hopen).1
  have hb := parse_theme_colors_background (collect_color_vars css) s c hbg hun hc
  have h1 := ht.1.trans hb.1
  have h2 := ht.2.1.trans hb.2
  exact ⟨h2.trans h1.symm, h1, h2⟩

theorem parse_css_color_202020 :
    parse_css_color "#202020".toList
      = .ok { r := (0x20 : ℚ) / 255, g := (0x20 : ℚ) / 255, b := (0x20 : ℚ) / 255, a := 1 } := by
  have hm : regex_search hex_regex "#202020".toList
      = some { groups := [some "202020".toList, none], suffix := [] } := by decide
  have s1 : stoi ['2', '0'] 16 = .ok 32 := rfl
  simp only [parse_css_color, hm]
  simp [smatch.str, smatch.matched, s1, bind, Except.bind, pure, Except.pure]

/-- Witness for C11: the stylesheet `@define-color theme_bg_color #202020;`, for which both
backgrounds are 0x20/255 in the three channels, with alpha 1. -/
theorem parse_theme_css_background_witness :
    (parse_theme_css (css_only_fs bg_only_css) "gtk.css".toList
        decoration_theme_t.new).state.theme_titlebar_bg_active
        = { r := (0x20 : ℚ) / 255, g := (0x20 : ℚ) / 255, b := (0x20 : ℚ) / 255, a := 1 }
      ∧ (parse_theme_css (css_only_fs bg_only_css) "gtk.css".toList
        decoration_theme_t.new).state.theme_titlebar_bg_inactive
        = { r := (0x20 : ℚ) / 255, g := (0x20 : ℚ) / 255, b := (0x20 : ℚ) / 255, a := 1 } := by
  have hv : (collect_color_vars bg_only_css).read "theme_bg_color".toList = "#202020".toList := by
    decide
  have h := parse_theme_css_background (css_only_fs bg_only_css) "gtk.css".toList bg_only_css
    decoration_theme_t.new _ rfl (by decide) (by decide)
    (by rw [hv]; exact parse_css_color_202020)
  exact ⟨h.2.1, h.2.2⟩

/-- When no exception leaves the colour part, each of the four assignments returned. -/
theorem parse_theme_colors_ok (color_vars : color_map) (s : decoration_theme_t)
    (h : (parse_theme_colors color_vars s).2 = none) :
    ∃ s1 s2 s3 : decoration_theme_t,
      bg_active_step color_vars s = .ok s1 ∧ bg_inactive_step color_vars s1 = .ok s2
        ∧ fg_active_step color_vars s2 = .ok s3
        ∧ fg_inactive_step color_vars s3 = .ok (parse_theme_colors color_vars s).1 := by
  rw [parse_theme_colors_eq] at h ⊢
  cases h1 : bg_active_step color_vars s with
  | error e => rw [h1] at h; cases h
  | ok s1 =>
    rw [h1] at h
    simp only at h ⊢
    cases h2 : bg_inactive_step color_vars s1 with
    | error e => rw [h2] at h; cases h
    | ok s2 =>
      rw [h2] at h
      simp only at h ⊢
      cases h3 : fg_active_step color_vars s2 with
      | error e => rw [h3] at h; cases h
      | ok s3 =>
        rw [h3] at h
        simp only at h ⊢
        cases h4 : fg_inactive_step color_vars s3 with
        | error e => rw [h4] at h; cases h
        | ok s4 => exact ⟨s1, s2, s3, rfl, h2, h3, h4⟩

theorem except_map_ok {f : color_t → decoration_theme_t} {e : Except std_exception color_t}
    {t : decoration_theme_t} (h : e.map f = .ok t) : ∃ c, e = .ok c ∧ t = f c := by
  cases e with
  | error x => cases h
  | ok c =>
    simp only [Except.map, Except.ok.injEq] at h
    exact ⟨c, rfl, h.symm⟩

/-- The inactive foreground that the fourth assignment leaves. -/
theorem fg_inactive_step_spec {color_vars : color_map} {s t : decoration_theme_t}
    (h : fg_inactive_step color_vars s = .ok t) :
    (color_vars.count "theme_unfocused_fg_color".toList = true →
        parse_css_color (color_vars.read "theme_unfocused_fg_color".toList)
          = .ok t.theme_titlebar_fg_inactive)
      ∧ (color_vars.count "theme_unfocused_fg_color".toList = false →
          color_vars.count "unfocused_insensitive_color".toList = true →
          parse_css_color (color_vars.read "unfocused_insensitive_color".toList)
            = .ok t.theme_titlebar_fg_inactive)
      ∧ (color_vars.count "theme_unfocused_fg_color".toList = false →
          color_vars.count "unfocused_insensitive_color".toList = false →
          t.theme_titlebar_fg_inactive = t.theme_titlebar_fg_active) := by
  unfold fg_inactive_step at h
  refine ⟨fun h1 => ?_, fun h1 h2 => ?_, fun h1 h2 => ?_⟩
  · rw [if_pos h1] at h
    obtain ⟨c, hc, rfl⟩ := except_map_ok h
    exact hc
  · rw [if_neg (by rw [h1]; exact Bool.false_ne_true), if_pos h2] at h
    obtain ⟨c, hc, rfl⟩ := except_map_ok h
    exact hc
  · rw [if_neg (by rw [h1]; exact Bool.false_ne_true),
      if_neg (by rw [h2]; exact Bool.false_ne_true)] at h
    simp only [Except.ok.injEq] at h
    rw [← h]

/-- C12: for every stylesheet, after `parse_theme_css` has returned, the inactive titlebar
foreground is the colour `parse_css_color` returns for `theme_unfocused_fg_color` if that
variable is defined; otherwise the one it returns for `unfocused_insensitive_color` if that is
defined; otherwise it equals the active titlebar foreground. -/
theorem parse_theme_css_fg_inactive (fs : filesystem) (css_file css : List Char)
    (s : decoration_theme_t) (hopen : fs.open_file css_file = some css)
    (hret : (parse_theme_css fs css_file s).raised = none) :
    ((collect_color_vars css).count "theme_unfocused_fg_color".toList = true →
        parse_css_color ((collect_color_vars css).read "theme_unfocused_fg_color".toList)
          = .ok (parse_theme_css fs css_file s).state.theme_titlebar_fg_inactive)
      ∧ ((collect_color_vars css).count "theme_unfocused_fg_color".toList = false →
          (collect_color_vars css).count "unfocused_insensitive_color".toList = true →
          parse_css_color ((collect_color_vars css).read "unfocused_insensitive_color".toList)
            = .ok (parse_theme_css fs css_file s).state.theme_titlebar_fg_inactive)
      ∧ ((collect_color_vars css).count "theme_unfocused_fg_color".toList = false →
          (collect_color_vars css).count "unfocused_insensitive_color".toList = false →
          (parse_theme_css fs css_file s).state.theme_titlebar_fg_inactive
            = (parse_theme_css fs css_file s).state.theme_titlebar_fg_active) := by
  obtain ⟨ht, hn⟩ := parse_theme_css_titlebar fs css_file css s hopen
  obtain ⟨s1, s2, s3, -, -, -, h4⟩ := parse_theme_colors_ok _ s (hn hret)
  have hs := fg_inactive_step_spec h4
  rw [ht.2.2.2, ht.2.2.1]
  exact hs

/-- Witness for C12: a stylesheet with `unfocused_insensitive_color` and without
`theme_unfocused_fg_color`. -/
theorem parse_theme_css_fg_inactive_witness :
    parse_css_color ((collect_color_vars insensitive_css).read
        "unfocused_insensitive_color".toList)
      = .ok (parse_theme_css (css_only_fs insensitive_css) "gtk.css".toList
          decoration_theme_t.new).state.theme_titlebar_fg_inactive :=
  (parse_theme_css_fg_inactive (css_only_fs insensitive_css) "gtk.css".toList insensitive_css
    decoration_theme_t.new rfl (by decide)).2.1 (by decide) (by decide)

/-! ## Theorems about the asset search -/

theorem find_pair_or {α : Type} (p : α → Bool) (a b : α) (o : Option α) :
    (if p a = true then some a else if p b = true then some b else o)
      = ([a, b].find? p).or o := by
  cases ha : p a <;> cases hb : p b <;> simp [List.find?_cons, ha, hb]

theorem probe_sub_dirs_eq (fs : filesystem) (base theme size_dir name : List Char)
    (subs : List (List Char)) :
    probe_sub_dirs fs base theme size_dir name subs
      = (subs.flatMap fun sub =>
          [base ++ "/".toList ++ theme ++ "/".toList ++ size_dir ++ "/".toList ++ sub
              ++ "/".toList ++ name ++ ".svg".toList,
           base ++ "/".toList ++ theme ++ "/".toList ++ size_dir ++ "/".toList ++ sub
              ++ "/".toList ++ name ++ ".png".toList]).find? fs.stat := by
  induction subs with
  | nil => rfl
  | cons sub rest ih =>
    rw [probe_sub_dirs, List.flatMap_cons, List.find?_append, ih]
    exact find_pair_or _ _ _ _

theorem probe_size_dirs_eq (fs : filesystem) (base theme name : List Char)
    (sizes : List (List Char)) :
    probe_size_dirs fs base theme name sizes
      = (sizes.flatMap fun size_dir =>
          (icon_sub_dirs.flatMap fun sub =>
            [base ++ "/".toList ++ theme ++ "/".toList ++ size_dir ++ "/".toList ++ sub
                ++ "/".toList ++ name ++ ".svg".toList,
             base ++ "/".toList ++ theme ++ "/".toList ++ size_dir ++ "/".toList ++ sub
                ++ "/".toList ++ name ++ ".png".toList])
          ++ [base ++ "/".toList ++ theme ++ "/".toList ++ size_dir ++ "/".toList ++ name
                ++ ".svg".toList,
              base ++ "/".toList ++ theme ++ "/".toList ++ size_dir ++ "/".toList ++ name
                ++ ".png".toList]).find? fs.stat := by
  induction sizes with
  | nil => rfl
  | cons size_dir rest ih =>
    rw [probe_size_dirs, List.flatMap_cons, List.find?_append, List.find?_append, ih,
      probe_sub_dirs_eq]
    cases hs : (icon_sub_dirs.flatMap fun sub =>
        [base ++ "/".toList ++ theme ++ "/".toList ++ size_dir ++ "/".toList ++ sub
            ++ "/".toList ++ name ++ ".svg".toList,
         base ++ "/".toList ++ theme ++ "/".toList ++ size_dir ++ "/".toList ++ sub
            ++ "/".toList ++ name ++ ".png".toList]).find? fs.stat with
    | some p => rfl
    | none => exact find_pair_or _ _ _ _

theorem probe_base_paths_eq (fs : filesystem) (theme name : List Char) (size : Int)
    (bases : List (List Char)) :
    probe_base_paths fs theme name size bases
      = (bases.flatMap fun base =>
          (icon_size_dirs size).flatMap fun size_dir =>
            (icon_sub_dirs.flatMap fun sub =>
              [base ++ "/".toList ++ theme ++ "/".toList ++ size_dir ++ "/".toList ++ sub
                  ++ "/".toList ++ name ++ ".svg".toList,
               base ++ "/".toList ++ theme ++ "/".toList ++ size_dir ++ "/".toList ++ sub
                  ++ "/".toList ++ name ++ ".png".toList])
            ++ [base ++ "/".toList ++ theme ++ "/".toList ++ size_dir ++ "/".toList ++ name
                  ++ ".svg".toList,
                base ++ "/".toList ++ theme ++ "/".toList ++ size_dir ++ "/".toList ++ name
                  ++ ".png".toList]).find? fs.stat := by
  induction bases with
  | nil => rfl
  | cons base rest ih =>
    rw [probe_base_paths, List.flatMap_cons, List.find?_append, ih, probe_size_dirs_eq]
    cases ((icon_size_dirs size).flatMap fun size_dir =>
        (icon_sub_dirs.flatMap fun sub =>
          [base ++ "/".toList ++ theme ++ "/".toList ++ size_dir ++ "/".toList ++ sub
              ++ "/".toList ++ name ++ ".svg".toList,
           base ++ "/".toList ++ theme ++ "/".toList ++ size_dir ++ "/".toList ++ sub
              ++ "/".toList ++ name ++ ".png".toList])
        ++ [base ++ "/".toList ++ theme ++ "/".toList ++ size_dir ++ "/".toList ++ name
              ++ ".svg".toList,
            base ++ "/".toList ++ theme ++ "/".toList ++ size_dir ++ "/".toList ++ name
              ++ ".png".toList]).find? fs.stat <;> rfl

theorem probe_adwaita_eq (fs : filesystem) (name : List Char) (bases : List (List Char)) :
    probe_adwaita fs name bases
      = (bases.map fun base =>
          base ++ "/Adwaita/symbolic/ui/".toList ++ name ++ ".svg".toList).find? fs.stat := by
  induction bases with
  | nil => rfl
  | cons base rest ih =>
    rw [probe_adwaita, List.map_cons, List.find?_cons, ih]
    cases fs.stat (base ++ "/Adwaita/symbolic/ui/".toList ++ name ++ ".svg".toList) <;> rfl

/-- C13 (as amended): for every file system, non-empty icon theme, non-empty icon name and
size, `find_icon_file` returns the first existing path of the enumeration (base directories,
size directories, the four subdirectories and then none, SVG before PNG); if none exists and
the theme is not Adwaita, the first existing `<base>/Adwaita/symbolic/ui/<name>.svg`; and
otherwise the empty string. For an empty icon theme name it returns the empty string, for
every file system, icon name and size. -/
theorem find_icon_file_first_existing (fs : filesystem) (theme name : List Char) (size : Int)
    (hname : name ≠ []) :
    find_icon_file fs theme name size
      = if theme = [] then [] else first_icon fs theme name size := by
  by_cases htheme : theme = []
  · rw [if_pos htheme]
    unfold find_icon_file
    rw [if_pos (Or.inl htheme)]
  · have hg : ¬ (theme = [] ∨ name = []) := by tauto
    rw [if_neg htheme]
    unfold find_icon_file first_icon
    rw [if_neg hg, probe_base_paths_eq, probe_adwaita_eq]
    rfl

/-- Witness for C13: a theme `T` whose only asset is
`scalable/actions/window-close-symbolic.svg` under `/usr/share/icons`, asked for
`window-close-symbolic` at size 24. -/
theorem find_icon_file_first_existing_witness :
    find_icon_file
        (single_file_fs "/usr/share/icons/T/scalable/actions/window-close-symbolic.svg".toList)
        "T".toList "window-close-symbolic".toList 24
      = "/usr/share/icons/T/scalable/actions/window-close-symbolic.svg".toList :=
  (find_icon_file_first_existing
    (single_file_fs "/usr/share/icons/T/scalable/actions/window-close-symbolic.svg".toList)
    "T".toList "window-close-symbolic".toList 24 (by decide)).trans (by decide)

/-- Counterexample to C13 as stated: the settings line `gtk-icon-theme-name=` makes the icon
theme name empty, and the file system holds the icon
`/home/u/.icons/symbolic/actions/window-close-symbolic.svg`. The first path of the
enumeration for the empty theme, `/home/u/.icons//symbolic/actions/window-close-symbolic.svg`,
names that icon, so the enumeration has an existing first path, but `find_icon_file` returns
the empty string. -/
theorem find_icon_file_empty_theme_counterexample :
    (load_gtk_theme empty_icon_theme_fs decoration_theme_t.new).state.icon_theme_name = []
      ∧ first_icon empty_icon_theme_fs [] "window-close-symbolic".toList 24
          = "/home/u/.icons//symbolic/actions/window-close-symbolic.svg".toList
      ∧ find_icon_file empty_icon_theme_fs [] "window-close-symbolic".toList 24 = []
      ∧ find_icon_file empty_icon_theme_fs [] "window-close-symbolic".toList 24
          ≠ first_icon empty_icon_theme_fs [] "window-close-symbolic".toList 24 := by
  decide

theorem first_existing_eq (fs : filesystem) (paths : List (List Char)) :
    (first_existing fs paths).1 = (paths.find? fs.stat).getD [] := by
  induction paths with
  | nil => rfl
  | cons p rest ih =>
    rw [first_existing, List.find?_cons]
    cases h : fs.stat p
    · simpa using ih
    · simp

/-- C14 (evaluation of the code at the failing input): `find_theme_css_file` returns the first
existing of its five search paths, which do not include
`/usr/local/share/themes/<t>/gtk-3.0/gtk-dark.css`; when that file is the only stylesheet of
the theme, it is the first existing file of the described order, and the function returns the
empty string. -/
theorem find_theme_css_file_misses_local_dark :
    (∀ (fs : filesystem) (t : List Char), t ≠ [] →
        (find_theme_css_file fs t).1
          = (((css_candidates fs.home t).take ((css_candidates fs.home t).length - 1)).find?
              fs.stat).getD [])
      ∧ (css_candidates (some "/home/u".toList) "T".toList).find?
          (single_file_fs "/usr/local/share/themes/T/gtk-3.0/gtk-dark.css".toList).stat
        = some "/usr/local/share/themes/T/gtk-3.0/gtk-dark.css".toList
      ∧ (find_theme_css_file
          (single_file_fs "/usr/local/share/themes/T/gtk-3.0/gtk-dark.css".toList)
          "T".toList).1 = [] := by
  refine ⟨?_, by decide, by decide⟩
  intro fs t ht
  rw [find_theme_css_file, if_neg ht, first_existing_eq]
  cases h : fs.home <;> simp [theme_css_search_paths, css_candidates, h]

theorem apply_gtk_font_titlebar (gtk_font : List Char) (s : decoration_theme_t) :
    same_titlebar s (apply_gtk_font gtk_font s)
      ∧ (apply_gtk_font gtk_font s).icon_theme_name = s.icon_theme_name := by
  unfold apply_gtk_font
  split
  · split
    · simp only
      split <;> exact ⟨⟨rfl, rfl, rfl, rfl⟩, rfl⟩
    · exact ⟨⟨rfl, rfl, rfl, rfl⟩, rfl⟩
  · exact ⟨⟨rfl, rfl, rfl, rfl⟩, rfl⟩

/-- What `load_gtk_theme` does on a state not yet marked as attempted when it stops before the
stylesheet: the settings are applied and nothing else. -/
theorem load_gtk_theme_stops_early (fs : filesystem) (s : decoration_theme_t)
    (hs : s.theme_loaded = false)
    (hno : (get_gtk_theme_name fs).1 = []
      ∨ (find_theme_css_file fs (get_gtk_theme_name fs).1).1 = []) :
    (load_gtk_theme fs s).raised = none
      ∧ (load_gtk_theme fs s).state
        = apply_gtk_font (get_gtk_font_name fs).1
            { s with theme_loaded := true, icon_theme_name := (get_icon_theme_name fs).1 } := by
  unfold load_gtk_theme
  rw [if_neg (by rw [hs]; exact Bool.false_ne_true)]
  simp only
  by_cases h1 : (get_gtk_theme_name fs).1 = []
  · rw [if_pos h1]
    exact ⟨rfl, rfl⟩
  · rw [if_neg h1]
    have h2 : (find_theme_css_file fs (get_gtk_theme_name fs).1).1 = [] := by
      rcases hno with h | h
      · exact absurd h h1
      · exact h
    rw [if_pos h2]
    exact ⟨rfl, rfl⟩

theorem read_setting_no_home (fs : filesystem) (key fallback : List Char)
    (h : fs.home = none) : (read_setting fs key fallback).1 = fallback := by
  simp [read_setting, h]

theorem read_setting_no_file (fs : filesystem) (key fallback home : List Char)
    (h : fs.home = some home) (hf : fs.open_file (settings_path home) = none) :
    (read_setting fs key fallback).1 = fallback := by
  simp [read_setting, h, hf]

theorem read_setting_no_key (fs : filesystem) (key fallback home content : List Char)
    (h : fs.home = some home) (hf : fs.open_file (settings_path home) = some content)
    (hk : ∀ line ∈ getlines content, key.isPrefixOf line = false) :
    (read_setting fs key fallback).1 = fallback := by
  have hfind : (getlines content).find? (fun line => key.isPrefixOf line) = none := by
    rw [List.find?_eq_none]
    intro line hl
    rw [hk line hl]
    exact Bool.false_ne_true
  simp [read_setting, h, hf, hfind]

theorem read_setting_first_line (fs : filesystem) (key fallback home content : List Char)
    (before : List (List Char)) (value : List Char) (after : List (List Char))
    (h : fs.home = some home) (hf : fs.open_file (settings_path home) = some content)
    (hl : getlines content = before ++ (key ++ value) :: after)
    (hb : ∀ line ∈ before, key.isPrefixOf line = false) :
    (read_setting fs key fallback).1 = value := by
  have hp : key.isPrefixOf (key ++ value) = true := by
    rw [ List.isPrefixOf_iff_prefix]
    exact List.prefix_append key value
  have hfind : (getlines content).find? (fun line => key.isPrefixOf line)
      = some (key ++ value) := by
    rw [hl, List.find?_append]
    have hn : before.find? (fun line => key.isPrefixOf line) = none := by
      rw [List.find?_eq_none]
      intro line hm
      rw [hb line hm]
      exact Bool.false_ne_true
    rw [hn, List.find?_cons, hp]
    rfl
  simp [read_setting, h, hf, hfind]


/-! ## Theorems about the transaction handler and the settings monitor -/

/-- C16: on a new-transaction signal, a participating toplevel without a decoration record
becomes decorated (`adjust_new_decorations` is applied to it) if and only if its current state
is unmapped, its pending state is mapped and `should_decorate_view` holds for its view; in
every other case it is left as it was, pending state and record included. The other objects
of the transaction do not matter. -/
theorem on_new_tx_undecorated (self : wayfire_gtkdecor) (view : toplevel_view_t)
    (h : view.toplevel.data = none) :
    ((view.toplevel.current.mapped = false ∧ view.toplevel.pending.mapped = true
          ∧ should_decorate_view self view = true) →
        on_new_tx_object self (.toplevel view)
          = .toplevel (adjust_new_decorations self view))
      ∧ (¬ (view.toplevel.current.mapped = false ∧ view.toplevel.pending.mapped = true
            ∧ should_decorate_view self view = true) →
          on_new_tx_object self (.toplevel view) = .toplevel view)
      ∧ (tx_object_decorated (on_new_tx_object self (.toplevel view)) = true
          ↔ (view.toplevel.current.mapped = false ∧ view.toplevel.pending.mapped = true
              ∧ should_decorate_view self view = true))
      ∧ (∀ before after : List tx_object,
          on_new_tx self (before ++ .toplevel view :: after)
            = on_new_tx self before ++ on_new_tx_object self (.toplevel view)
                :: on_new_tx self after) := by
  have hyes : (view.toplevel.current.mapped = false ∧ view.toplevel.pending.mapped = true
        ∧ should_decorate_view self view = true) →
      on_new_tx_object self (.toplevel view)
        = .toplevel (adjust_new_decorations self view) := by
    rintro ⟨h1, h2, h3⟩
    simp [on_new_tx_object, h, h1, h2, h3]
  have hno : ¬ (view.toplevel.current.mapped = false ∧ view.toplevel.pending.mapped = true
        ∧ should_decorate_view self view = true) →
      on_new_tx_object self (.toplevel view) = .toplevel view := by
    intro hn
    simp only [on_new_tx_object, h]
    cases h1 : view.toplevel.current.mapped
    · cases h2 : view.toplevel.pending.mapped
      · simp
      · cases h3 : should_decorate_view self view
        · simp
        · exact absurd ⟨h1, h2, h3⟩ hn
    · simp
  refine ⟨hyes, hno, ?_, ?_⟩
  · constructor
    · intro hd
      by_contra hn
      rw [hno hn] at hd
      simp [tx_object_decorated, is_toplevel_decorated, h] at hd
    · intro hc
      rw [hyes hc]
      simp [tx_object_decorated, is_toplevel_decorated, adjust_new_decorations]
  · intro before after
    simp [on_new_tx]

/-- Witness for C16: an unmapped view that the transaction maps and that asks for decoration. -/
theorem on_new_tx_undecorated_witness :
    tx_object_decorated (on_new_tx_object example_plugin (.toplevel
      { example_view (geometry_t.mk 200 200 100 100) 0 false with
        toplevel :=
          { current := { example_state (geometry_t.mk 200 200 100 100) 0 false with
                          mapped := false }
            pending := example_state (geometry_t.mk 200 200 100 100) 0 false
            data := none } })) = true :=
  (on_new_tx_undecorated example_plugin _ rfl).2.2.1.mpr ⟨rfl, rfl, rfl⟩

/-! ## Theorems about the range of the colour channels -/

/-- The complete behaviour of `std::stoi` on a non-empty run of decimal digits. -/
theorem stoi_digits_cases {ds : List Char} (h : all_digits ds) (hn : ds ≠ []) :
    stoi ds 10 = if decimal_value ds ≤ 2147483647 then .ok (decimal_value ds : Int)
      else .error .out_of_range := by
  by_cases hv : decimal_value ds ≤ 2147483647
  · rw [if_pos hv]
    exact stoi_digits h hn hv
  · rw [if_neg hv]
    obtain ⟨d, rest, rfl⟩ := List.exists_cons_of_ne_nil hn
    have hd : isdigit d = true := h d (by simp)
    have hdn := isdigit_toNat hd
    have e1 : (d :: rest).dropWhile isspace = d :: rest := by
      simp [List.dropWhile_cons, isdigit_not_isspace d hd]
    have hm : d ≠ '-' := by rintro rfl; simp at hdn
    have hp : d ≠ '+' := by rintro rfl; simp at hdn
    have e2 : read_sign (d :: rest) = (false, d :: rest) := by simp [read_sign, hm, hp]
    have e3 : skip_hex_marker 10 (d :: rest) = d :: rest := by
      rcases rest with _ | ⟨x, _ | ⟨y, zs⟩⟩ <;> simp [skip_hex_marker]
    have e4 : (d :: rest).takeWhile (is_base_digit 10) = d :: rest :=
      List.takeWhile_eq_self_iff.mpr (fun c hc => is_base_digit_of_isdigit (h c hc))
    have e5 := digits_value_eq_decimal_value (d :: rest) h
    simp only [stoi, e1, e2, e3, e4, e5]
    have hv2 : ((decimal_value (d :: rest) : Int) < -2147483648
        ∨ 2147483647 < (decimal_value (d :: rest) : Int)) := by omega
    simp only [reduceCtorEq, if_false, hv2, if_true]

theorem stoi_digits_ok {ds : List Char} {v : Int} (h : all_digits ds) (hn : ds ≠ [])
    (hv : stoi ds 10 = .ok v) : v = (decimal_value ds : Int) := by
  rw [stoi_digits_cases h hn] at hv
  split at hv
  · simp only [Except.ok.injEq] at hv
    exact hv.symm
  · cases hv

theorem stod_nonneg {str : List Char} {v : ℚ} (h : stod str = .ok v) : 0 ≤ v := by
  unfold stod at h
  simp only at h
  split at h
  · cases h
  · split at h
    · cases h
    · split at h
      · cases h
      · simp only [Except.ok.injEq] at h
        rw [← h]
        positivity

/-- The groups of a match of the rgba pattern: three non-empty runs of digits, and an optional
non-empty run of digits and dots. -/
theorem rgba_regex_groups {t : List Char} {m : smatch} (h : rgba_regex t = some m) :
    ∃ (r g b : List Char) (alpha : Option (List Char)),
      m.groups = [some r, some g, some b, alpha]
        ∧ all_digits r ∧ r ≠ [] ∧ all_digits g ∧ g ≠ [] ∧ all_digits b ∧ b ≠ [] := by
  simp only [rgba_regex, Option.bind_eq_bind, Option.bind_eq_some, Option.pure_def,
    Option.some.injEq] at h
  obtain ⟨s1, -, a1, -, ⟨r, ar⟩, hr, a2, -, ⟨g, ag⟩, hg, a4, -, ⟨b, ab⟩, hb, a6, -, rfl⟩ := h
  obtain ⟨-, hrd, hrn⟩ := take_plus_some hr
  obtain ⟨-, hgd, hgn⟩ := take_plus_some hg
  obtain ⟨-, hbd, hbn⟩ := take_plus_some hb
  exact ⟨r, g, b, _, rfl, hrd, hrn, hgd, hgn, hbd, hbn⟩

theorem list_length_six {l : List Char} (h : l.length = 6) :
    ∃ a b c d e f, l = [a, b, c, d, e, f] := by
  rcases l with _ | ⟨a, _ | ⟨b, _ | ⟨c, _ | ⟨d, _ | ⟨e, _ | ⟨f, _ | ⟨g, l⟩⟩⟩⟩⟩⟩⟩ <;>
    simp at h
  exact ⟨a, b, c, d, e, f, rfl⟩

theorem list_length_two {l : List Char} (h : l.length = 2) : ∃ a b, l = [a, b] := by
  rcases l with _ | ⟨a, _ | ⟨b, _ | ⟨c, l⟩⟩⟩ <;> simp at h
  exact ⟨a, b, rfl⟩

/-- The groups of a match of the hex pattern: six hexadecimal digits, and optionally two
more. -/
theorem hex_regex_groups {t : List Char} {m : smatch} (h : hex_regex t = some m) :
    ∃ d1 d2 d3 d4 d5 d6 : Char,
      isxdigit d1 = true ∧ isxdigit d2 = true ∧ isxdigit d3 = true ∧ isxdigit d4 = true
        ∧ isxdigit d5 = true ∧ isxdigit d6 = true
        ∧ (m.groups = [some [d1, d2, d3, d4, d5, d6], none]
          ∨ ∃ d7 d8 : Char, isxdigit d7 = true ∧ isxdigit d8 = true
              ∧ m.groups = [some [d1, d2, d3, d4, d5, d6], some [d7, d8]]) := by
  cases t with
  | nil => simp [hex_regex] at h
  | cons c rest =>
    simp only [hex_regex] at h
    split at h
    · rename_i hc
      obtain ⟨-, hl, ha⟩ := hc
      obtain ⟨d1, d2, d3, d4, d5, d6, e6⟩ := list_length_six hl
      rw [e6] at ha h
      simp only [List.all_cons, List.all_nil, Bool.and_true, Bool.and_eq_true] at ha
      obtain ⟨x1, x2, x3, x4, x5, x6⟩ := ha
      refine ⟨d1, d2, d3, d4, d5, d6, x1, x2, x3, x4, x5, x6, ?_⟩
      split at h
      · rename_i h2
        obtain ⟨hl2, ha2⟩ := h2
        obtain ⟨d7, d8, e2⟩ := list_length_two hl2
        rw [e2] at ha2 h
        simp only [List.all_cons, List.all_nil, Bool.and_true, Bool.and_eq_true] at ha2
        simp only [Option.some.injEq] at h
        exact Or.inr ⟨d7, d8, ha2.1, ha2.2, by rw [← h]⟩
      · simp only [Option.some.injEq] at h
        exact Or.inl (by rw [← h])
    · cases h

theorem hex_digit_value_le {c : Char} (h : isxdigit c = true) : hex_digit_value c ≤ 15 := by
  have m := isxdigit_cases h
  simp only [String.toList, List.mem_cons, List.mem_singleton, List.not_mem_nil, or_false] at m
  rcases m with h | h | h | h | h | h | h | h | h | h | h | h | h | h | h | h | h | h | h | h
    | h | h <;> subst h <;> decide

theorem hex_pair_value_le {hi lo : Char} (h1 : isxdigit hi = true) (h2 : isxdigit lo = true) :
    hex_pair_value hi lo ≤ 255 := by
  have := hex_digit_value_le h1
  have := hex_digit_value_le h2
  unfold hex_pair_value
  omega

theorem unit_of_byte {n : Nat} (h : n ≤ 255) : 0 ≤ (n : ℚ) / 255 ∧ (n : ℚ) / 255 ≤ 1 := by
  constructor
  · positivity
  · rw [div_le_one (by norm_num)]
    exact_mod_cast h

/-- The colour that `parse_css_color` returns when the hex pattern matches lies in `[0,1]` in
every channel. -/
theorem parse_css_color_hex_in_unit {str : List Char} {c : color_t} {m : smatch}
    (hm : regex_search hex_regex str = some m) (h : parse_css_color str = .ok c) :
    c.in_unit := by
  obtain ⟨pre, t, -, ht⟩ := regex_search_some str hm
  obtain ⟨d1, d2, d3, d4, d5, d6, x1, x2, x3, x4, x5, x6, hg⟩ := hex_regex_groups ht
  simp only [parse_css_color, hm] at h
  rcases hg with hg | ⟨d7, d8, x7, x8, hg⟩
  · simp [smatch.str, smatch.matched, hg, stoi_hex_pair, x1, x2, x3, x4, x5, x6, bind,
      Except.bind, pure, Except.pure] at h
    rw [← h]
    exact ⟨unit_of_byte (hex_pair_value_le x1 x2), unit_of_byte (hex_pair_value_le x3 x4),
      unit_of_byte (hex_pair_value_le x5 x6), by norm_num, by norm_num⟩
  · simp [smatch.str, smatch.matched, hg, stoi_hex_pair, x1, x2, x3, x4, x5, x6, x7, x8, bind,
      Except.bind, pure, Except.pure, Except.map] at h
    rw [← h]
    exact ⟨unit_of_byte (hex_pair_value_le x1 x2), unit_of_byte (hex_pair_value_le x3 x4),
      unit_of_byte (hex_pair_value_le x5 x6), unit_of_byte (hex_pair_value_le x7 x8)⟩

/-- The colour that `parse_css_color` returns when the rgba pattern decides: each of the three
channels is the matched number divided by 255, whatever the number, and alpha is 1 or the
number that `std::stod` makes of the fourth group. -/
theorem parse_css_color_functional_value {str : List Char} {c : color_t} {m : smatch}
    (hhex : regex_search hex_regex str = none) (hm : regex_search rgba_regex str = some m)
    (h : parse_css_color str = .ok c) :
    c.r = (decimal_value (m.str 1) : ℚ) / 255 ∧ c.g = (decimal_value (m.str 2) : ℚ) / 255
      ∧ c.b = (decimal_value (m.str 3) : ℚ) / 255
      ∧ (m.matched 4 = false → c.a = 1)
      ∧ (m.matched 4 = true → stod (m.str 4) = .ok c.a) := by
  obtain ⟨pre, t, -, ht⟩ := regex_search_some str hm
  obtain ⟨r, g, b, alpha, hg, hrd, hrn, hgd, hgn, hbd, hbn⟩ := rgba_regex_groups ht
  have e1 : m.str 1 = r := by simp [smatch.str, hg]
  have e2 : m.str 2 = g := by simp [smatch.str, hg]
  have e3 : m.str 3 = b := by simp [smatch.str, hg]
  simp only [parse_css_color, hhex, hm, e1, e2, e3] at h
  rw [e1, e2, e3]
  cases hr : stoi r 10 with
  | error e => rw [hr] at h; cases h
  | ok vr =>
    cases hgv : stoi g 10 with
    | error e => rw [hr, hgv] at h; cases h
    | ok vg =>
      cases hbv : stoi b 10 with
      | error e => rw [hr, hgv, hbv] at h; cases h
      | ok vb =>
        rw [hr, hgv, hbv] at h
        have er := stoi_digits_ok hrd hrn hr
        have eg := stoi_digits_ok hgd hgn hgv
        have eb := stoi_digits_ok hbd hbn hbv
        cases hmt : m.matched 4 with
        | false =>
          simp [hmt, bind, Except.bind, pure, Except.pure] at h
          rw [← h, er, eg, eb]
          simp
        | true =>
          cases ha : stod (m.str 4) with
          | error e =>
            simp [hmt, ha, bind, Except.bind, pure, Except.pure] at h
          | ok va =>
            simp [hmt, ha, bind, Except.bind, pure, Except.pure] at h
            rw [← h, er, eg, eb]
            simp

/-- Every colour that `parse_css_color` returns has non-negative channels. -/
theorem parse_css_color_nonneg {str : List Char} {c : color_t}
    (h : parse_css_color str = .ok c) : c.nonneg := by
  cases hhex : regex_search hex_regex str with
  | some m =>
    have := parse_css_color_hex_in_unit hhex h
    exact ⟨this.1.1, this.2.1.1, this.2.2.1.1, this.2.2.2.1⟩
  | none =>
    cases hm : regex_search rgba_regex str with
    | some m =>
      obtain ⟨hr, hg, hb, ha0, ha1⟩ := parse_css_color_functional_value hhex hm h
      refine ⟨by rw [hr]; positivity, by rw [hg]; positivity, by rw [hb]; positivity, ?_⟩
      cases hmt : m.matched 4 with
      | false => rw [ha0 hmt]; norm_num
      | true => exact stod_nonneg (ha1 hmt)
    | none =>
      simp only [parse_css_color, hhex, hm] at h
      cases h
      exact ⟨le_refl _, le_refl _, le_refl _, by norm_num [black]⟩

theorem color_step_nonneg {c : Bool} {str : List Char} {f : color_t → decoration_theme_t}
    {d s1 : decoration_theme_t}
    (h : (if c = true then (parse_css_color str).map f else .ok d) = .ok s1)
    (hf : ∀ col : color_t, col.nonneg → titlebar_nonneg (f col)) (hd : titlebar_nonneg d) :
    titlebar_nonneg s1 := by
  cases c with
  | false =>
    simp only [Bool.false_eq_true, if_false, Except.ok.injEq] at h
    exact h ▸ hd
  | true =>
    simp only [if_true] at h
    obtain ⟨col, hc, rfl⟩ := except_map_ok h
    exact hf col (parse_css_color_nonneg hc)

theorem parse_theme_colors_nonneg (color_vars : color_map) (s : decoration_theme_t)
    (hs : titlebar_nonneg s) : titlebar_nonneg (parse_theme_colors color_vars s).1 := by
  rw [parse_theme_colors_eq]
  cases h1 : bg_active_step color_vars s with
  | error e => exact hs
  | ok s1 =>
    have n1 : titlebar_nonneg s1 :=
      color_step_nonneg h1 (fun col hc => ⟨hc, hs.2.1, hs.2.2.1, hs.2.2.2⟩) hs
    simp only
    cases h2 : bg_inactive_step color_vars s1 with
    | error e => exact n1
    | ok s2 =>
      have n2 : titlebar_nonneg s2 :=
        color_step_nonneg h2 (fun col hc => ⟨n1.1, hc, n1.2.2.1, n1.2.2.2⟩)
          ⟨n1.1, n1.1, n1.2.2.1, n1.2.2.2⟩
      simp only
      cases h3 : fg_active_step color_vars s2 with
      | error e => exact n2
      | ok s3 =>
        have n3 : titlebar_nonneg s3 :=
          color_step_nonneg h3 (fun col hc => ⟨n2.1, n2.2.1, hc, n2.2.2.2⟩) n2
        simp only
        cases h4 : fg_inactive_step color_vars s3 with
        | error e => exact n3
        | ok s4 =>
          simp only
          unfold fg_inactive_step at h4
          by_cases hc : color_vars.count "theme_unfocused_fg_color".toList = true
          · rw [if_pos hc] at h4
            obtain ⟨col, hcol, rfl⟩ := except_map_ok h4
            exact ⟨n3.1, n3.2.1, n3.2.2.1, parse_css_color_nonneg hcol⟩
          · rw [if_neg hc] at h4
            exact color_step_nonneg h4 (fun col hc => ⟨n3.1, n3.2.1, n3.2.2.1, hc⟩)
              ⟨n3.1, n3.2.1, n3.2.2.1, n3.2.2.1⟩

theorem titlebar_nonneg_of_same {s t : decoration_theme_t} (h : same_titlebar s t)
    (hs : titlebar_nonneg s) : titlebar_nonneg t := by
  obtain ⟨h1, h2, h3, h4⟩ := h
  unfold titlebar_nonneg
  rw [h1, h2, h3, h4]
  exact hs

theorem parse_theme_css_nonneg (fs : filesystem) (css_file : List Char)
    (s : decoration_theme_t) (hs : titlebar_nonneg s) :
    titlebar_nonneg (parse_theme_css fs css_file s).state := by
  cases hopen : fs.open_file css_file with
  | none =>
    have : (parse_theme_css fs css_file s).state = s := by
      simp [parse_theme_css, hopen]
    rw [this]
    exact hs
  | some css =>
    exact titlebar_nonneg_of_same (parse_theme_css_titlebar fs css_file css s hopen).1
      (parse_theme_colors_nonneg _ s hs)

theorem load_gtk_theme_nonneg (fs : filesystem) (s : decoration_theme_t)
    (hs : titlebar_nonneg s) : titlebar_nonneg (load_gtk_theme fs s).state := by
  unfold load_gtk_theme
  split
  · exact hs
  · have ha := (apply_gtk_font_titlebar (get_gtk_font_name fs).1
      { s with theme_loaded := true, icon_theme_name := (get_icon_theme_name fs).1 }).1
    have hn : titlebar_nonneg (apply_gtk_font (get_gtk_font_name fs).1
        { s with theme_loaded := true, icon_theme_name := (get_icon_theme_name fs).1 }) :=
      titlebar_nonneg_of_same ha hs
    simp only
    split
    · exact hn
    · split
      · exact hn
      · exact parse_theme_css_nonneg fs _ _ hn

theorem titlebar_in_unit_new : titlebar_in_unit decoration_theme_t.new := by
  simp only [titlebar_in_unit, color_t.in_unit, decoration_theme_t.new,
    titlebar_bg_active_default, titlebar_bg_inactive_default, titlebar_fg_active_default,
    titlebar_fg_inactive_default]
  norm_num

theorem titlebar_nonneg_of_in_unit {s : decoration_theme_t} (h : titlebar_in_unit s) :
    titlebar_nonneg s :=
  ⟨⟨h.1.1.1, h.1.2.1.1, h.1.2.2.1.1, h.1.2.2.2.1⟩,
   ⟨h.2.1.1.1, h.2.1.2.1.1, h.2.1.2.2.1.1, h.2.1.2.2.2.1⟩,
   ⟨h.2.2.1.1.1, h.2.2.1.2.1.1, h.2.2.1.2.2.1.1, h.2.2.1.2.2.2.1⟩,
   ⟨h.2.2.2.1.1, h.2.2.2.2.1.1, h.2.2.2.2.2.1.1, h.2.2.2.2.2.2.1⟩⟩

theorem reachable_titlebar_nonneg {s : decoration_theme_t} (h : reachable s) :
    titlebar_nonneg s := by
  induction h with
  | new => exact titlebar_nonneg_of_in_unit titlebar_in_unit_new
  | load fs s _ ih => exact load_gtk_theme_nonneg fs s ih
  | reload s _ ih => exact titlebar_nonneg_of_in_unit titlebar_in_unit_new

/-- C17 (as amended): in every state reachable from the constructor by `load_gtk_theme` and
`reload_theme`, every channel of the four titlebar colours is non-negative. The bound 1 holds
for the process defaults and for every colour parsed from a hex literal; a colour parsed from a
functional literal has the channels n/255 for the matched numbers n, whatever they are, and
the alpha that `std::stod` returns. -/
theorem titlebar_channels_bounds (s : decoration_theme_t) (hs : reachable s) :
    titlebar_nonneg s
      ∧ titlebar_in_unit decoration_theme_t.new
      ∧ (∀ (str : List Char) (c : color_t), parse_css_color str = .ok c →
          regex_search hex_regex str ≠ none → c.in_unit)
      ∧ (∀ (str : List Char) (c : color_t) (m : smatch), parse_css_color str = .ok c →
          regex_search hex_regex str = none → regex_search rgba_regex str = some m →
          c.r = (decimal_value (m.str 1) : ℚ) / 255 ∧ c.g = (decimal_value (m.str 2) : ℚ) / 255
            ∧ c.b = (decimal_value (m.str 3) : ℚ) / 255
            ∧ (m.matched 4 = false → c.a = 1)
            ∧ (m.matched 4 = true → stod (m.str 4) = .ok c.a)) := by
  refine ⟨reachable_titlebar_nonneg hs, titlebar_in_unit_new, ?_, ?_⟩
  · intro str c h hne
    cases hm : regex_search hex_regex str with
    | none => exact absurd hm hne
    | some m => exact parse_css_color_hex_in_unit hm h
  · intro str c m h hhex hm
    exact parse_css_color_functional_value hhex hm h

/-- Witness for C17: the state after loading a stylesheet with `rgb(999,0,0)`. -/
theorem titlebar_channels_bounds_witness :
    titlebar_nonneg
      (load_gtk_theme (example_fs out_of_range_css) decoration_theme_t.new).state :=
  (titlebar_channels_bounds _
    (reachable.load (example_fs out_of_range_css) _ reachable.new)).1

/-- Counterexample to C17 as stated: after loading the stylesheet
`@define-color theme_bg_color rgb(999,0,0);` the red channel of the active titlebar
background is 999/255, which is above 1. -/
theorem titlebar_channel_above_one_counterexample :
    reachable (load_gtk_theme (example_fs out_of_range_css) decoration_theme_t.new).state
      ∧ (load_gtk_theme (example_fs out_of_range_css)
          decoration_theme_t.new).state.theme_titlebar_bg_active.r = (999 : ℚ) / 255
      ∧ ¬ ((load_gtk_theme (example_fs out_of_range_css)
          decoration_theme_t.new).state.theme_titlebar_bg_active.r ≤ 1) := by
  have hr : (load_gtk_theme (example_fs out_of_range_css)
      decoration_theme_t.new).state.theme_titlebar_bg_active.r = ((999 : Int) : ℚ) / 255 := rfl
  refine ⟨reachable.load _ _ reachable.new, ?_, ?_⟩
  · rw [hr]; norm_num
  · rw [hr]; norm_num

/-! ## Theorems about the font of the settings -/

theorem rfind_space_none {s : List Char} (h : ' ' ∉ s) : rfind_space s = none := by
  induction s with
  | nil => rfl
  | cons c cs ih =>
    have hc : c ≠ ' ' := fun e => h (by rw [e]; exact List.mem_cons_self _ _)
    have hcs : ' ' ∉ cs := fun hm => h (List.mem_cons_of_mem _ hm)
    simp [rfind_space, ih hcs, hc]

theorem rfind_space_append (family size_text : List Char) (h : ' ' ∉ size_text) :
    rfind_space (family ++ ' ' :: size_text) = some family.length := by
  induction family with
  | nil => simp [rfind_space, rfind_space_none h]
  | cons c cs ih => simp [rfind_space, ih]

/-- C18 (as amended): for a `gtk-font-name` value that contains a space, the font part of
`load_gtk_theme` sets the font family to the text before the last space; the font size is the
integer that `std::stoi` reads from the text after it, which is the number written there when
that text is a run of digits that fits an `int`, and the default 11 when `std::stoi` rejects
the text. A value without a space changes neither the family nor the size. When no stylesheet
is read, this is the font that `load_gtk_theme` leaves. -/
theorem apply_gtk_font_spec (s : decoration_theme_t) (family size_text : List Char)
    (hns : ' ' ∉ size_text) :
    (apply_gtk_font (family ++ ' ' :: size_text) s).theme_font_family = family
      ∧ (∀ v, stoi size_text 10 = .ok v →
          (apply_gtk_font (family ++ ' ' :: size_text) s).theme_font_size = v)
      ∧ (∀ e, stoi size_text 10 = .error e →
          (apply_gtk_font (family ++ ' ' :: size_text) s).theme_font_size = 11)
      ∧ (all_digits size_text → size_text ≠ [] → decimal_value size_text ≤ 2147483647 →
          (apply_gtk_font (family ++ ' ' :: size_text) s).theme_font_size
            = (decimal_value size_text : Int))
      ∧ (∀ font : List Char, ' ' ∉ font → apply_gtk_font font s = s)
      ∧ (∀ fs : filesystem, s.theme_loaded = false → (get_gtk_theme_name fs).1 = [] →
          (load_gtk_theme fs s).state
            = apply_gtk_font (get_gtk_font_name fs).1
                { s with
                  theme_loaded := true, icon_theme_name := (get_icon_theme_name fs).1 }) := by
  have hne : family ++ ' ' :: size_text ≠ [] := by simp
  have hdrop : (family ++ ' ' :: size_text).drop (family.length + 1) = size_text := by
    rw [show family ++ ' ' :: size_text = (family ++ [' ']) ++ size_text by simp]
    rw [List.drop_append_of_le_length (by simp)]
    simp
  have htake : (family ++ ' ' :: size_text).take family.length = family := by
    rw [List.take_append_of_le_length (le_refl _)]
    simp
  have hsize : ∀ v, stoi size_text 10 = .ok v →
      (apply_gtk_font (family ++ ' ' :: size_text) s).theme_font_size = v := by
    intro v hv
    simp only [apply_gtk_font, if_pos hne, rfind_space_append family size_text hns, hdrop, hv]
  refine ⟨?_, hsize, ?_, ?_, ?_, ?_⟩
  · simp only [apply_gtk_font, if_pos hne, rfind_space_append family size_text hns, hdrop,
      htake]
    split <;> rfl
  · intro e he
    simp only [apply_gtk_font, if_pos hne, rfind_space_append family size_text hns, hdrop, he]
  · intro hd hn hv
    exact hsize _ (stoi_digits hd hn hv)
  · intro font hf
    unfold apply_gtk_font
    split
    · rw [rfind_space_none hf]
    · rfl
  · intro fs hl hno
    exact (load_gtk_theme_stops_early fs s hl (Or.inl hno)).2

/-- Witness for C18: `Cantarell 11`. -/
theorem apply_gtk_font_spec_witness :
    (apply_gtk_font ("Cantarell".toList ++ ' ' :: "11".toList)
        decoration_theme_t.new).theme_font_family = "Cantarell".toList
      ∧ (apply_gtk_font ("Cantarell".toList ++ ' ' :: "11".toList)
        decoration_theme_t.new).theme_font_size = 11 :=
  ⟨(apply_gtk_font_spec decoration_theme_t.new "Cantarell".toList "11".toList
      (by decide)).1,
   (apply_gtk_font_spec decoration_theme_t.new "Cantarell".toList "11".toList
      (by decide)).2.1 11 rfl⟩

/-- Counterexample to C18 as stated: with `gtk-font-name=Cantarell`, a family without a size,
`load_gtk_theme` leaves the family empty and the size 0, not `Cantarell` and 11; and with
`gtk-font-name=DejaVu Sans` the family becomes `DejaVu`, not the family in full. -/
theorem gtk_font_without_size_counterexample :
    (load_gtk_theme (settings_fs "gtk-font-name=Cantarell\n".toList)
        decoration_theme_t.new).state.theme_font_family = []
      ∧ (load_gtk_theme (settings_fs "gtk-font-name=Cantarell\n".toList)
        decoration_theme_t.new).state.theme_font_size = 0
      ∧ (load_gtk_theme (settings_fs "gtk-font-name=DejaVu Sans\n".toList)
        decoration_theme_t.new).state.theme_font_family = "DejaVu".toList
      ∧ (load_gtk_theme (settings_fs "gtk-font-name=DejaVu Sans\n".toList)
        decoration_theme_t.new).state.theme_font_size = 11 := by
  decide

/-! ## Theorems about the settings monitor -/

theorem inotify_mask_test (n : Nat) :
    (n &&& (IN_MODIFY ||| IN_CLOSE_WRITE) ≠ 0) ↔ (n.testBit 1 || n.testBit 3) = true := by
  have h10 : IN_MODIFY ||| IN_CLOSE_WRITE = 10 := by decide
  rw [h10]
  constructor
  · intro h
    by_contra hb
    simp only [Bool.or_eq_true, not_or, Bool.not_eq_true] at hb
    apply h
    apply Nat.eq_of_testBit_eq
    intro i
    rw [Nat.testBit_and, Nat.zero_testBit]
    by_cases h1 : i = 1
    · subst h1; simp [hb.1]
    · by_cases h3 : i = 3
      · subst h3; simp [hb.2]
      · have : Nat.testBit 10 i = false := by
          rcases i with _ | _ | _ | _ | i
          · rfl
          · exact absurd rfl h1
          · rfl
          · exact absurd rfl h3
          · have : (10 : Nat) < 2 ^ (i + 4) := by
              have : 2 ^ 4 ≤ 2 ^ (i + 4) := Nat.pow_le_pow_right (by norm_num) (by omega)
              omega
            exact Nat.testBit_lt_two_pow this
        simp [this]
  · intro h hz
    have e1 : (n &&& 10).testBit 1 = false := by rw [hz]; exact Nat.zero_testBit 1
    have e3 : (n &&& 10).testBit 3 = false := by rw [hz]; exact Nat.zero_testBit 3
    rw [Nat.testBit_and] at e1 e3
    have t1 : Nat.testBit 10 1 = true := by decide
    have t3 : Nat.testBit 10 3 = true := by decide
    rw [t1] at e1
    rw [t3] at e3
    simp only [Bool.and_true] at e1 e3
    rw [e1, e3] at h
    cases h

theorem inotify_loop_spec (events : List inotify_event) (result : inotify_result) :
    inotify_loop events result
      = { views := reload_all_decorations^[(events.filter inotify_event.is_change).length]
            result.views
          reload_calls := result.reload_calls
            + (events.filter inotify_event.is_change).length } := by
  induction events generalizing result with
  | nil => rfl
  | cons event rest ih =>
    rw [inotify_loop]
    by_cases h : event.mask &&& (IN_MODIFY ||| IN_CLOSE_WRITE) ≠ 0
    · have hc : event.is_change = true := (inotify_mask_test event.mask).mp h
      rw [if_pos h, ih, List.filter_cons_of_pos hc]
      simp only [List.length_cons, Function.iterate_succ, Function.comp_apply]
      congr 1
      omega
    · have hc : ¬ event.is_change = true := fun hc => h ((inotify_mask_test event.mask).mpr hc)
      rw [if_neg h, ih, List.filter_cons_of_neg hc]

theorem reload_theme_idempotent (t : decoration_theme_t) :
    reload_theme (reload_theme t) = reload_theme t := rfl

theorem reload_all_view_theme_idempotent (views : List core_view) :
    (reload_all_decorations (reload_all_decorations views)).map core_view.view_theme
      = (reload_all_decorations views).map core_view.view_theme := by
  simp only [reload_all_decorations, List.map_map]
  apply List.map_congr_left
  intro cv _
  simp only [Function.comp_apply]
  cases hv : toplevel_cast cv.view with
  | none => simp [hv]
  | some toplevel =>
    cases hd : toplevel.toplevel.data.isSome with
    | false => simp [hv, hd]
    | true => simp [hv, hd, reload_decorated_view, core_view.view_theme, reload_theme]

theorem reload_all_iterate_view_theme (views : List core_view) (n : Nat) :
    (reload_all_decorations^[n + 1] views).map core_view.view_theme
      = (reload_all_decorations views).map core_view.view_theme := by
  induction n generalizing views with
  | zero => rfl
  | succ k ih =>
    rw [Function.iterate_succ, Function.comp_apply, ih (reload_all_decorations views)]
    exact reload_all_view_theme_idempotent views

/-- C19 (as amended): `handle_inotify_event` calls `reload_all_decorations` once for every
event of the buffer whose mask has `IN_MODIFY` or `IN_CLOSE_WRITE` set, n times for n such
events; for n at least 1 the views and their themes end as a single call leaves them, because
reloading a theme twice is reloading it once; with no such event, and after a failed read,
it makes no call and changes nothing. -/
theorem handle_inotify_event_calls (events : List inotify_event) (views : List core_view) :
    (handle_inotify_event (some events) views).reload_calls
        = (events.filter inotify_event.is_change).length
      ∧ (handle_inotify_event (some events) views).views
        = reload_all_decorations^[(events.filter inotify_event.is_change).length] views
      ∧ (1 ≤ (events.filter inotify_event.is_change).length →
          (handle_inotify_event (some events) views).views.map core_view.view_theme
            = (reload_all_decorations views).map core_view.view_theme)
      ∧ ((events.filter inotify_event.is_change).length = 0 →
          handle_inotify_event (some events) views = { views := views, reload_calls := 0 })
      ∧ handle_inotify_event none views = { views := views, reload_calls := 0 } := by
  have hspec : handle_inotify_event (some events) views
      = { views := reload_all_decorations^[(events.filter inotify_event.is_change).length]
            views
          reload_calls := 0 + (events.filter inotify_event.is_change).length } :=
    inotify_loop_spec events { views := views, reload_calls := 0 }
  refine ⟨by rw [hspec]; simp, by rw [hspec], ?_, ?_, rfl⟩
  · intro hn
    rw [hspec]
    obtain ⟨k, hk⟩ : ∃ k, (events.filter inotify_event.is_change).length = k + 1 :=
      ⟨(events.filter inotify_event.is_change).length - 1, by omega⟩
    rw [hk]
    exact reload_all_iterate_view_theme views k
  · intro hz
    rw [hspec, hz]
    rfl

/-- Counterexample to C19 as stated: a buffer with two events, `IN_MODIFY` and
`IN_CLOSE_WRITE`; the callback calls `reload_all_decorations` twice, not once. -/
theorem handle_inotify_event_two_calls_counterexample :
    (handle_inotify_event
        (some [{ mask := IN_MODIFY, len := 0 }, { mask := IN_CLOSE_WRITE, len := 0 }])
        [example_core_view]).reload_calls = 2
      ∧ ((handle_inotify_event
        (some [{ mask := IN_MODIFY, len := 0 }, { mask := IN_CLOSE_WRITE, len := 0 }])
        [example_core_view]).views.map core_view.damage_calls) = [2] := by
  decide

/-- Witness for C19: a buffer with an `IN_MODIFY` event, an event of another kind and an
`IN_CLOSE_WRITE` event gives two calls, and the themes of a single call. -/
theorem handle_inotify_event_calls_witness :
    (handle_inotify_event
        (some [{ mask := IN_MODIFY, len := 0 }, { mask := 1, len := 16 },
          { mask := IN_CLOSE_WRITE, len := 0 }])
        [example_core_view]).reload_calls = 2
      ∧ (handle_inotify_event
        (some [{ mask := IN_MODIFY, len := 0 }, { mask := 1, len := 16 },
          { mask := IN_CLOSE_WRITE, len := 0 }])
        [example_core_view]).views.map core_view.view_theme
        = (reload_all_decorations [example_core_view]).map core_view.view_theme :=
  ⟨(handle_inotify_event_calls _ [example_core_view]).1.trans (by decide),
   (handle_inotify_event_calls _ [example_core_view]).2.2.1 (by decide)⟩

/-! ## Theorems about the colour variables of a stylesheet -/

theorem expect_literal_none_of_not_starting {lit s : List Char} (h : ¬ lit <+: s) :
    expect_literal lit s = none := by
  unfold expect_literal
  rw [if_neg]
  rw [ List.isPrefixOf_iff_prefix]
  exact h

theorem define_color_not_starting_in_filler {filler t x : List Char} (hf : plain_filler filler)
    (ht : t ≠ []) (hs : t <:+ filler) (hx : x = [] ∨ ∃ x', x = '@' :: x') :
    ¬ ("@define-color".toList <+: t ++ x) := by
  intro hp
  have hin : ∀ q, q <+: t → "@define-color".toList = q → False := by
    intro q hq e
    apply hf
    rw [e]
    exact hq.isInfix.trans hs.isInfix
  rcases List.prefix_or_prefix_of_prefix hp (List.prefix_append t x) with h | h
  · exact hin _ h rfl
  · obtain ⟨u, hu⟩ := h
    rw [← hu] at hp
    have hux : u <+: x := (List.prefix_append_right_inj t).mp hp
    cases u with
    | nil =>
      rw [List.append_nil] at hu
      exact hin t (List.prefix_refl t) hu.symm
    | cons c u' =>
      rcases hx with rfl | ⟨x', rfl⟩
      · obtain ⟨r, hr⟩ := hux
        cases hr
      · obtain ⟨r, hr⟩ := hux
        have hc : c = '@' := by
          simp only [List.cons_append, List.cons.injEq] at hr
          exact hr.1
        subst hc
        obtain ⟨a, t', rfl⟩ := List.exists_cons_of_ne_nil ht
        have htail := congrArg List.tail hu
        simp only [List.cons_append, List.tail_cons] at htail
        have hm : '@' ∈ "define-color".toList := by
          have : "@define-color".toList.tail = "define-color".toList := rfl
          rw [← this, ← htail]
          simp
        revert hm
        decide

theorem define_color_regex_none_of_not_starting {s : List Char}
    (h : ¬ ("@define-color".toList <+: s)) : define_color_regex s = none := by
  unfold define_color_regex
  rw [expect_literal_none_of_not_starting h]
  rfl

theorem regex_search_skip {f : List Char → Option smatch} (filler x : List Char)
    (h : ∀ t, t ≠ [] → t <:+ filler → f (t ++ x) = none) :
    regex_search f (filler ++ x) = regex_search f x := by
  induction filler with
  | nil => rfl
  | cons c cs ih =>
    have h0 := h (c :: cs) (by simp) (List.suffix_refl _)
    rw [List.cons_append] at h0 ⊢
    rw [regex_search, h0]
    exact ih (fun t ht hs => h t ht (hs.trans (List.suffix_cons c cs)))

theorem regex_search_none_of_all {f : List Char → Option smatch} (s : List Char)
    (h : ∀ t, t ≠ [] → t <:+ s → f t = none) (h0 : f [] = none) :
    regex_search f s = none := by
  apply regex_search_eq_none
  intro t ht
  by_cases hn : t = []
  · rw [hn]; exact h0
  · exact h t hn ht

theorem isword_not_isspace {c : Char} (h : isword c = true) : isspace c = false := by
  cases hs : isspace c with
  | false => rfl
  | true =>
    have := isspace_toNat hs
    simp only [isword, isdigit, islower, isupper, Bool.or_eq_true, Bool.and_eq_true,
      decide_eq_true_eq, beq_iff_eq] at h
    omega

theorem isspace_not_isword {c : Char} (h : isspace c = true) : isword c = false := by
  cases hw : isword c with
  | false => rfl
  | true => rw [isword_not_isspace hw] at h; cases h

/-- The match of the `@define-color` pattern at the start of a well-formed statement. -/
theorem define_color_regex_statement (st : color_statement) (rest : List Char)
    (hwf : st.well_formed) :
    define_color_regex (st.text ++ rest)
      = some { groups := [some st.name, some st.value], suffix := rest } := by
  obtain ⟨h1n, h1, hnn, hn, h2n, h2, hvn, hv, hvh⟩ := hwf
  have etext : st.text ++ rest
      = "@define-color".toList
        ++ (st.ws1 ++ (st.name ++ (st.ws2 ++ (st.value ++ (';' :: rest))))) := by
    simp [color_statement.text, List.append_assoc]
  have hname_head : ∀ c ∈ (st.name ++ (st.ws2 ++ (st.value ++ (';' :: rest)))).head?,
      isspace c = false := by
    obtain ⟨a, l, e⟩ := List.exists_cons_of_ne_nil hnn
    rw [e]
    intro c hc
    simp at hc
    subst hc
    exact isword_not_isspace (hn _ (by rw [e]; simp))
  have hws2_head : ∀ c ∈ (st.ws2 ++ (st.value ++ (';' :: rest))).head?, isword c = false := by
    obtain ⟨a, l, e⟩ := List.exists_cons_of_ne_nil h2n
    rw [e]
    intro c hc
    simp at hc
    subst hc
    exact isspace_not_isword (h2 _ (by rw [e]; simp))
  have hval_head : ∀ c ∈ (st.value ++ (';' :: rest)).head?, isspace c = false := by
    obtain ⟨a, l, e⟩ := List.exists_cons_of_ne_nil hvn
    rw [e] at hvh ⊢
    intro c hc
    simp at hc
    subst hc
    exact hvh _ (by simp)
  have hsemi : ∀ c ∈ (';' :: rest).head?, not_semicolon c = false := by
    intro c hc
    simp at hc
    subst hc
    rfl
  have e1 := take_plus_append_stop h1n h1 hname_head
  have e2 := take_plus_append_stop hnn hn hws2_head
  have e3 := take_plus_append_stop h2n h2 hval_head
  have e4 : value_up_to_semicolon 1 st.ws2 (st.value ++ (';' :: rest))
      = some (st.value, rest) := by
    simp only [value_up_to_semicolon, dropWhile_append_stop hv hsemi,
      takeWhile_append_stop hv hsemi]
    rw [if_pos hvn]
  rw [etext]
  simp only [define_color_regex, expect_literal_append, e1, e2, e3, e4, Option.bind_eq_bind,
    Option.some_bind, Option.pure_def]

/-- The search finds the first statement of the text, whatever plain text precedes it. -/
theorem regex_search_statement (filler : List Char) (st : color_statement) (rest : List Char)
    (hf : plain_filler filler) (hwf : st.well_formed) :
    regex_search define_color_regex (filler ++ (st.text ++ rest))
      = some { groups := [some st.name, some st.value], suffix := rest } := by
  have hx : ∃ x', st.text ++ rest = '@' :: x' := ⟨_, rfl⟩
  rw [regex_search_skip filler (st.text ++ rest)
    (fun t ht hs => define_color_regex_none_of_not_starting
      (define_color_not_starting_in_filler hf ht hs (Or.inr hx)))]
  exact regex_search_of_match_here (define_color_regex_statement st rest hwf)

/-- The search finds nothing in plain text. -/
theorem regex_search_plain (last : List Char) (hf : plain_filler last) :
    regex_search define_color_regex last = none := by
  apply regex_search_none_of_all
  · intro t ht hs
    have := define_color_not_starting_in_filler hf ht hs (Or.inl rfl)
    rw [List.append_nil] at this
    exact define_color_regex_none_of_not_starting this
  · rfl

theorem statement_text_length (st : color_statement) : 1 ≤ st.text.length := by
  simp [color_statement.text]

/-- The loop over a text made of well-formed statements and plain text assigns the statements
in text order. -/
theorem define_color_loop_statements (items : List (List Char × color_statement))
    (last : List Char) (hfill : ∀ item ∈ items, plain_filler item.1)
    (hlast : plain_filler last) (hwf : ∀ item ∈ items, item.2.well_formed) :
    ∀ (fuel : Nat) (color_vars : color_map), (stylesheet_text items last).length < fuel →
      define_color_loop fuel (stylesheet_text items last) color_vars
        = assign_all items color_vars := by
  induction items with
  | nil =>
    intro fuel color_vars hlen
    obtain ⟨k, rfl⟩ : ∃ k, fuel = k + 1 := ⟨fuel - 1, by omega⟩
    rw [define_color_loop]
    simp only [stylesheet_text]
    rw [regex_search_plain last hlast]
    rfl
  | cons item rest ih =>
    obtain ⟨filler, st⟩ := item
    intro fuel color_vars hlen
    obtain ⟨k, rfl⟩ : ∃ k, fuel = k + 1 := ⟨fuel - 1, by omega⟩
    have hf : plain_filler filler := hfill (filler, st) (by simp)
    have hw : st.well_formed := hwf (filler, st) (by simp)
    rw [define_color_loop]
    simp only [stylesheet_text] at hlen ⊢
    rw [regex_search_statement filler st _ hf hw]
    simp only [smatch.str]
    have hlen2 : (stylesheet_text rest last).length < k := by
      have := statement_text_length st
      simp only [List.length_append] at hlen
      omega
    have := ih (fun i hi => hfill i (by simp [hi])) (fun i hi => hwf i (by simp [hi])) k
      (color_vars.assign st.name st.value) hlen2
    simpa [assign_all] using this

theorem lookup_filter_ne (m : color_map) (key other : List Char) (h : other ≠ key) :
    (m.filter (fun entry => entry.1 != key)).lookup other = m.lookup other := by
  induction m with
  | nil => rfl
  | cons e rest ih =>
    obtain ⟨k, v⟩ := e
    by_cases hk : k = key
    · subst hk
      have hb : (other == k) = false := by simpa using h
      simp [List.filter_cons, List.lookup_cons, hb, ih]
    · have hb : (k != key) = true := by simpa using hk
      simp only [List.filter_cons, hb, if_true, List.lookup_cons, ih]

theorem assign_lookup (m : color_map) (key value other : List Char) :
    (m.assign key value).lookup other
      = if other = key then some value else m.lookup other := by
  unfold color_map.assign
  rw [List.lookup_cons]
  by_cases h : other = key
  · subst h
    simp
  · have hb : (other == key) = false := by simpa using h
    rw [hb, if_neg h]
    exact lookup_filter_ne m key other h

/-- After the statements are assigned in text order, the map holds for every name the value of
the last statement with that name, and what it held before for the other names. -/
theorem assign_all_lookup (items : List (List Char × color_statement)) (name : List Char) :
    ∀ color_vars : color_map,
      (assign_all items color_vars).lookup name
        = match last_value items name with
          | some v => some v
          | none => color_vars.lookup name := by
  induction items with
  | nil => intro color_vars; rfl
  | cons item rest ih =>
    obtain ⟨filler, st⟩ := item
    intro color_vars
    have hstep : assign_all ((filler, st) :: rest) color_vars
        = assign_all rest (color_vars.assign st.name st.value) := rfl
    rw [hstep, ih]
    have hlast : last_value ((filler, st) :: rest) name
        = match last_value rest name with
          | some v => some v
          | none => if st.name = name then some st.value else none := by
      simp only [last_value, List.map_cons, List.reverse_cons, List.find?_append]
      cases hr : (rest.map Prod.snd).reverse.find? (fun st => st.name == name) with
      | some s => simp
      | none =>
        by_cases hn : st.name = name
        · simp [List.find?_cons, hn]
        · simp [List.find?_cons, hn]
    rw [hlast]
    cases last_value rest name with
    | some v => rfl
    | none =>
      simp only [assign_lookup]
      by_cases hn : st.name = name
      · rw [if_pos hn, if_pos hn.symm]
      · rw [if_neg hn, if_neg (fun e => hn e.symm)]

theorem bg_active_step_spec {color_vars : color_map} {s t : decoration_theme_t}
    (h : bg_active_step color_vars s = .ok t)
    (hc : color_vars.count "theme_bg_color".toList = true) :
    parse_css_color (color_vars.read "theme_bg_color".toList)
      = .ok t.theme_titlebar_bg_active := by
  unfold bg_active_step at h
  rw [if_pos hc] at h
  obtain ⟨c, hp, rfl⟩ := except_map_ok h
  exact hp

theorem bg_inactive_step_spec {color_vars : color_map} {s t : decoration_theme_t}
    (h : bg_inactive_step color_vars s = .ok t) :
    t.theme_titlebar_bg_active = s.theme_titlebar_bg_active
      ∧ (color_vars.count "theme_unfocused_bg_color".toList = true →
          parse_css_color (color_vars.read "theme_unfocused_bg_color".toList)
            = .ok t.theme_titlebar_bg_inactive) := by
  unfold bg_inactive_step at h
  by_cases hc : color_vars.count "theme_unfocused_bg_color".toList = true
  · rw [if_pos hc] at h
    obtain ⟨c, hp, rfl⟩ := except_map_ok h
    exact ⟨rfl, fun _ => hp⟩
  · rw [if_neg hc] at h
    simp only [Except.ok.injEq] at h
    rw [← h]
    exact ⟨rfl, fun h' => absurd h' hc⟩

theorem fg_active_step_spec {color_vars : color_map} {s t : decoration_theme_t}
    (h : fg_active_step color_vars s = .ok t)
    (hc : color_vars.count "theme_fg_color".toList = true) :
    parse_css_color (color_vars.read "theme_fg_color".toList)
      = .ok t.theme_titlebar_fg_active := by
  unfold fg_active_step at h
  rw [if_pos hc] at h
  obtain ⟨c, hp, rfl⟩ := except_map_ok h
  exact hp

theorem fg_inactive_step_fg_active {color_vars : color_map} {s t : decoration_theme_t}
    (h : fg_inactive_step color_vars s = .ok t) :
    t.theme_titlebar_fg_active = s.theme_titlebar_fg_active := by
  unfold fg_inactive_step at h
  by_cases hc : color_vars.count "theme_unfocused_fg_color".toList = true
  · rw [if_pos hc] at h
    obtain ⟨c, -, rfl⟩ := except_map_ok h
    rfl
  · rw [if_neg hc] at h
    by_cases hi : color_vars.count "unfocused_insensitive_color".toList = true
    · rw [if_pos hi] at h
      obtain ⟨c, -, rfl⟩ := except_map_ok h
      rfl
    · rw [if_neg hi] at h
      simp only [Except.ok.injEq] at h
      rw [← h]

/-- The role colours after `parse_theme_css` has returned: each role whose variable is defined
holds the colour that `parse_css_color` returns for the value that the map holds. -/
theorem parse_theme_css_roles (fs : filesystem) (css_file css : List Char)
    (s : decoration_theme_t) (hopen : fs.open_file css_file = some css)
    (hret : (parse_theme_css fs css_file s).raised = none) :
    ((collect_color_vars css).count "theme_bg_color".toList = true →
        parse_css_color ((collect_color_vars css).read "theme_bg_color".toList)
          = .ok (parse_theme_css fs css_file s).state.theme_titlebar_bg_active)
      ∧ ((collect_color_vars css).count "theme_unfocused_bg_color".toList = true →
          parse_css_color ((collect_color_vars css).read "theme_unfocused_bg_color".toList)
            = .ok (parse_theme_css fs css_file s).state.theme_titlebar_bg_inactive)
      ∧ ((collect_color_vars css).count "theme_fg_color".toList = true →
          parse_css_color ((collect_color_vars css).read "theme_fg_color".toList)
            = .ok (parse_theme_css fs css_file s).state.theme_titlebar_fg_active)
      ∧ ((collect_color_vars css).count "theme_unfocused_fg_color".toList = true →
          parse_css_color ((collect_color_vars css).read "theme_unfocused_fg_color".toList)
            = .ok (parse_theme_css fs css_file s).state.theme_titlebar_fg_inactive) := by
  obtain ⟨ht, hn⟩ := parse_theme_css_titlebar fs css_file css s hopen
  obtain ⟨s1, s2, s3, h1, h2, h3, h4⟩ := parse_theme_colors_ok _ s (hn hret)
  have b2 := bg_inactive_step_spec h2
  have b3 := fg_active_step_background h3
  have b4 := fg_inactive_step_background h4
  have f4 := fg_inactive_step_fg_active h4
  rw [ht.1, ht.2.1, ht.2.2.1, ht.2.2.2]
  refine ⟨fun hc => ?_, fun hc => ?_, fun hc => ?_, fun hc => ?_⟩
  · rw [b4.1, b3.1, b2.1]
    exact bg_active_step_spec h1 hc
  · rw [b4.2, b3.2]
    exact b2.2 hc
  · rw [f4]
    exact fg_active_step_spec h3 hc
  · exact (fg_inactive_step_spec h4).1 hc

theorem count_read_of_lookup {m : color_map} {key v : List Char} (h : m.lookup key = some v) :
    m.count key = true ∧ m.read key = v := by
  simp [color_map.count, color_map.read, h]

/-- C20: for a stylesheet text made of `@define-color <name> <value>;` statements and of other
text without `@define-color` in it, the map of colour variables that `parse_theme_css` builds
holds for every name the value of the last statement, in text order, with that name; and
after `parse_theme_css` has returned, the role colour of each of the four variables
`theme_bg_color`, `theme_unfocused_bg_color`, `theme_fg_color` and `theme_unfocused_fg_color`
is the colour that `parse_css_color` returns for that last value. -/
theorem define_color_last_wins (items : List (List Char × color_statement))
    (last : List Char) (hfill : ∀ item ∈ items, plain_filler item.1)
    (hlast : plain_filler last) (hwf : ∀ item ∈ items, item.2.well_formed) :
    (∀ name : List Char,
        (collect_color_vars (stylesheet_text items last)).lookup name
          = last_value items name)
      ∧ (∀ (fs : filesystem) (css_file : List Char) (s : decoration_theme_t),
          fs.open_file css_file = some (stylesheet_text items last) →
          (parse_theme_css fs css_file s).raised = none →
          (∀ v, last_value items "theme_bg_color".toList = some v →
              parse_css_color v
                = .ok (parse_theme_css fs css_file s).state.theme_titlebar_bg_active)
            ∧ (∀ v, last_value items "theme_unfocused_bg_color".toList = some v →
                parse_css_color v
                  = .ok (parse_theme_css fs css_file s).state.theme_titlebar_bg_inactive)
            ∧ (∀ v, last_value items "theme_fg_color".toList = some v →
                parse_css_color v
                  = .ok (parse_theme_css fs css_file s).state.theme_titlebar_fg_active)
            ∧ (∀ v, last_value items "theme_unfocused_fg_color".toList = some v →
                parse_css_color v
                  = .ok (parse_theme_css fs css_file s).state.theme_titlebar_fg_inactive)) := by
  have hmap : ∀ name : List Char,
      (collect_color_vars (stylesheet_text items last)).lookup name
        = last_value items name := by
    intro name
    unfold collect_color_vars
    rw [define_color_loop_statements items last hfill hlast hwf _ [] (by omega),
      assign_all_lookup]
    cases last_value items name <;> rfl
  refine ⟨hmap, ?_⟩
  intro fs css_file s hopen hret
  obtain ⟨r1, r2, r3, r4⟩ := parse_theme_css_roles fs css_file _ s hopen hret
  refine ⟨fun v hv => ?_, fun v hv => ?_, fun v hv => ?_, fun v hv => ?_⟩
  · obtain ⟨hc, hr⟩ := count_read_of_lookup ((hmap _).trans hv)
    rw [← hr]
    exact r1 hc
  · obtain ⟨hc, hr⟩ := count_read_of_lookup ((hmap _).trans hv)
    rw [← hr]
    exact r2 hc
  · obtain ⟨hc, hr⟩ := count_read_of_lookup ((hmap _).trans hv)
    rw [← hr]
    exact r3 hc
  · obtain ⟨hc, hr⟩ := count_read_of_lookup ((hmap _).trans hv)
    rw [← hr]
    exact r4 hc

theorem all_space_single : all_space [' '] := by
  intro c hc
  simp at hc
  subst hc
  rfl

theorem twice_items_well_formed : ∀ item ∈ twice_items, item.2.well_formed := by
  intro item hi
  simp only [twice_items, List.mem_cons, List.mem_singleton, List.not_mem_nil, or_false] at hi
  rcases hi with rfl | rfl
  · exact ⟨by simp, all_space_single, by decide, by decide, by simp, all_space_single,
      by decide, by decide, by decide⟩
  · exact ⟨by simp, all_space_single, by decide, by decide, by simp, all_space_single,
      by decide, by decide, by decide⟩

theorem twice_items_plain : ∀ item ∈ twice_items, plain_filler item.1 := by
  intro item hi
  simp only [twice_items, List.mem_cons, List.mem_singleton, List.not_mem_nil, or_false] at hi
  rcases hi with rfl | rfl
  · unfold plain_filler; decide
  · unfold plain_filler; decide

/-- Witness for C20: `theme_bg_color` defined as `#111111` and later as `#202020`; the map
holds `#202020`. -/
theorem define_color_last_wins_witness :
    (collect_color_vars (stylesheet_text twice_items ['\n'])).lookup "theme_bg_color".toList
      = some "#202020".toList :=
  ((define_color_last_wins twice_items ['\n'] twice_items_plain
    (by unfold plain_filler; decide) twice_items_well_formed).1 "theme_bg_color".toList).trans
    (by decide)

theorem swallowed_items_well_formed : ∀ item ∈ swallowed_items, item.2.well_formed := by
  intro item hi
  simp only [swallowed_items, List.mem_cons, List.mem_singleton, List.not_mem_nil,
    or_false] at hi
  rcases hi with rfl | rfl
  · exact ⟨by simp, all_space_single, by decide, by decide, by simp, all_space_single,
      by decide, by decide, by decide⟩
  · exact ⟨by simp, all_space_single, by decide, by decide, by simp, all_space_single,
      by decide, by decide, by decide⟩

/-- Counterexample for C20: in the stylesheet
`@define-color theme_bg_color #111111;`, `@define-color x`, `@define-color theme_bg_color #202020;`
(one statement per line) the last statement for `theme_bg_color` has the value `#202020`, but
the line `@define-color x` has no semicolon, so the pattern takes the whole next statement as
the value of `x`: the map holds `#111111` for `theme_bg_color`, and `parse_theme_css` returns
with the active background computed from `#111111`, not from `#202020`. -/
theorem define_color_swallowed_counterexample :
    stylesheet_text swallowed_items ['\n'] = swallowed_css
      ∧ (∀ item ∈ swallowed_items, item.2.well_formed)
      ∧ last_value swallowed_items "theme_bg_color".toList = some "#202020".toList
      ∧ (collect_color_vars swallowed_css).lookup "theme_bg_color".toList
          = some "#111111".toList
      ∧ (collect_color_vars swallowed_css).lookup "x".toList
          = some "@define-color theme_bg_color #202020".toList
      ∧ (parse_theme_css (css_only_fs swallowed_css) "gtk.css".toList
          decoration_theme_t.new).raised = none
      ∧ parse_css_color "#111111".toList
          = .ok (parse_theme_css (css_only_fs swallowed_css) "gtk.css".toList
              decoration_theme_t.new).state.theme_titlebar_bg_active
      ∧ parse_css_color "#202020".toList
          ≠ .ok (parse_theme_css (css_only_fs swallowed_css) "gtk.css".toList
              decoration_theme_t.new).state.theme_titlebar_bg_active := by
  have hstate : (parse_theme_css (css_only_fs swallowed_css) "gtk.css".toList
      decoration_theme_t.new).state.theme_titlebar_bg_active
      = { r := ((17 : Int) : ℚ) / 255, g := ((17 : Int) : ℚ) / 255,
          b := ((17 : Int) : ℚ) / 255, a := 1 } := rfl
  refine ⟨by decide, swallowed_items_well_formed, by decide, by decide, by decide, rfl, rfl,
    ?_⟩
  rw [hstate, parse_css_color_202020]
  intro h
  have hr := congrArg color_t.r (Except.ok.inj h)
  norm_num at hr

/-! ## Theorems about the background colour -/

theorem render_background_eq (fs : filesystem) (options : theme_options)
    (self : decoration_theme_t) (active : Bool)
    (hret : (load_gtk_theme fs self).raised = none) :
    (render_background fs options self active).bg_color
      = some (if (selected_background fs self active).r = 0
            ∧ (selected_background fs self active).g = 0
            ∧ (selected_background fs self active).b = 0 then
          configured_background options active
        else selected_background fs self active) := by
  unfold render_background
  simp only [hret]
  cases active <;> rfl

theorem black_css_background :
    (load_gtk_theme (example_fs black_css) decoration_theme_t.new).raised = none
      ∧ (load_gtk_theme (example_fs black_css)
          decoration_theme_t.new).state.theme_titlebar_bg_active
        = { r := ((0 : Int) : ℚ) / 255, g := ((0 : Int) : ℚ) / 255, b := ((0 : Int) : ℚ) / 255,
            a := 1 }
      ∧ (load_gtk_theme (example_fs black_css)
          decoration_theme_t.new).state.theme_titlebar_bg_inactive
        = { r := ((0 : Int) : ℚ) / 255, g := ((0 : Int) : ℚ) / 255, b := ((0 : Int) : ℚ) / 255,
            a := 1 } :=
  ⟨rfl, rfl, rfl⟩

theorem unparsed_css_background :
    (load_gtk_theme (example_fs unparsed_css) decoration_theme_t.new).raised = none
      ∧ (load_gtk_theme (example_fs unparsed_css)
          decoration_theme_t.new).state.theme_titlebar_bg_active = black
      ∧ (load_gtk_theme (example_fs unparsed_css)
          decoration_theme_t.new).state.theme_titlebar_bg_inactive = black :=
  ⟨rfl, rfl, rfl⟩

/-- C21: after the lazy load, when the selected titlebar background (active or inactive) has
red, green and blue all 0, whatever its alpha, `render_background` paints with the configured
`active_color`, or `inactive_color` for an inactive window, and not with the theme colour;
for every other selected colour it paints with that colour. The first case includes a
stylesheet that validly defines `theme_bg_color` as `#000000` as well as one whose value is
not a colour literal. -/
theorem render_background_color (fs : filesystem) (options : theme_options)
    (self : decoration_theme_t) (active : Bool)
    (hret : (load_gtk_theme fs self).raised = none) :
    (((selected_background fs self active).r = 0 ∧ (selected_background fs self active).g = 0
          ∧ (selected_background fs self active).b = 0) →
        (render_background fs options self active).bg_color
          = some (configured_background options active))
      ∧ (¬ ((selected_background fs self active).r = 0
            ∧ (selected_background fs self active).g = 0
            ∧ (selected_background fs self active).b = 0) →
          (render_background fs options self active).bg_color
            = some (selected_background fs self active))
      ∧ (∀ (opts : theme_options) (act : Bool),
          (render_background (example_fs black_css) opts decoration_theme_t.new act).bg_color
            = some (configured_background opts act))
      ∧ (∀ (opts : theme_options) (act : Bool),
          (render_background (example_fs unparsed_css) opts decoration_theme_t.new
            act).bg_color = some (configured_background opts act)) := by
  have h := render_background_eq fs options self active hret
  refine ⟨fun hz => ?_, fun hn => ?_, ?_, ?_⟩
  · rw [h, if_pos hz]
  · rw [h, if_neg hn]
  · intro opts act
    obtain ⟨hr, ha, hi⟩ := black_css_background
    rw [render_background_eq _ opts _ act hr, if_pos]
    cases act
    · simp only [selected_background, hi]
      norm_num
    · simp only [selected_background, ha]
      norm_num
  · intro opts act
    obtain ⟨hr, ha, hi⟩ := unparsed_css_background
    rw [render_background_eq _ opts _ act hr, if_pos]
    cases act
    · simp only [selected_background, hi, black]
      norm_num
    · simp only [selected_background, ha, black]
      norm_num

/-- Witness for C21: the example stylesheet, whose background `#202020` is painted as it is,
for an active window of a fresh theme. -/
theorem render_background_color_witness :
    (render_background (example_fs example_css) example_options decoration_theme_t.new
        true).bg_color
      = some (selected_background (example_fs example_css) decoration_theme_t.new true) := by
  have hr : (load_gtk_theme (example_fs example_css) decoration_theme_t.new).raised = none :=
    rfl
  have hsel : (selected_background (example_fs example_css) decoration_theme_t.new true).r
      = ((32 : Int) : ℚ) / 255 := rfl
  exact (render_background_color (example_fs example_css) example_options
    decoration_theme_t.new true hr).2.1 (by rw [hsel]; norm_num)

/-! ## Theorems about the settings that `load_gtk_theme` applies before the stylesheet -/

theorem not_isPrefixOf_of_no_setting {lines : List (List Char)} {key : List Char}
    (h : no_setting lines key) : ∀ line ∈ lines, key.isPrefixOf line = false := by
  intro line hl
  rw [Bool.eq_false_iff]
  intro hp
  rw [ List.isPrefixOf_iff_prefix] at hp
  exact h line hl hp

/-- The value that the settings readers return when no line starts with the key. -/
theorem read_setting_of_no_setting (fs : filesystem) (key fallback home content : List Char)
    (h : fs.home = some home) (hf : fs.open_file (settings_path home) = some content)
    (hk : no_setting (getlines content) key) :
    (read_setting fs key fallback).1 = fallback :=
  read_setting_no_key fs key fallback home content h hf (not_isPrefixOf_of_no_setting hk)

/-- The value that the settings readers return: what follows the key in the first line that
starts with it. -/
theorem read_setting_of_first_setting (fs : filesystem)
    (key fallback home content value : List Char)
    (h : fs.home = some home) (hf : fs.open_file (settings_path home) = some content)
    (hk : first_setting (getlines content) key value) :
    (read_setting fs key fallback).1 = value := by
  obtain ⟨before, after, hl, hb⟩ := hk
  exact read_setting_first_line fs key fallback home content before value after h hf hl
    (not_isPrefixOf_of_no_setting hb)

theorem apply_gtk_font_nil (s : decoration_theme_t) : apply_gtk_font [] s = s := by
  unfold apply_gtk_font
  rw [if_neg (by simp)]

theorem apply_gtk_font_no_space (s : decoration_theme_t) (font : List Char)
    (h : ' ' ∉ font) : apply_gtk_font font s = s := by
  unfold apply_gtk_font
  split
  · rw [rfind_space_none h]
  · rfl

/-- The font part of `load_gtk_theme` on a value `family size_text` split at its last
space. -/
theorem apply_gtk_font_split (s : decoration_theme_t) (family size_text : List Char)
    (hns : ' ' ∉ size_text) :
    (apply_gtk_font (family ++ ' ' :: size_text) s).theme_font_family = family
      ∧ (∀ v, stoi size_text 10 = .ok v →
          (apply_gtk_font (family ++ ' ' :: size_text) s).theme_font_size = v)
      ∧ (∀ e, stoi size_text 10 = .error e →
          (apply_gtk_font (family ++ ' ' :: size_text) s).theme_font_size = 11) := by
  have hne : family ++ ' ' :: size_text ≠ [] := by simp
  have hdrop : (family ++ ' ' :: size_text).drop (family.length + 1) = size_text := by
    rw [show family ++ ' ' :: size_text = (family ++ [' ']) ++ size_text by simp]
    rw [List.drop_append_of_le_length (by simp)]
    simp
  have htake : (family ++ ' ' :: size_text).take family.length = family := by
    rw [List.take_append_of_le_length (le_refl _)]
    simp
  refine ⟨?_, ?_, ?_⟩
  · simp only [apply_gtk_font, if_pos hne, rfind_space_append family size_text hns, hdrop,
      htake]
    split <;> rfl
  · intro v hv
    simp only [apply_gtk_font, if_pos hne, rfind_space_append family size_text hns, hdrop, hv]
  · intro e he
    simp only [apply_gtk_font, if_pos hne, rfind_space_append family size_text hns, hdrop, he]

/-- The font that `load_gtk_theme` leaves on a fresh or reloaded theme when it stops before
the stylesheet is the font part applied to an unset font, and the icon theme name is the one
the settings reader returns. -/
theorem load_gtk_theme_settings (fs : filesystem) (s : decoration_theme_t)
    (hs : s = decoration_theme_t.new ∨ ∃ t, s = reload_theme t)
    (hno : (get_gtk_theme_name fs).1 = []
      ∨ (find_theme_css_file fs (get_gtk_theme_name fs).1).1 = []) :
    (load_gtk_theme fs s).state.icon_theme_name
        = (read_setting fs "gtk-icon-theme-name=".toList "hicolor".toList).1
      ∧ ∃ u : decoration_theme_t, u.theme_font_family = [] ∧ u.theme_font_size = 0
          ∧ (load_gtk_theme fs s).state.theme_font_family
            = (apply_gtk_font (read_setting fs "gtk-font-name=".toList []).1 u).theme_font_family
          ∧ (load_gtk_theme fs s).state.theme_font_size
            = (apply_gtk_font (read_setting fs "gtk-font-name=".toList []).1 u).theme_font_size := by
  have hl : s.theme_loaded = false := by
    rcases hs with rfl | ⟨t, rfl⟩ <;> rfl
  have hfont : s.theme_font_family = [] ∧ s.theme_font_size = 0 := by
    rcases hs with rfl | ⟨t, rfl⟩ <;> exact ⟨rfl, rfl⟩
  obtain ⟨-, hst⟩ := load_gtk_theme_stops_early fs s hl hno
  have ht := apply_gtk_font_titlebar (get_gtk_font_name fs).1
    { s with theme_loaded := true, icon_theme_name := (get_icon_theme_name fs).1 }
  refine ⟨?_, { s with theme_loaded := true, icon_theme_name := (get_icon_theme_name fs).1 },
    hfont.1, hfont.2, ?_, ?_⟩
  · rw [hst, ht.2]
    rfl
  · rw [hst]
    rfl
  · rw [hst]
    rfl

/-- C15: for a freshly constructed or just-reloaded theme, if the configuration yields no
theme name or no stylesheet file is found for it, `load_gtk_theme` returns normally with the
four titlebar colours at the process defaults, and the icon theme and the font of the
settings file are applied. The icon theme name is what follows `gtk-icon-theme-name=` in the
first line that starts with it, and `hicolor` when HOME is unset, when the settings file
cannot be opened and when no line starts with the key. The font is taken from what follows
`gtk-font-name=` in the first line that starts with it: the family is the text before its
last space and the size the integer after it, or 11 when `std::stoi` rejects that text; the
font stays unset (empty family, size 0) when the settings cannot be read, when no line starts
with the key and when the value has no space. The theme name is what follows
`gtk-theme-name=` in the first line that starts with it; it is empty when HOME is unset, when
the settings file cannot be opened, when no line starts with the key and when the first such
line has nothing after the key. -/
theorem load_gtk_theme_defaults (fs : filesystem) (s : decoration_theme_t)
    (hs : s = decoration_theme_t.new ∨ ∃ t, s = reload_theme t)
    (hno : (get_gtk_theme_name fs).1 = []
      ∨ (find_theme_css_file fs (get_gtk_theme_name fs).1).1 = []) :
    ((load_gtk_theme fs s).raised = none
        ∧ (load_gtk_theme fs s).state.theme_titlebar_bg_active = titlebar_bg_active_default
        ∧ (load_gtk_theme fs s).state.theme_titlebar_bg_inactive
          = titlebar_bg_inactive_default
        ∧ (load_gtk_theme fs s).state.theme_titlebar_fg_active = titlebar_fg_active_default
        ∧ (load_gtk_theme fs s).state.theme_titlebar_fg_inactive
          = titlebar_fg_inactive_default)
      ∧ ((fs.home = none
            ∨ ∃ home, fs.home = some home ∧ fs.open_file (settings_path home) = none) →
          (load_gtk_theme fs s).state.icon_theme_name = "hicolor".toList
            ∧ (load_gtk_theme fs s).state.theme_font_family = []
            ∧ (load_gtk_theme fs s).state.theme_font_size = 0
            ∧ (get_gtk_theme_name fs).1 = [])
      ∧ (∀ home content, fs.home = some home →
          fs.open_file (settings_path home) = some content →
          (no_setting (getlines content) "gtk-icon-theme-name=".toList →
              (load_gtk_theme fs s).state.icon_theme_name = "hicolor".toList)
            ∧ (∀ value, first_setting (getlines content) "gtk-icon-theme-name=".toList value →
                (load_gtk_theme fs s).state.icon_theme_name = value)
            ∧ (no_setting (getlines content) "gtk-font-name=".toList →
                (load_gtk_theme fs s).state.theme_font_family = []
                  ∧ (load_gtk_theme fs s).state.theme_font_size = 0)
            ∧ (∀ font, first_setting (getlines content) "gtk-font-name=".toList font →
                ' ' ∉ font →
                (load_gtk_theme fs s).state.theme_font_family = []
                  ∧ (load_gtk_theme fs s).state.theme_font_size = 0)
            ∧ (∀ family size_text,
                first_setting (getlines content) "gtk-font-name=".toList
                  (family ++ ' ' :: size_text) →
                ' ' ∉ size_text →
                (load_gtk_theme fs s).state.theme_font_family = family
                  ∧ (∀ v, stoi size_text 10 = .ok v →
                      (load_gtk_theme fs s).state.theme_font_size = v)
                  ∧ (∀ e, stoi size_text 10 = .error e →
                      (load_gtk_theme fs s).state.theme_font_size = 11)
                  ∧ (all_digits size_text → size_text ≠ [] →
                      decimal_value size_text ≤ 2147483647 →
                      (load_gtk_theme fs s).state.theme_font_size
                        = (decimal_value size_text : Int)))
            ∧ (no_setting (getlines content) "gtk-theme-name=".toList →
                (get_gtk_theme_name fs).1 = [])
            ∧ (∀ value, first_setting (getlines content) "gtk-theme-name=".toList value →
                (get_gtk_theme_name fs).1 = value)) := by
  have hl : s.theme_loaded = false := by
    rcases hs with rfl | ⟨t, rfl⟩ <;> rfl
  have hc : s.theme_titlebar_bg_active = titlebar_bg_active_default
      ∧ s.theme_titlebar_bg_inactive = titlebar_bg_inactive_default
      ∧ s.theme_titlebar_fg_active = titlebar_fg_active_default
      ∧ s.theme_titlebar_fg_inactive = titlebar_fg_inactive_default := by
    rcases hs with rfl | ⟨t, rfl⟩ <;> exact ⟨rfl, rfl, rfl, rfl⟩
  obtain ⟨hr, hst⟩ := load_gtk_theme_stops_early fs s hl hno
  have ht := apply_gtk_font_titlebar (get_gtk_font_name fs).1
    { s with theme_loaded := true, icon_theme_name := (get_icon_theme_name fs).1 }
  obtain ⟨hicon, u, hu1, hu2, hfam, hsize⟩ := load_gtk_theme_settings fs s hs hno
  refine ⟨⟨hr, ?_, ?_, ?_, ?_⟩, ?_, ?_⟩
  · rw [hst, ht.1.1]; exact hc.1
  · rw [hst, ht.1.2.1]; exact hc.2.1
  · rw [hst, ht.1.2.2.1]; exact hc.2.2.1
  · rw [hst, ht.1.2.2.2]; exact hc.2.2.2
  · intro hnone
    have hread : ∀ key fallback : List Char, (read_setting fs key fallback).1 = fallback := by
      intro key fallback
      rcases hnone with h | ⟨home, h, hf⟩
      · exact read_setting_no_home fs key fallback h
      · exact read_setting_no_file fs key fallback home h hf
    rw [hread] at hicon hfam hsize
    rw [apply_gtk_font_nil] at hfam hsize
    exact ⟨hicon, hfam.trans hu1, hsize.trans hu2, hread _ _⟩
  · intro home content h hf
    refine ⟨fun hk => ?_, fun value hk => ?_, fun hk => ?_, fun font hk hsp => ?_,
      fun family size_text hk hsp => ?_, fun hk => ?_, fun value hk => ?_⟩
    · rw [hicon]
      exact read_setting_of_no_setting fs _ _ home content h hf hk
    · rw [hicon]
      exact read_setting_of_first_setting fs _ _ home content value h hf hk
    · rw [read_setting_of_no_setting fs _ _ home content h hf hk, apply_gtk_font_nil]
        at hfam hsize
      exact ⟨hfam.trans hu1, hsize.trans hu2⟩
    · rw [read_setting_of_first_setting fs _ _ home content font h hf hk,
        apply_gtk_font_no_space u font hsp] at hfam hsize
      exact ⟨hfam.trans hu1, hsize.trans hu2⟩
    · rw [read_setting_of_first_setting fs _ _ home content _ h hf hk] at hfam hsize
      obtain ⟨s1, s2, s3⟩ := apply_gtk_font_split u family size_text hsp
      refine ⟨hfam.trans s1, fun v hv => hsize.trans (s2 v hv),
        fun e he => hsize.trans (s3 e he), fun hd hn hv => ?_⟩
      exact hsize.trans (s2 _ (stoi_digits hd hn hv))
    · exact read_setting_of_no_setting fs _ _ home content h hf hk
    · exact read_setting_of_first_setting fs _ _ home content value h hf hk

/-- Witness for C15: a fresh theme and the settings file with the two lines
`gtk-icon-theme-name=Papirus` and `gtk-font-name=Cantarell 11`, which names no theme; and a
reloaded theme and the settings file with the three lines `gtk-theme-name=Arc`,
`gtk-icon-theme-name=Papirus` and `gtk-font-name=Noto Sans 10`, for which no stylesheet
exists. -/
theorem load_gtk_theme_defaults_witness :
    ((load_gtk_theme (settings_fs no_theme_settings) decoration_theme_t.new).raised = none
        ∧ (load_gtk_theme (settings_fs no_theme_settings)
            decoration_theme_t.new).state.theme_titlebar_bg_active
          = { r := 1 / 10, g := 1 / 10, b := 15 / 100, a := 1 }
        ∧ (load_gtk_theme (settings_fs no_theme_settings)
            decoration_theme_t.new).state.icon_theme_name = "Papirus".toList
        ∧ (load_gtk_theme (settings_fs no_theme_settings)
            decoration_theme_t.new).state.theme_font_family = "Cantarell".toList
        ∧ (load_gtk_theme (settings_fs no_theme_settings)
            decoration_theme_t.new).state.theme_font_size = 11)
      ∧ ((get_gtk_theme_name (settings_fs named_theme_settings)).1 = "Arc".toList
        ∧ (load_gtk_theme (settings_fs named_theme_settings)
            (reload_theme decoration_theme_t.new)).raised = none
        ∧ (load_gtk_theme (settings_fs named_theme_settings)
            (reload_theme decoration_theme_t.new)).state.theme_titlebar_fg_inactive
          = { r := 7 / 10, g := 7 / 10, b := 73 / 100, a := 7 / 10 }
        ∧ (load_gtk_theme (settings_fs named_theme_settings)
            (reload_theme decoration_theme_t.new)).state.icon_theme_name = "Papirus".toList
        ∧ (load_gtk_theme (settings_fs named_theme_settings)
            (reload_theme decoration_theme_t.new)).state.theme_font_family
          = "Noto Sans".toList
        ∧ (load_gtk_theme (settings_fs named_theme_settings)
            (reload_theme decoration_theme_t.new)).state.theme_font_size = 10) := by
  have ha := load_gtk_theme_defaults (settings_fs no_theme_settings) decoration_theme_t.new
    (Or.inl rfl) (Or.inl (by decide))
  have hb := load_gtk_theme_defaults (settings_fs named_theme_settings)
    (reload_theme decoration_theme_t.new) (Or.inr ⟨_, rfl⟩) (Or.inr (by decide))
  have ha3 := ha.2.2 "/home/u".toList no_theme_settings rfl (by decide)
  have hb3 := hb.2.2 "/home/u".toList named_theme_settings rfl (by decide)
  refine ⟨⟨ha.1.1, ha.1.2.1, ?_, ?_, ?_⟩, ?_, hb.1.1, hb.1.2.2.2.2, ?_, ?_, ?_⟩
  · exact ha3.2.1 "Papirus".toList ⟨[], ["gtk-font-name=Cantarell 11".toList], by decide,
      by simp⟩
  · exact (ha3.2.2.2.2.1 "Cantarell".toList "11".toList
      ⟨["gtk-icon-theme-name=Papirus".toList], [], by decide, by decide⟩ (by decide)).1
  · exact (ha3.2.2.2.2.1 "Cantarell".toList "11".toList
      ⟨["gtk-icon-theme-name=Papirus".toList], [], by decide, by decide⟩ (by decide)).2.1
      11 rfl
  · exact hb3.2.2.2.2.2.2 "Arc".toList
      ⟨[], ["gtk-icon-theme-name=Papirus".toList, "gtk-font-name=Noto Sans 10".toList],
        by decide, by simp⟩
  · exact hb3.2.1 "Papirus".toList
      ⟨["gtk-theme-name=Arc".toList], ["gtk-font-name=Noto Sans 10".toList], by decide,
        by decide⟩
  · exact (hb3.2.2.2.2.1 "Noto Sans".toList "10".toList
      ⟨["gtk-theme-name=Arc".toList, "gtk-icon-theme-name=Papirus".toList], [], by decide,
        by decide⟩ (by decide)).1
  · exact (hb3.2.2.2.2.1 "Noto Sans".toList "10".toList
      ⟨["gtk-theme-name=Arc".toList, "gtk-icon-theme-name=Papirus".toList], [], by decide,
        by decide⟩ (by decide)).2.1 10 rfl

end GtkDecor
